import Mathlib

/-!
# Open3D: point-cloud factory, pose-graph data model and TSDF voxel indexing

A shallow embedding of the parts of the Open3D sources that the properties
proved below talk about:

* `Core/Integration/UniformTSDFVolume.h`  (voxel index arithmetic),
* `Core/Geometry/PointCloudFactory.cpp`   (depth / RGB-D back-projection),
* `Core/Registration/PoseGraph.h`         (pose-graph nodes and edges),
* `Python/Core/py3d_globaloptimization.cpp` (the Python constructors,
  `ReadPoseGraph` and the `__repr__` of an edge),
* `Experimental/EvaluateFeatureMatch/EvaluateFeatureMatch.cpp` (the default
  data directory of `main`, and `ReadLogFile`).

The bodies of `UniformTSDFVolume::Integrate` / `Reset` and of the JSON
conversions of the pose graph are not part of the sources: they are modelled
from the specification, in sections of their own, and every such definition
says so.

Conventions of the embedding.

* C++ `double` and `float` are modelled by `ℚ` (exact arithmetic, no rounding);
  `/` is the total division of `ℚ`.
* C++ `int` is modelled by `Int`. In the loops over the pixels of an image the
  value of an `int` expression is the one the C++ expression has whenever no
  intermediate result leaves the range of `int` (signed overflow is undefined
  behaviour in C++). The voxel index and the integers `sscanf` stores are
  reduced to 32 bits as the compiled code reduces them.
* `Eigen::Matrix4d` is `Matrix (Fin 4) (Fin 4) ℚ`, `Eigen::Vector3d` is
  `Fin 3 → ℚ`.
* A `std::vector<uint8_t>` buffer is a `List (Fin 256)`; a load outside the
  buffer is undefined behaviour in C++ and is modelled as a recorded fault that
  cuts the execution.
* A text file is the list of its lines; `fgets` hands over one line with its
  newline, and `strlen` and `sscanf` work on the C string of that buffer,
  `sscanf` conversion by conversion as the GNU C library does.
-/

namespace Open3D

/-! ## Linear algebra (Eigen) -/

/-- Eigen::Vector3d in exact arithmetic. -/
abbrev Vector3d := Fin 3 → ℚ

/-- Eigen::Vector4d in exact arithmetic. -/
abbrev Vector4d := Fin 4 → ℚ

/-- Eigen::Vector3i. -/
abbrev Vector3i := Fin 3 → Int

/-- Eigen::Matrix4d in exact arithmetic. -/
abbrev Matrix4d := Matrix (Fin 4) (Fin 4) ℚ

/-- Eigen::Matrix6d in exact arithmetic. -/
abbrev Matrix6d := Matrix (Fin 6) (Fin 6) ℚ

/-- The `inverse()` of a fixed-size 4x4 Eigen matrix: Eigen evaluates the
cofactor formula `adjugate / determinant` with no invertibility check. -/
def Matrix4d.inverse (m : Matrix4d) : Matrix4d :=
  (m.det)⁻¹ • m.adjugate

/-- The `v.block<3, 1>(0, 0)` of a 4-vector: its first three entries. -/
def block31 (v : Vector4d) : Vector3d :=
  ![v 0, v 1, v 2]

/-- The homogeneous 4-vector `(p, 1)` of a 3-vector `p`. -/
def homogeneous (p : Vector3d) : Vector4d :=
  ![p 0, p 1, p 2, 1]

/-! ## 32-bit `int` arithmetic -/

/-- The least value of a 32-bit `int`. -/
def INT_MIN : Int := -2147483648

/-- The greatest value of a 32-bit `int`. -/
def INT_MAX : Int := 2147483647

/-- The value fits a 32-bit signed `int`. -/
def FitsInt (n : Int) : Prop := INT_MIN ≤ n ∧ n ≤ INT_MAX

instance (n : Int) : Decidable (FitsInt n) :=
  inferInstanceAs (Decidable (INT_MIN ≤ n ∧ n ≤ INT_MAX))

/-- The reduction of an integer to the 32-bit two's complement value with the
same residue modulo `2^32`. -/
def wrapInt (n : Int) : Int := (n + 2147483648) % 4294967296 - 2147483648

/-- The product `a * b` of two `int`: `none` when it overflows (undefined
behaviour in C++). -/
def mulInt (a b : Int) : Option Int :=
  if FitsInt (a * b) then some (a * b) else none

/-- The sum `a + b` of two `int`: `none` when it overflows (undefined behaviour
in C++). -/
def addInt (a b : Int) : Option Int :=
  if FitsInt (a + b) then some (a + b) else none

/-! ## `UniformTSDFVolume` (Core/Integration/UniformTSDFVolume.h) -/

/-- The data members of `UniformTSDFVolume` that the index arithmetic uses, both
of type `int`. -/
structure UniformTSDFVolume where
  resolution_ : Int
  voxel_num_ : Int
deriving DecidableEq, Repr

namespace UniformTSDFVolume

/-- The member `int index(int x, int y, int z)`:
`return x * resolution_ * resolution_ + y * resolution_ + z;`
in the 32-bit `int` arithmetic of the compiled code: the expression is
evaluated in the order C++ parses it, `((x * R) * R + y * R) + z`, and every
product and sum is reduced to 32 bits. (A product or sum that leaves the range
of `int` is undefined behaviour in C++; `index_int32` tells when that
happens, and two's complement hardware then computes the reduced value.) -/
def index (self : UniformTSDFVolume) (x y z : Int) : Int :=
  wrapInt (wrapInt (wrapInt (wrapInt (x * self.resolution_) * self.resolution_) +
    wrapInt (y * self.resolution_)) + z)

/-- The overload `int index(const Eigen::Vector3i xyz)`:
`return index(xyz(0), xyz(1), xyz(2));`. -/
def indexVec (self : UniformTSDFVolume) (xyz : Vector3i) : Int :=
  self.index (xyz 0) (xyz 1) (xyz 2)

/-- The member `index(x, y, z)` with every 32-bit operation checked, in the
order C++ parses `x * resolution_ * resolution_ + y * resolution_ + z`:
`((x * R) * R + y * R) + z`; `none` when an intermediate product or sum
overflows. -/
def index_int32 (self : UniformTSDFVolume) (x y z : Int) : Option Int :=
  (mulInt x self.resolution_).bind fun xr =>
  (mulInt xr self.resolution_).bind fun xrr =>
  (mulInt y self.resolution_).bind fun yr =>
  (addInt xrr yr).bind fun s =>
  addInt s z

/-- The member `index` under the name it has in the overflow analysis: every
intermediate result wrapped to 32 bits (what two's complement hardware
computes). -/
def index_wrap (self : UniformTSDFVolume) (x y z : Int) : Int :=
  self.index x y z

/-- The voxel coordinate stored at a flat index: the inverse of
`x * R * R + y * R + z` on the coordinates of the grid. -/
def coordinate (self : UniformTSDFVolume) (idx : Int) : Int × Int × Int :=
  (idx / self.resolution_ / self.resolution_, idx / self.resolution_ % self.resolution_,
    idx % self.resolution_)

end UniformTSDFVolume

/-! ## Images and cameras -/

/-- One `uint8_t` of an image buffer. -/
abbrev Byte := Fin 256

/-- Modelled from the spec: `Core/Geometry/Image.h` is absent from the sources.
An image is a depth or colour map given by its pixel dimensions, its number of
channels, its bytes per channel and a byte buffer (`std::vector<uint8_t>`); the
four `int` members and `data_` carry the names the factory uses. -/
structure Image where
  width_ : Int
  height_ : Int
  num_of_channels_ : Int
  bytes_per_channel_ : Int
  data_ : List Byte
deriving DecidableEq, Repr

namespace Image

/-- Modelled from the spec: `Image::BytesPerLine()` is declared in the absent
`Image.h`; rows are tightly packed, so one line of pixels takes
`width_ * num_of_channels_ * bytes_per_channel_` bytes. -/
def BytesPerLine (self : Image) : Int :=
  self.width_ * self.num_of_channels_ * self.bytes_per_channel_

/-- The byte at `offset` of `data_.data()`, or `none` when `offset` is outside
the buffer. -/
def byteAt (self : Image) (offset : Int) : Option Byte :=
  if 0 ≤ offset then self.data_.get? offset.toNat else none

/-- The load `*(uint16_t *)(data_.data() + offset)` (two bytes, little endian),
or `none` when one of the two bytes is outside the buffer. -/
def load16 (self : Image) (offset : Int) : Option Nat :=
  match self.byteAt offset, self.byteAt (offset + 1) with
  | some lo, some hi => some (lo.val + 256 * hi.val)
  | _, _ => none

/-- The loads `pc[0], pc[1], pc[2]` for `pc = data_.data() + offset`, or `none`
when one of the three bytes is outside the buffer. -/
def load8x3 (self : Image) (offset : Int) : Option (Nat × Nat × Nat) :=
  match self.byteAt offset, self.byteAt (offset + 1), self.byteAt (offset + 2) with
  | some r, some g, some b => some (r.val, g.val, b.val)
  | _, _, _ => none

end Image

/-- Modelled from the spec: `Core/Camera/PinholeCameraIntrinsic.h` is absent
from the sources. Pinhole intrinsics are the focal lengths `(fx, fy)` and the
principal point `(cx, cy)`, which `GetFocalLength()` and `GetPrincipalPoint()`
return as pairs. -/
structure PinholeCameraIntrinsic where
  focal_length : ℚ × ℚ
  principal_point : ℚ × ℚ
deriving DecidableEq

namespace PinholeCameraIntrinsic

/-- Modelled from the spec: the getter of the focal lengths `(fx, fy)`. -/
def GetFocalLength (self : PinholeCameraIntrinsic) : ℚ × ℚ := self.focal_length

/-- Modelled from the spec: the getter of the principal point `(cx, cy)`. -/
def GetPrincipalPoint (self : PinholeCameraIntrinsic) : ℚ × ℚ := self.principal_point

end PinholeCameraIntrinsic

/-- The members of `PointCloud` that the factory functions fill
(`Core/Geometry/PointCloud.h`, used through `pointcloud->points_` and
`pointcloud->colors_`). -/
structure PointCloud where
  points_ : List Vector3d
  normals_ : List Vector3d
  colors_ : List Vector3d
deriving DecidableEq

/-- The result of `std::make_shared<PointCloud>()`: an empty cloud. -/
def PointCloud.empty : PointCloud := ⟨[], [], []⟩

/-! ## Executions of the factory functions

The factory functions read the image buffers through raw pointers. A run
records every pixel load it performs, and stops with `fault` set at the first
load that is not inside its buffer. -/

/-- A pixel load: the `uint16_t` at a byte offset of `depth.data_`, or the three
`uint8_t` starting at a byte offset of `color.data_`. -/
inductive Load where
  | depth (offset : Int)
  | color (offset : Int)
deriving DecidableEq, Repr

/-- A load is inside its buffer when all of its bytes are. -/
def Load.InBounds (depth color : Image) : Load → Prop
  | .depth offset => 0 ≤ offset ∧ offset + 2 ≤ depth.data_.length
  | .color offset => 0 ≤ offset ∧ offset + 3 ≤ color.data_.length

instance (depth color : Image) (l : Load) : Decidable (l.InBounds depth color) :=
  match l with
  | .depth offset =>
    inferInstanceAs (Decidable (0 ≤ offset ∧ offset + 2 ≤ depth.data_.length))
  | .color offset =>
    inferInstanceAs (Decidable (0 ≤ offset ∧ offset + 3 ≤ color.data_.length))

/-- The state of a run: the cloud built so far, the loads performed so far (in
program order), and whether the last load fell outside its buffer. -/
structure Run where
  pointcloud : PointCloud
  loads : List Load
  fault : Bool
deriving DecidableEq

namespace Run

/-- The state right after `auto pointcloud = std::make_shared<PointCloud>();`. -/
def init : Run := ⟨PointCloud.empty, [], false⟩

/-- Record a load that was inside its buffer. -/
def log (r : Run) (l : Load) : Run :=
  { r with loads := r.loads ++ [l] }

/-- Record a load outside its buffer: the run stops here. -/
def crash (r : Run) (l : Load) : Run :=
  { r with loads := r.loads ++ [l], fault := true }

/-- The statement `pointcloud->points_.push_back(p)`. -/
def pushPoint (r : Run) (p : Vector3d) : Run :=
  { r with pointcloud := { r.pointcloud with points_ := r.pointcloud.points_ ++ [p] } }

/-- The statement `pointcloud->colors_.push_back(c)`. -/
def pushColor (r : Run) (c : Vector3d) : Run :=
  { r with pointcloud := { r.pointcloud with colors_ := r.pointcloud.colors_ ++ [c] } }

/-- The value a run returns: the cloud, unless the run hit a load outside a
buffer (undefined behaviour). -/
def result (r : Run) : Option PointCloud :=
  if r.fault then none else some r.pointcloud

end Run

/-! ## `PointCloudFactory.cpp` -/

/-- The camera-frame coordinates `(x, y, z)` the loop body computes for the
pixel at row `i`, column `j` with raw depth `d`:
`z = (double)(*p) / depth_scale`,
`x = (j - principal_point.first) * z / focal_length.first`,
`y = (i - principal_point.second) * z / focal_length.second`. -/
def cameraPoint (intrinsic : PinholeCameraIntrinsic) (depth_scale : ℚ)
    (i j : Int) (d : Nat) : ℚ × ℚ × ℚ :=
  let focal_length := intrinsic.GetFocalLength
  let principal_point := intrinsic.GetPrincipalPoint
  let z : ℚ := (d : ℚ) / depth_scale
  let x : ℚ := ((j : ℚ) - principal_point.1) * z / focal_length.1
  let y : ℚ := ((i : ℚ) - principal_point.2) * z / focal_length.2
  (x, y, z)

/-- The point the loop body pushes for that pixel:
`point = camera_pose * Eigen::Vector4d(x, y, z, 1.0)` and then
`point.block<3, 1>(0, 0)`. -/
def backProject (intrinsic : PinholeCameraIntrinsic) (camera_pose : Matrix4d)
    (depth_scale : ℚ) (i j : Int) (d : Nat) : Vector3d :=
  let c := cameraPoint intrinsic depth_scale i j d
  let point : Vector4d := camera_pose.mulVec ![c.1, c.2.1, c.2.2, 1]
  block31 point

/-- The colour the RGB-D loop body pushes:
`Eigen::Vector3d(pc[0], pc[1], pc[2]) / 255.0`. -/
def pixelColor (c : Nat × Nat × Nat) : Vector3d :=
  ![(c.1 : ℚ) / 255, (c.2.1 : ℚ) / 255, (c.2.2 : ℚ) / 255]

/-- The body of the inner loop of `CreatePointCloudFromDepthImage` at row `i`,
column `j`; `p` points at byte `i * depth.BytesPerLine() + 2 * j`. -/
def depthPixel (depth : Image) (intrinsic : PinholeCameraIntrinsic)
    (camera_pose : Matrix4d) (depth_scale : ℚ) (i j : Nat) (r : Run) : Run :=
  if r.fault then r
  else
    let p : Int := (i : Int) * depth.BytesPerLine + 2 * (j : Int)
    match depth.load16 p with
    | none => r.crash (.depth p)
    | some d =>
      let r := r.log (.depth p)
      if d > 0 then
        r.pushPoint (backProject intrinsic camera_pose depth_scale i j d)
      else r

/-- The inner loop `for (int j = 0; j < depth.width_; j++, p++)` at row `i`. -/
def depthRow (depth : Image) (intrinsic : PinholeCameraIntrinsic)
    (camera_pose : Matrix4d) (depth_scale : ℚ) (i : Nat) (r : Run) : Run :=
  (List.range depth.width_.toNat).foldl
    (fun r j => depthPixel depth intrinsic camera_pose depth_scale i j r) r

/-- The outer loop `for (int i = 0; i < depth.height_; i++)`. -/
def depthLoop (depth : Image) (intrinsic : PinholeCameraIntrinsic)
    (camera_pose : Matrix4d) (depth_scale : ℚ) (r : Run) : Run :=
  (List.range depth.height_.toNat).foldl
    (fun r i => depthRow depth intrinsic camera_pose depth_scale i r) r

/-- The run of `CreatePointCloudFromDepthImage(depth, intrinsic, extrinsic,
depth_scale)`. -/
def CreatePointCloudFromDepthImage_run (depth : Image)
    (intrinsic : PinholeCameraIntrinsic) (extrinsic : Matrix4d)
    (depth_scale : ℚ) : Run :=
  let pointcloud := Run.init
  if depth.num_of_channels_ ≠ 1 ∨ depth.bytes_per_channel_ ≠ 2 then
    pointcloud
  else
    let camera_pose := extrinsic.inverse
    depthLoop depth intrinsic camera_pose depth_scale pointcloud

/-- The cloud `CreatePointCloudFromDepthImage` returns (`none` when the run
loads outside the depth buffer). -/
def CreatePointCloudFromDepthImage (depth : Image)
    (intrinsic : PinholeCameraIntrinsic) (extrinsic : Matrix4d)
    (depth_scale : ℚ) : Option PointCloud :=
  (CreatePointCloudFromDepthImage_run depth intrinsic extrinsic depth_scale).result

/-- The body of the inner loop of `CreatePointCloudFromRGBDImage` at row `i`,
column `j`; `p` points at byte `i * depth.BytesPerLine() + 2 * j` of the depth
buffer and `pc` at byte `i * color.BytesPerLine() + 3 * j` of the colour
buffer. -/
def rgbdPixel (depth color : Image) (intrinsic : PinholeCameraIntrinsic)
    (camera_pose : Matrix4d) (depth_scale : ℚ) (i j : Nat) (r : Run) : Run :=
  if r.fault then r
  else
    let p : Int := (i : Int) * depth.BytesPerLine + 2 * (j : Int)
    let pc : Int := (i : Int) * color.BytesPerLine + 3 * (j : Int)
    match depth.load16 p with
    | none => r.crash (.depth p)
    | some d =>
      let r := r.log (.depth p)
      if d > 0 then
        let r := r.pushPoint (backProject intrinsic camera_pose depth_scale i j d)
        match color.load8x3 pc with
        | none => r.crash (.color pc)
        | some c => (r.log (.color pc)).pushColor (pixelColor c)
      else r

/-- The inner loop `for (int j = 0; j < depth.width_; j++, p++, pc += 3)`. -/
def rgbdRow (depth color : Image) (intrinsic : PinholeCameraIntrinsic)
    (camera_pose : Matrix4d) (depth_scale : ℚ) (i : Nat) (r : Run) : Run :=
  (List.range depth.width_.toNat).foldl
    (fun r j => rgbdPixel depth color intrinsic camera_pose depth_scale i j r) r

/-- The outer loop `for (int i = 0; i < depth.height_; i++)`. -/
def rgbdLoop (depth color : Image) (intrinsic : PinholeCameraIntrinsic)
    (camera_pose : Matrix4d) (depth_scale : ℚ) (r : Run) : Run :=
  (List.range depth.height_.toNat).foldl
    (fun r i => rgbdRow depth color intrinsic camera_pose depth_scale i r) r

/-- The run of `CreatePointCloudFromRGBDImage(depth, color, intrinsic,
extrinsic, depth_scale)`. -/
def CreatePointCloudFromRGBDImage_run (depth color : Image)
    (intrinsic : PinholeCameraIntrinsic) (extrinsic : Matrix4d)
    (depth_scale : ℚ) : Run :=
  let pointcloud := Run.init
  if depth.num_of_channels_ ≠ 1 ∨ depth.bytes_per_channel_ ≠ 2 ∨
      color.num_of_channels_ ≠ 3 ∨ color.bytes_per_channel_ ≠ 1 then
    pointcloud
  else
    let camera_pose := extrinsic.inverse
    rgbdLoop depth color intrinsic camera_pose depth_scale pointcloud

/-- The cloud `CreatePointCloudFromRGBDImage` returns (`none` when the run loads
outside one of the two buffers). -/
def CreatePointCloudFromRGBDImage (depth color : Image)
    (intrinsic : PinholeCameraIntrinsic) (extrinsic : Matrix4d)
    (depth_scale : ℚ) : Option PointCloud :=
  (CreatePointCloudFromRGBDImage_run depth color intrinsic extrinsic depth_scale).result

/-! ## `PoseGraph.h` -/

/-- The class `PoseGraphNode`: one public member `pose_`. -/
structure PoseGraphNode where
  pose_ : Matrix4d
deriving DecidableEq

/-- The constructor
`PoseGraphNode(Eigen::Matrix4d pose = Eigen::Matrix4d::Identity()) : pose_(pose)`;
an omitted argument is `none`. -/
def PoseGraphNode.new (pose : Option Matrix4d) : PoseGraphNode :=
  ⟨pose.getD 1⟩

/-- The class `PoseGraphEdge`: its six public members, in declaration order. -/
structure PoseGraphEdge where
  target_node_id_ : Int
  source_node_id_ : Int
  transformation_ : Matrix4d
  information_ : Matrix6d
  uncertain_ : Bool
  confidence_ : ℚ
deriving DecidableEq

/-- The constructor
`PoseGraphEdge(int target_node_id = -1, int source_node_id = -1,
Eigen::Matrix4d transformation = Identity(), Eigen::Matrix6d information =
Identity(), bool uncertain = false, double confidence = 1.0)`, whose initialiser
list copies every argument into the member of the same name; an omitted
argument is `none`. -/
def PoseGraphEdge.new (target_node_id source_node_id : Option Int)
    (transformation : Option Matrix4d) (information : Option Matrix6d)
    (uncertain : Option Bool) (confidence : Option ℚ) : PoseGraphEdge :=
  ⟨target_node_id.getD (-1), source_node_id.getD (-1), transformation.getD 1,
    information.getD 1, uncertain.getD false, confidence.getD 1⟩

/-- The class `PoseGraph`: the public vectors `nodes_` and `edges_`. -/
structure PoseGraph where
  nodes_ : List PoseGraphNode
  edges_ : List PoseGraphEdge
deriving DecidableEq

/-- The constructor `PoseGraph()`: both vectors start empty. -/
def PoseGraph.new : PoseGraph := ⟨[], []⟩

/-- The ways the public vectors of a `PoseGraph` grow: `nodes_.push_back(node)`
and `edges_.push_back(edge)` (in Python `nodes.append`, `edges.append`). -/
inductive PoseGraphOp where
  | push_node (node : PoseGraphNode)
  | push_edge (edge : PoseGraphEdge)

/-- Apply one append to a graph. -/
def PoseGraph.apply (g : PoseGraph) : PoseGraphOp → PoseGraph
  | .push_node node => ⟨g.nodes_ ++ [node], g.edges_⟩
  | .push_edge edge => ⟨g.nodes_, g.edges_ ++ [edge]⟩

/-- The graph built from `PoseGraph()` by a sequence of appends. -/
def PoseGraph.build (ops : List PoseGraphOp) : PoseGraph :=
  ops.foldl PoseGraph.apply PoseGraph.new

/-- An edge references two valid, distinct nodes of a graph with `n` nodes. -/
def PoseGraphEdge.ValidIn (e : PoseGraphEdge) (n : Nat) : Prop :=
  0 ≤ e.source_node_id_ ∧ e.source_node_id_ < n ∧
  0 ≤ e.target_node_id_ ∧ e.target_node_id_ < n ∧
  e.source_node_id_ ≠ e.target_node_id_

instance (e : PoseGraphEdge) (n : Nat) : Decidable (e.ValidIn n) :=
  inferInstanceAs (Decidable (0 ≤ e.source_node_id_ ∧ e.source_node_id_ < n ∧
    0 ≤ e.target_node_id_ ∧ e.target_node_id_ < n ∧
    e.source_node_id_ ≠ e.target_node_id_))

/-- The invariant of the data model: every edge of the graph references two
valid, distinct node indices. -/
def PoseGraph.EdgesValid (g : PoseGraph) : Prop :=
  ∀ e ∈ g.edges_, e.ValidIn g.nodes_.length

instance (g : PoseGraph) : Decidable g.EdgesValid :=
  inferInstanceAs (Decidable (∀ e ∈ g.edges_, e.ValidIn g.nodes_.length))

/-- The caller-side discipline under which appends keep the invariant: every
appended edge references two valid, distinct nodes of the graph it is appended
to. -/
def PoseGraph.Disciplined : PoseGraph → List PoseGraphOp → Prop
  | _, [] => True
  | g, .push_node node :: ops => PoseGraph.Disciplined (g.apply (.push_node node)) ops
  | g, .push_edge edge :: ops =>
      edge.ValidIn g.nodes_.length ∧ PoseGraph.Disciplined (g.apply (.push_edge edge)) ops

/-! ## `py3d_globaloptimization.cpp` -/

/-- The keyword arguments of the Python `PoseGraphEdge(...)` call; an argument
the caller does not pass is `none`. -/
structure PoseGraphEdgeArgs where
  target_node_id : Option Int
  source_node_id : Option Int
  transformation : Option Matrix4d
  information : Option Matrix6d
  uncertain : Option Bool
  confidence : Option ℚ

/-- The call `PoseGraphEdge()` with nothing passed. -/
def PoseGraphEdgeArgs.none : PoseGraphEdgeArgs :=
  ⟨Option.none, Option.none, Option.none, Option.none, Option.none, Option.none⟩

/-- The Python constructor registered by
`py::detail::bind_default_constructor<PoseGraphEdge>`: it runs the C++ default
constructor. -/
def py_PoseGraphEdge_default : PoseGraphEdge :=
  PoseGraphEdge.new none none none none none none

/-- The Python `__init__` of `PoseGraphEdge`: pybind11 fills every argument the
caller omitted with the default declared in the binding
(`"target_node_id"_a = -1, "source_node_id"_a = -1, "transformation"_a =
Identity(), "information"_a = Identity(), "uncertain"_a = false,
"confidence"_a = 1.0`) and the lambda runs
`new (&c)PoseGraphEdge(target_node_id, source_node_id, transformation,
information, uncertain, confidence)`. -/
def py_PoseGraphEdge_init (args : PoseGraphEdgeArgs) : PoseGraphEdge :=
  let target_node_id : Int := args.target_node_id.getD (-1)
  let source_node_id : Int := args.source_node_id.getD (-1)
  let transformation : Matrix4d := args.transformation.getD 1
  let information : Matrix6d := args.information.getD 1
  let uncertain : Bool := args.uncertain.getD false
  let confidence : ℚ := args.confidence.getD 1
  PoseGraphEdge.new (some target_node_id) (some source_node_id)
    (some transformation) (some information) (some uncertain) (some confidence)

/-- What a Python caller observes of a call: the value it returns, or the
exception it raises. -/
inductive PyOutcome (α : Type) where
  | returned (value : α)
  | raised (message : String)
deriving DecidableEq

/-- The C++ function `ReadPoseGraph(filename, pose_graph)`, declared in the
absent `IO/ClassIO/PoseGraphIO.h` and taken as a parameter of the binding: from
the file name and the graph passed in, the `bool` it returns and the graph it
leaves in `pose_graph`. -/
abbrev PoseGraphReader := String → PoseGraph → Bool × PoseGraph

/-- The Python function `ReadPoseGraph`:
`PoseGraph pose_graph; ReadPoseGraph(filename, pose_graph); return pose_graph;`.
The `bool` of the C++ call is dropped. -/
def py_ReadPoseGraph (ReadPoseGraph : PoseGraphReader) (filename : String) :
    PyOutcome PoseGraph :=
  let pose_graph := PoseGraph.new
  let pose_graph := (ReadPoseGraph filename pose_graph).2
  .returned pose_graph

/-- What a pose-graph file holds: nothing readable (missing file or malformed
document), or a document describing a pose graph. -/
inductive PoseGraphFile where
  | unreadable
  | document (g : PoseGraph)

/-- Modelled from the spec: the reader behind `ReadPoseGraph` is absent from the
sources. Read fails cleanly on a malformed document, reporting an error and
leaving no partial state; on a well-formed document it succeeds and yields the
persisted graph. -/
def ReadPoseGraph (files : String → PoseGraphFile) : PoseGraphReader :=
  fun filename pose_graph =>
    match files filename with
    | .unreadable => (false, pose_graph)
    | .document g => (true, g)

/-! ## Scan-line description of the depth loops

The two nested loops visit the pixels row by row. The definitions below give
the loads and the points of a whole run in closed form; the theorems relate
them to the runs above. -/

/-- The byte offset in `depth.data_` of the depth pixel at row `i`, column `j`:
where `p` points after `p = data_.data() + i * BytesPerLine()` and `j` times
`p++`. -/
def depthOffset (depth : Image) (i j : Nat) : Int :=
  (i : Int) * depth.BytesPerLine + 2 * (j : Int)

/-- What one pass of the depth loop body appends to `points_` for the pixel at
row `i`, column `j`: its back-projection when the raw depth is positive. -/
def depthEmit (depth : Image) (intrinsic : PinholeCameraIntrinsic)
    (camera_pose : Matrix4d) (depth_scale : ℚ) (i j : Nat) : Option Vector3d :=
  match depth.load16 (depthOffset depth i j) with
  | some d => if d > 0 then some (backProject intrinsic camera_pose depth_scale i j d) else none
  | none => none

/-- The buffer of an image holds all of its lines: `data_` has at least
`height_ * BytesPerLine()` bytes. -/
def Image.HoldsAllLines (img : Image) : Prop :=
  img.height_ * img.BytesPerLine ≤ img.data_.length

instance (img : Image) : Decidable img.HoldsAllLines :=
  inferInstanceAs (Decidable (img.height_ * img.BytesPerLine ≤ img.data_.length))

/-- The points of a depth image in row-major pixel order. -/
def depthPoints (depth : Image) (intrinsic : PinholeCameraIntrinsic)
    (camera_pose : Matrix4d) (depth_scale : ℚ) : List Vector3d :=
  (List.range depth.height_.toNat).flatMap fun i =>
    (List.range depth.width_.toNat).filterMap fun j =>
      depthEmit depth intrinsic camera_pose depth_scale i j

/-- The depth loads of the loops in row-major pixel order. -/
def depthLoads (depth : Image) : List Load :=
  (List.range depth.height_.toNat).flatMap fun i =>
    (List.range depth.width_.toNat).map fun j => Load.depth (depthOffset depth i j)

/-- A point is the back-projection of a pixel of the depth image that holds a
positive raw depth `d`, with camera-frame coordinates `c`. -/
def EmittedAt (depth : Image) (intrinsic : PinholeCameraIntrinsic)
    (camera_pose : Matrix4d) (depth_scale : ℚ) (p : Vector3d) (i j d : Nat) : Prop :=
  (i : Int) < depth.height_ ∧ (j : Int) < depth.width_ ∧
  depth.load16 ((i : Int) * depth.BytesPerLine + 2 * (j : Int)) = some d ∧ 0 < d ∧
  p = backProject intrinsic camera_pose depth_scale i j d

/-! ## Sample inputs -/

/-- A 2x1 depth image (one channel, 16 bit) with raw depths 500 and 0. -/
def sampleDepth : Image := ⟨2, 1, 1, 2, [244, 1, 0, 0]⟩

/-- A 2x1 colour image (three channels, 8 bit). -/
def sampleColor : Image := ⟨2, 1, 3, 1, [255, 51, 0, 10, 20, 30]⟩

/-- A 1x1 colour image (three channels, 8 bit). -/
def smallColor : Image := ⟨1, 1, 3, 1, [255, 51, 0]⟩

/-- A 2x1 depth image (one channel, 16 bit) with raw depths 0 and 500. -/
def wideDepth : Image := ⟨2, 1, 1, 2, [0, 0, 244, 1]⟩

/-- A 2x1 image with three channels of 8 bit: not a depth format. -/
def badDepth : Image := ⟨2, 1, 3, 1, [1, 2, 3, 4, 5, 6]⟩

/-- Intrinsics with `fx = 2`, `fy = 4`, `cx = 1`, `cy = 1`. -/
def sampleIntrinsic : PinholeCameraIntrinsic := ⟨(2, 4), (1, 1)⟩

/-- A rigid extrinsic: the translation by `(1, 2, 3)`. -/
def sampleExtrinsic : Matrix4d :=
  !![1, 0, 0, 1; 0, 1, 0, 2; 0, 0, 1, 3; 0, 0, 0, 1]

/-- The inverse translation. -/
def sampleExtrinsicInv : Matrix4d :=
  !![1, 0, 0, -1; 0, 1, 0, -2; 0, 0, 1, -3; 0, 0, 0, 1]

/-- An invertible matrix that is not a rigid transform: its last row is
`(0, 0, 0, 2)`. -/
def scaledExtrinsic : Matrix4d :=
  !![1, 0, 0, 0; 0, 1, 0, 0; 0, 0, 1, 0; 0, 0, 0, 2]

/-- The inverse of `scaledExtrinsic`. -/
def scaledExtrinsicInv : Matrix4d :=
  !![1, 0, 0, 0; 0, 1, 0, 0; 0, 0, 1, 0; 0, 0, 0, 1 / 2]

/-- Every point of a run is the back-projection of a pixel with positive depth. -/
def PointsEmitted (depth : Image) (intrinsic : PinholeCameraIntrinsic)
    (camera_pose : Matrix4d) (depth_scale : ℚ) (r : Run) : Prop :=
  ∀ p ∈ r.pointcloud.points_,
    ∃ i j d, EmittedAt depth intrinsic camera_pose depth_scale p i j d

/-- The files of the counterexample: `missing.json` cannot be read, and
`empty.json` holds the document of a pose graph with no nodes and no edges. -/
def sampleFiles : String → PoseGraphFile := fun filename =>
  if filename = "empty.json" then .document ⟨[], []⟩ else .unreadable

/-! ## Scan-line description of the RGB-D loops -/

/-- The byte offset in `color.data_` of the colour pixel at row `i`, column `j`:
where `pc` points after `pc = data_.data() + i * BytesPerLine()` and `j` times
`pc += 3`. -/
def colorOffset (color : Image) (i j : Nat) : Int :=
  (i : Int) * color.BytesPerLine + 3 * (j : Int)

/-- What one pass of the RGB-D loop body appends to `colors_` for the pixel at
row `i`, column `j`: the colour of that pixel when the raw depth is positive. -/
def rgbdColorEmit (depth color : Image) (i j : Nat) : Option Vector3d :=
  match depth.load16 (depthOffset depth i j) with
  | some d =>
    if d > 0 then (color.load8x3 (colorOffset color i j)).map pixelColor else none
  | none => none

/-- The loads of one pass of the RGB-D loop body at row `i`, column `j`: the
depth pixel, and the colour pixel when the raw depth is positive. -/
def rgbdPixelLoads (depth color : Image) (i j : Nat) : List Load :=
  match depth.load16 (depthOffset depth i j) with
  | some d =>
    if d > 0 then [.depth (depthOffset depth i j), .color (colorOffset color i j)]
    else [.depth (depthOffset depth i j)]
  | none => [.depth (depthOffset depth i j)]

/-- The colours of an RGB-D pair in row-major pixel order. -/
def rgbdColors (depth color : Image) : List Vector3d :=
  (List.range depth.height_.toNat).flatMap fun i =>
    (List.range depth.width_.toNat).filterMap fun j => rgbdColorEmit depth color i j

/-- The loads of the RGB-D loops in row-major pixel order. -/
def rgbdLoads (depth color : Image) : List Load :=
  (List.range depth.height_.toNat).flatMap fun i =>
    (List.range depth.width_.toNat).flatMap fun j => rgbdPixelLoads depth color i j

/-! ## Row-major description of the emitted points -/

/-- The pixels of an image in row-major order: row 0 first, columns left to
right within a row. -/
def rowMajorPixels (depth : Image) : List (Nat × Nat) :=
  (List.range depth.height_.toNat).flatMap fun i =>
    (List.range depth.width_.toNat).map fun j => (i, j)

/-- The raw depth of the pixel at `(row, column)`; 0 for a pixel whose two bytes
are not in the buffer. -/
def rawDepth (depth : Image) (ij : Nat × Nat) : Nat :=
  (depth.load16 (depthOffset depth ij.1 ij.2)).getD 0

/-- The pixels with a non-zero raw depth, in row-major order. -/
def nonZeroPixels (depth : Image) : List (Nat × Nat) :=
  (rowMajorPixels depth).filter fun ij => rawDepth depth ij ≠ 0

/-- The back-projections of the pixels with a non-zero raw depth, in row-major
pixel order. -/
def nonZeroBackProjections (depth : Image) (intrinsic : PinholeCameraIntrinsic)
    (camera_pose : Matrix4d) (depth_scale : ℚ) : List Vector3d :=
  (nonZeroPixels depth).map fun ij =>
    backProject intrinsic camera_pose depth_scale ij.1 ij.2 (rawDepth depth ij)

/-- The two runs agree: same fault flag, same points. -/
def SamePoints (rd rr : Run) : Prop :=
  rd.fault = rr.fault ∧ rd.pointcloud.points_ = rr.pointcloud.points_

/-- The three bytes `(r, g, b)` of the colour pixel at `(row, column)`;
`(0, 0, 0)` for a pixel whose bytes are not in the buffer. -/
def colorBytes (color : Image) (ij : Nat × Nat) : Nat × Nat × Nat :=
  (color.load8x3 (colorOffset color ij.1 ij.2)).getD (0, 0, 0)

/-! ## `EvaluateFeatureMatch.cpp` -/

/-- The line of `PrintHelp` that documents `--dir`. -/
def PrintHelp_dir : String :=
  "    --dir directory           : The directory storing all data files. By default it is the parent directory of the log file + pcd/.\n"

/-- Modelled from the spec: the helper `GetProgramOptionAsString(argc, argv,
option)` of `Core/Utility/Console.h` is absent from the sources (command-line
parsing is an external collaborator of the spec). This stand-in, used to run
`main` on a concrete command line, returns the argument that follows the first
occurrence of `option` in `argv`, and the empty string when there is none. -/
def GetProgramOptionAsString : List String → String → String
  | [], _ => ""
  | [_], _ => ""
  | a :: v :: rest, option =>
    if a = option then v else GetProgramOptionAsString (v :: rest) option

/-- Modelled from the spec: the helper
`filesystem::GetFileParentDirectory(filename)` of `Core/Utility/FileSystem.h` is
absent from the sources. This stand-in, used to run `main` on a concrete command
line, returns the file name up to and including its last `/` or backslash
(characters 47 and 92), and the empty string when it has none. -/
def GetFileParentDirectory (filename : String) : String :=
  String.mk (filename.data.reverse.dropWhile fun c =>
    c ≠ Char.ofNat 47 ∧ c ≠ Char.ofNat 92).reverse

/-- The statements of `main` that choose the directory of the point clouds, with
the two absent helpers as parameters:
`log_filename = GetProgramOptionAsString(argc, argv, "--log");`
`pcd_dirname = GetProgramOptionAsString(argc, argv, "--dir");`
`if (pcd_dirname.empty()) pcd_dirname =
filesystem::GetFileParentDirectory(log_filename) + "pcds/";`. -/
def main_pcd_dirname (getOption : List String → String → String)
    (parentDirectory : String → String) (argv : List String) : String :=
  let log_filename := getOption argv "--log"
  let pcd_dirname := getOption argv "--dir"
  if pcd_dirname = "" then parentDirectory log_filename ++ "pcds/" else pcd_dirname

/-! ## The TSDF volume

`UniformTSDFVolume.h` only declares `Reset` and `Integrate`; their bodies
(`UniformTSDFVolume.cpp`) and the base class (`TSDFVolume.h`) are absent from
the sources, so the volume and its integration are modelled from the
specification. -/

/-- Modelled from the spec: the data of one voxel, an accumulated signed distance
estimate and an accumulated weight (the optional colour is left out). The header
stores both in `float`s (`std::vector<float> tsdf_, weight_`); here they are
exact numbers and no rounding is modelled, so what is proved about them is
proved in exact arithmetic. -/
structure Voxel where
  tsdf : ℚ
  weight : ℚ
deriving DecidableEq

/-- Modelled from the spec: a TSDF volume is a cubic region of world space of
edge length `length_` subdivided into `R³` voxels (`R = grid.resolution_`),
created with a fixed truncation distance `sdf_trunc_`; the voxel `(x, y, z)` is
stored at the flat index `x·R² + y·R + z` of `voxels_`. -/
structure TSDFVolume where
  grid : UniformTSDFVolume
  length_ : ℚ
  origin_ : Vector3d
  sdf_trunc_ : ℚ
  voxels_ : List Voxel

/-- Modelled from the spec: a depth frame, a depth map of 16-bit values with the
`depth_scale` divisor that converts a raw value to meters. -/
structure DepthFrame where
  depth : Image
  depth_scale : ℚ

/-- The arguments of one `Integrate` call: the frame with its own intrinsics and
extrinsics. -/
structure PosedFrame where
  image : DepthFrame
  intrinsic : PinholeCameraIntrinsic
  extrinsic : Matrix4d

namespace TSDFVolume

/-- Modelled from the spec: the physical centre of the voxel `(x, y, z)` is
`origin + (x + 0.5, y + 0.5, z + 0.5) · (L / R)`. -/
def voxelCenter (vol : TSDFVolume) (x y z : Int) : Vector3d :=
  ![vol.origin_ 0 + ((x : ℚ) + 1 / 2) * (vol.length_ / (vol.grid.resolution_ : ℚ)),
    vol.origin_ 1 + ((y : ℚ) + 1 / 2) * (vol.length_ / (vol.grid.resolution_ : ℚ)),
    vol.origin_ 2 + ((z : ℚ) + 1 / 2) * (vol.length_ / (vol.grid.resolution_ : ℚ))]

/-- Modelled from the spec: the signed distance a frame observes at the voxel
stored at the flat index `idx`. The voxel centre is projected through the
extrinsics (world to camera) and the pinhole intrinsics; when it lands in front
of the camera and inside the frame bounds, the depth at the projected pixel is
read, and for a valid (non-zero) depth the result is
`sdf = depth_measured − depth_projected`. A voxel outside the frustum or with
invalid depth observes nothing. -/
def observe (vol : TSDFVolume) (image : DepthFrame) (intrinsic : PinholeCameraIntrinsic)
    (extrinsic : Matrix4d) (idx : Nat) : Option ℚ :=
  let c := vol.grid.coordinate idx
  let p : Vector4d := extrinsic.mulVec (homogeneous (vol.voxelCenter c.1 c.2.1 c.2.2))
  let depth_projected : ℚ := p 2
  if 0 < depth_projected then
    let u : ℚ := p 0 * intrinsic.GetFocalLength.1 / depth_projected +
      intrinsic.GetPrincipalPoint.1
    let v : ℚ := p 1 * intrinsic.GetFocalLength.2 / depth_projected +
      intrinsic.GetPrincipalPoint.2
    if 0 ≤ u ∧ u < (image.depth.width_ : ℚ) ∧ 0 ≤ v ∧ v < (image.depth.height_ : ℚ) then
      match image.depth.load16 (depthOffset image.depth (Int.floor v).toNat
          (Int.floor u).toNat) with
      | some d =>
        if d > 0 then some ((d : ℚ) / image.depth_scale - depth_projected) else none
      | none => none
    else none
  else none

/-- Modelled from the spec: the clamp of a signed distance to
`[−truncDist, +truncDist]`. -/
def clamp (truncDist sdf : ℚ) : ℚ :=
  max (-truncDist) (min truncDist sdf)

/-- Modelled from the spec: the update of one voxel. If `sdf` is at least
`−truncDist`, it is clamped to `[−truncDist, +truncDist]` and fused into the
running weighted average, `newDist = (oldDist·oldWeight + sdf·1) / (oldWeight+1)`,
and the weight is incremented by 1; a voxel behind the truncation band or
without observation is left untouched. -/
def fuse (truncDist : ℚ) (voxel : Voxel) (observation : Option ℚ) : Voxel :=
  match observation with
  | some sdf =>
    if -truncDist ≤ sdf then
      ⟨(voxel.tsdf * voxel.weight + clamp truncDist sdf * 1) / (voxel.weight + 1),
        voxel.weight + 1⟩
    else voxel
  | none => voxel

/-- Modelled from the spec: `Integrate(depthFrame, intrinsics, extrinsics)` fuses
one depth frame into the grid, voxel by voxel; a frame with mismatched channel
count or bit depth is rejected and the integration is a no-op. -/
def Integrate (vol : TSDFVolume) (image : DepthFrame) (intrinsic : PinholeCameraIntrinsic)
    (extrinsic : Matrix4d) : TSDFVolume :=
  if image.depth.num_of_channels_ ≠ 1 ∨ image.depth.bytes_per_channel_ ≠ 2 then vol
  else
    { vol with voxels_ := vol.voxels_.mapIdx (fun idx voxel =>
        fuse vol.sdf_trunc_ voxel (vol.observe image intrinsic extrinsic idx)) }

/-- One `Integrate` call with the arguments bundled in a posed frame. -/
def integrateFrame (vol : TSDFVolume) (frame : PosedFrame) : TSDFVolume :=
  vol.Integrate frame.image frame.intrinsic frame.extrinsic

end TSDFVolume

/-- A volume of one voxel with centre `(0, 0, 1)` and truncation distance `1/2`,
holding the distance 0 with weight 0. -/
def unitVolume : TSDFVolume :=
  ⟨⟨1, 1⟩, 1, ![-1 / 2, -1 / 2, 1 / 2], 1 / 2, [⟨0, 0⟩]⟩

/-- Intrinsics with `fx = fy = 1` and `cx = cy = 0`. -/
def unitIntrinsic : PinholeCameraIntrinsic := ⟨(1, 1), (0, 0)⟩

/-- A 1x1 depth frame measuring 3 meters (raw depth 3000, `depth_scale` 1000). -/
def farFrame : DepthFrame := ⟨⟨1, 1, 1, 2, [184, 11]⟩, 1000⟩

/-- A 1x1 depth frame measuring 1/4 meter (raw depth 250, `depth_scale` 1000). -/
def nearFrame : DepthFrame := ⟨⟨1, 1, 1, 2, [250, 0]⟩, 1000⟩

/-- A 1x1 depth frame measuring 9/10 meter (raw depth 900, `depth_scale` 1000). -/
def closeFrame : DepthFrame := ⟨⟨1, 1, 1, 2, [132, 3]⟩, 1000⟩

/-- Modelled from the spec: the structured document a pose graph is persisted
as, with booleans, integers, numbers (exact), arrays and objects with named
fields. -/
inductive Json where
  | null
  | bool (b : Bool)
  | int (n : Int)
  | number (q : ℚ)
  | array (items : List Json)
  | object (fields : List (String × Json))

namespace Json

/-- The integer held by a document value. -/
def asInt : Json → Option Int
  | .int n => some n
  | _ => none

/-- The number held by a document value. -/
def asNumber : Json → Option ℚ
  | .number q => some q
  | _ => none

/-- The boolean held by a document value. -/
def asBool : Json → Option Bool
  | .bool b => some b
  | _ => none

end Json

/-- Convert every element of a list, failing as a whole when one element fails:
a malformed part makes the read fail, with no partial result. -/
def convertAll {α β : Type} (f : α → Option β) : List α → Option (List β)
  | [] => some []
  | a :: as =>
    match f a, convertAll f as with
    | some b, some bs => some (b :: bs)
    | _, _ => none

/-- A required field of an object: the read fails when it is absent or
malformed. -/
def requiredField {α : Type} (fields : List (String × Json)) (name : String)
    (parse : Json → Option α) : Option α :=
  match fields.lookup name with
  | some value => parse value
  | none => none

/-- An optional field of an object: an absent field takes the documented default,
a malformed one makes the read fail. -/
def optionalField {α : Type} (fields : List (String × Json)) (name : String)
    (parse : Json → Option α) (default : α) : Option α :=
  match fields.lookup name with
  | some value => parse value
  | none => some default

/-- Modelled from the spec: an `n x n` matrix is persisted as the array of its
`n` rows, each the array of its `n` entries. -/
def matrixToJson {n : Nat} (m : Matrix (Fin n) (Fin n) ℚ) : Json :=
  .array ((List.finRange n).map fun i =>
    .array ((List.finRange n).map fun j => .number (m i j)))

/-- The entries of one persisted row. -/
def rowFromJson : Json → Option (List ℚ)
  | .array entries => convertAll Json.asNumber entries
  | _ => none

/-- Modelled from the spec: reading an `n x n` matrix fails unless the value is
an array of `n` rows of `n` numbers. -/
def matrixFromJson (n : Nat) : Json → Option (Matrix (Fin n) (Fin n) ℚ)
  | .array rows =>
    match convertAll rowFromJson rows with
    | some entries =>
      if entries.length = n ∧ ∀ row ∈ entries, row.length = n then
        some (Matrix.of fun i j => (entries.getD i.val []).getD j.val 0)
      else none
    | none => none
  | _ => none

/-- Modelled from the spec: a node is persisted as `{pose: 4x4 matrix}`. -/
def PoseGraphNode.ConvertToJsonValue (self : PoseGraphNode) : Json :=
  .object [("pose", matrixToJson self.pose_)]

/-- Modelled from the spec: reading a node; an absent `pose` is the identity
transform. -/
def PoseGraphNode.ConvertFromJsonValue : Json → Option PoseGraphNode
  | .object fields =>
    match optionalField fields "pose" (matrixFromJson 4) 1 with
    | some pose => some ⟨pose⟩
    | none => none
  | _ => none

/-- Modelled from the spec: an edge is persisted as `{source_node_id,
target_node_id, transformation: 4x4, information: 6x6, uncertain: bool,
confidence: float}`. -/
def PoseGraphEdge.ConvertToJsonValue (self : PoseGraphEdge) : Json :=
  .object [("source_node_id", .int self.source_node_id_),
    ("target_node_id", .int self.target_node_id_),
    ("transformation", matrixToJson self.transformation_),
    ("information", matrixToJson self.information_),
    ("uncertain", .bool self.uncertain_),
    ("confidence", .number self.confidence_)]

/-- Modelled from the spec: reading an edge; absent optional fields take the
documented defaults (`uncertain = false`, `confidence = 1.0`, identity
transformation, identity information). -/
def PoseGraphEdge.ConvertFromJsonValue : Json → Option PoseGraphEdge
  | .object fields =>
    match requiredField fields "target_node_id" Json.asInt,
      requiredField fields "source_node_id" Json.asInt,
      optionalField fields "transformation" (matrixFromJson 4) 1,
      optionalField fields "information" (matrixFromJson 6) 1,
      optionalField fields "uncertain" Json.asBool false,
      optionalField fields "confidence" Json.asNumber 1 with
    | some target, some source, some transformation, some information, some uncertain,
        some confidence =>
      some ⟨target, source, transformation, information, uncertain, confidence⟩
    | _, _, _, _, _, _ => none
  | _ => none

/-- The nodes or edges held by an array value. -/
def arrayFromJson {α : Type} (parse : Json → Option α) : Json → Option (List α)
  | .array items => convertAll parse items
  | _ => none

/-- Modelled from the spec: a pose graph is persisted as the document
`{nodes: [...], edges: [...]}`, nodes and edges in their order. -/
def PoseGraph.ConvertToJsonValue (self : PoseGraph) : Json :=
  .object [("nodes", .array (self.nodes_.map PoseGraphNode.ConvertToJsonValue)),
    ("edges", .array (self.edges_.map PoseGraphEdge.ConvertToJsonValue))]

/-- Modelled from the spec: reading a pose graph fails cleanly, with no partial
state, when the document or one of its nodes or edges is malformed. -/
def PoseGraph.ConvertFromJsonValue : Json → Option PoseGraph
  | .object fields =>
    match requiredField fields "nodes" (arrayFromJson PoseGraphNode.ConvertFromJsonValue),
      requiredField fields "edges" (arrayFromJson PoseGraphEdge.ConvertFromJsonValue) with
    | some nodes, some edges => some ⟨nodes, edges⟩
    | _, _ => none
  | _ => none

/-! ## `ReadLogFile` (EvaluateFeatureMatch.cpp)

The function reads a text file with `fopen`, `fgets` and `sscanf`. The C
library is modelled as follows.

* A file is `Option (List String)`: `none` when `fopen` returns `NULL`,
  otherwise the lines of the file, each without its terminating newline and
  shorter than the buffer `line_buffer` (`DEFAULT_IO_BUFFER_SIZE`, whose value
  is not part of the sources), so that one `fgets` reads one line. A line may
  hold any character, the NUL character included.
* `strlen` and `sscanf` see the C string of the buffer: its characters before
  the first NUL.
* `sscanf` is modelled conversion by conversion, as the GNU C library carries
  out `%d` and `%lf`: it returns the values it assigned, in order, up to the
  first conversion that fails.
* A number read by `%lf` is kept exact: its rounding to the nearest `double`
  is not modelled, except that a number beyond the range of `double` is stored
  as an infinity.
-/

/-- The C library's `isspace` in the "C" locale: the space and the control
characters 9 to 13 (tab, newline, vertical tab, form feed, carriage return). -/
def isspace (c : Char) : Bool := c.toNat = 32 || (9 ≤ c.toNat && c.toNat ≤ 13)

/-- The C library's `isxdigit`: a decimal digit or a letter from `a` to `f` in
either case. -/
def isxdigit (c : Char) : Bool :=
  c.isDigit || (97 ≤ c.toNat && c.toNat ≤ 102) || (65 ≤ c.toNat && c.toNat ≤ 70)

/-- The NUL character, which ends a C string. -/
def NUL : Char := Char.ofNat 0

/-- The buffer that one `fgets(line_buffer, DEFAULT_IO_BUFFER_SIZE, f)` fills
from a line of the file: the characters of the line and its newline. (A last
line without a newline gives the same buffer but for that character, which is
white space to `sscanf`.) -/
def fgets (line : String) : List Char := line.data ++ [Char.ofNat 10]

/-- The C string that a buffer holds: its characters before the first NUL. -/
def cstring (buffer : List Char) : List Char := buffer.takeWhile fun c => c != NUL

/-- The C library's `strlen`: the length of the C string in the buffer. -/
def strlen (buffer : List Char) : Nat := (cstring buffer).length

/-- Value of a run of decimal digits. -/
def digitsValue (ds : List Char) : Nat := ds.foldl (fun n c => 10 * n + (c.toNat - 48)) 0

/-- Value of one hexadecimal digit. -/
def xdigitValue (c : Char) : Nat :=
  if c.isDigit then c.toNat - 48
  else if 97 ≤ c.toNat then c.toNat - 87
  else c.toNat - 55

/-- Value of a run of hexadecimal digits. -/
def xdigitsValue (ds : List Char) : Nat := ds.foldl (fun n c => 16 * n + xdigitValue c) 0

/-- An optional sign in front of a number: whether it is a minus sign, and the
input after it. -/
def scanSign : List Char → Bool × List Char
  | '-' :: cs => (true, cs)
  | '+' :: cs => (false, cs)
  | cs => (false, cs)

/-- The integer written at the start of the input, as `%d` looks for it: white
space is skipped, then an optional sign and at least one decimal digit are
read. The result is the value as written and the input left, or `none` when no
integer stands there. -/
def scanInteger (input : List Char) : Option (Int × List Char) :=
  let signed := scanSign (input.dropWhile isspace)
  let ds := signed.2.takeWhile Char.isDigit
  if ds = [] then none
  else some (if signed.1 then -(digitsValue ds : Int) else (digitsValue ds : Int),
    signed.2.dropWhile Char.isDigit)

/-- The least value of a 64-bit `long`. -/
def LONG_MIN : Int := -9223372036854775808

/-- The greatest value of a 64-bit `long`. -/
def LONG_MAX : Int := 9223372036854775807

/-- What `%d` stores in the `int` for an integer written as `v`: the library
converts the digits as `strtol` does, which holds the value to the range of
`long`, and stores the low 32 bits of the result. An integer that fits `int` is
stored as written. -/
def stored_d (v : Int) : Int := wrapInt (max LONG_MIN (min v LONG_MAX))

/-- The `%d` conversion of `sscanf`: the value stored and the input left, or
`none` when the conversion fails. -/
def scan_d (input : List Char) : Option (Int × List Char) :=
  (scanInteger input).map fun r => (stored_d r.1, r.2)

/-- The values that `n` conversions `%d` separated by white space assign from
the input, in order: the scan stops at the first conversion that fails, and the
white space of the format matches any white space, which `%d` skips anyway. -/
def conversions_d : Nat → List Char → List Int
  | 0, _ => []
  | n + 1, input =>
    match scan_d input with
    | some (v, rest) => v :: conversions_d n rest
    | none => []

/-- The values that `sscanf(buffer, "%d %d ... %d", ...)` with `n` conversions
assigns from the C string of the buffer. The number `sscanf` returns is the
length of this list (or `EOF` when the list is empty because the string ended
first; `EOF` is not 3). -/
def sscanf_d (n : Nat) (buffer : List Char) : List Int := conversions_d n (cstring buffer)

/-- A floating constant as `%lf` reads it: the sign, the digits of the mantissa
taken as one natural number, and the power of the base (10, or 2 for a
hexadecimal constant) that scales it; or an infinity; or a NaN. -/
inductive Constant where
  | finite (negative : Bool) (mantissa : Nat) (base : Nat) (exponent : Int)
  | infinity (negative : Bool)
  | nan
deriving DecidableEq, Repr

/-- The content of a `double` that `%lf` has stored: a number (kept exact), an
infinity or a NaN. -/
inductive Double where
  | number (value : ℚ)
  | infinity (negative : Bool)
  | nan
deriving DecidableEq

/-- The least magnitude that rounding to the nearest `double` turns into an
infinity: `DBL_MAX` plus half a unit in its last place. -/
def DBL_OVERFLOW : ℚ := 2 ^ 1024 - 2 ^ 970

/-- The `double` stored for a constant: its exact value, or an infinity when
the magnitude is beyond the range of `double`. -/
def Constant.toDouble : Constant → Double
  | .finite negative mantissa base exponent =>
    if DBL_OVERFLOW ≤ (mantissa : ℚ) * (base : ℚ) ^ exponent then .infinity negative
    else .number ((if negative then -1 else 1) * ((mantissa : ℚ) * (base : ℚ) ^ exponent))
  | .infinity negative => .infinity negative
  | .nan => .nan

/-- The input goes on with the given lower-case word, in either case: the input
behind the word. -/
def matchWord (word : List Char) (input : List Char) : Option (List Char) :=
  if (input.take word.length).map Char.toLower = word then some (input.drop word.length)
  else none

/-- The exponent part of a constant whose mantissa has a digit, as the library
collects it: when the input goes on with the marker (`e` for a decimal, `p` for
a hexadecimal constant, in either case), the marker, an optional sign and the
decimal digits behind it are taken; without a digit the characters taken stay
consumed and the exponent is 0. The result is the exponent and the input
left. -/
def scanExponent (marker : Char) : List Char → Int × List Char
  | [] => (0, [])
  | c :: cs =>
    if c.toLower = marker then
      let signed := scanSign cs
      let ds := signed.2.takeWhile Char.isDigit
      (if signed.1 then -(digitsValue ds : Int) else (digitsValue ds : Int),
        signed.2.dropWhile Char.isDigit)
    else (0, c :: cs)

/-- A decimal constant behind its sign: digits, an optional point with the
digits behind it, and the exponent part. Without a digit before or after the
point the conversion fails. -/
def scanDecimal (negative : Bool) (input : List Char) : Option (Constant × List Char) :=
  let ip := input.takeWhile Char.isDigit
  match input.dropWhile Char.isDigit with
  | '.' :: cs =>
    let fp := cs.takeWhile Char.isDigit
    if ip = [] ∧ fp = [] then none
    else
      let ex := scanExponent 'e' (cs.dropWhile Char.isDigit)
      some (.finite negative (digitsValue (ip ++ fp)) 10 (ex.1 - (fp.length : Int)), ex.2)
  | rest =>
    if ip = [] then none
    else
      let ex := scanExponent 'e' rest
      some (.finite negative (digitsValue ip) 10 ex.1, ex.2)

/-- A hexadecimal constant behind its prefix `0x`: hexadecimal digits, an
optional point with the hexadecimal digits behind it, and the exponent part
with marker `p`. The prefix alone is a failed conversion; the prefix and a
point without any digit are read as the number 0. -/
def scanHexadecimal (negative : Bool) (input : List Char) : Option (Constant × List Char) :=
  let ip := input.takeWhile isxdigit
  match input.dropWhile isxdigit with
  | '.' :: cs =>
    let fp := cs.takeWhile isxdigit
    if ip = [] ∧ fp = [] then some (.finite negative 0 2 0, cs)
    else
      let ex := scanExponent 'p' (cs.dropWhile isxdigit)
      some (.finite negative (xdigitsValue (ip ++ fp)) 2 (ex.1 - 4 * (fp.length : Int)), ex.2)
  | rest =>
    if ip = [] then none
    else
      let ex := scanExponent 'p' rest
      some (.finite negative (xdigitsValue ip) 2 ex.1, ex.2)

/-- The word `inf` or `infinity` behind its first letter: `nf` must follow, and
when the input goes on with another `i`, the whole of `inity` must follow. -/
def scanInfinity (negative : Bool) (input : List Char) : Option (Constant × List Char) :=
  match matchWord ['n', 'f'] input with
  | none => none
  | some [] => some (.infinity negative, [])
  | some (c :: cs) =>
    if c.toLower = 'i' then
      (matchWord ['n', 'i', 't', 'y'] cs).map fun rest => (.infinity negative, rest)
    else some (.infinity negative, c :: cs)

/-- The `%lf` conversion of `sscanf`: white space is skipped and an optional
sign is read; behind it stands the word `nan`, the word `inf` or `infinity`, a
hexadecimal constant with prefix `0x`, or a decimal constant. The result is the
constant and the input left, or `none` when the conversion fails. -/
def scan_lf (input : List Char) : Option (Constant × List Char) :=
  let signed := scanSign (input.dropWhile isspace)
  match signed.2 with
  | [] => none
  | c :: cs =>
    if c.toLower = 'n' then (matchWord ['a', 'n'] cs).map fun rest => (Constant.nan, rest)
    else if c.toLower = 'i' then scanInfinity signed.1 cs
    else if c = '0' ∧ cs.head?.map Char.toLower = some 'x' then
      scanHexadecimal signed.1 cs.tail
    else scanDecimal signed.1 (c :: cs)

/-- The constants that `n` conversions `%lf` separated by white space read from
the input, in order, up to the first conversion that fails. -/
def conversions_lf : Nat → List Char → List Constant
  | 0, _ => []
  | n + 1, input =>
    match scan_lf input with
    | some (v, rest) => v :: conversions_lf n rest
    | none => []

/-- The values that `sscanf(buffer, "%lf %lf ... %lf", ...)` with `n`
conversions assigns from the C string of the buffer, in order. -/
def sscanf_lf (n : Nat) (buffer : List Char) : List Double :=
  (conversions_lf n (cstring buffer)).map Constant.toDouble

/-- An `Eigen::Matrix4d` as `ReadLogFile` fills it from text: an entry read by
`%lf` can be a number, an infinity or a NaN. -/
abbrev TextMatrix4d : Type := Fin 4 → Fin 4 → Double

/-- The statement
`sscanf(line_buffer, "%lf %lf %lf %lf", &trans(r,0), &trans(r,1), &trans(r,2), &trans(r,3));`
whose return value the code does not look at: the entries of row `r` that a
conversion reached are assigned, the others keep what `trans` held. -/
def TextMatrix4d.scanRow (trans : TextMatrix4d) (r : Fin 4) (line_buffer : List Char) :
    TextMatrix4d :=
  fun i j =>
    if i = r then ((sscanf_lf 4 line_buffer)[(j : Nat)]?).getD (trans i j)
    else trans i j

/-- The member `clear()` of `std::vector`: the vector is left empty. -/
def clear {α : Type} (_v : List α) : List α := []

/-- What a call of `ReadLogFile` leaves behind: the `bool` it returns and the
contents of the two output vectors. -/
structure LogFileResult where
  returned : Bool
  pair_ids : List (Int × Int)
  transformations : List TextMatrix4d

/-- The `while (fgets(line_buffer, DEFAULT_IO_BUFFER_SIZE, f))` loop of
`ReadLogFile` on the lines still unread, `trans` being the local matrix and
`pair_ids`, `transformations` the output vectors so far. A line whose buffer
holds a C string that is not empty and whose first character is not `#` must
give three integers; the next four lines are then read whatever they hold, each
into one row of `trans`; a missing line makes the function return `false`. -/
def ReadLogFile_loop (lines : List String) (trans : TextMatrix4d)
    (pair_ids : List (Int × Int)) (transformations : List TextMatrix4d) : LogFileResult :=
  match lines with
  | [] => ⟨true, pair_ids, transformations⟩
  | line :: rest =>
    if 0 < strlen (fgets line) ∧ (fgets line).head? ≠ some '#' then
      match sscanf_d 3 (fgets line) with
      | [i, j, _] =>
        match rest with
        | l0 :: l1 :: l2 :: l3 :: rest' =>
          let trans' := (((trans.scanRow 0 (fgets l0)).scanRow 1 (fgets l1)).scanRow 2
            (fgets l2)).scanRow 3 (fgets l3)
          ReadLogFile_loop rest' trans' (pair_ids ++ [(i, j)]) (transformations ++ [trans'])
        | _ => ⟨false, pair_ids, transformations⟩
      | _ => ⟨false, pair_ids, transformations⟩
    else ReadLogFile_loop rest trans pair_ids transformations

/-- The function `ReadLogFile(filename, pair_ids, transformations)`. The file
that `filename` names is `file` (`none` when it cannot be opened); `trans` is
what the uninitialised local matrix `trans` holds; `pair_ids` and
`transformations` are the vectors as the caller passes them, and both are
cleared before the file is opened. -/
def ReadLogFile (file : Option (List String)) (trans : TextMatrix4d)
    (pair_ids : List (Int × Int)) (transformations : List TextMatrix4d) : LogFileResult :=
  let pair_ids := clear pair_ids
  let transformations := clear transformations
  match file with
  | none => ⟨false, pair_ids, transformations⟩
  | some lines => ReadLogFile_loop lines trans pair_ids transformations

/-! ### The log file as the specification describes it

The definitions of this part follow the words of the specification, not the
code: they say which lines of a file are record headers and what a record
holds, and `ReadLogFile` is compared with them. -/

/-- The line starts with the character `#`. -/
def StartsWithHash (line : String) : Prop := line.data.head? = some '#'

instance (line : String) : Decidable (StartsWithHash line) :=
  inferInstanceAs (Decidable (line.data.head? = some '#'))

/-- The line starts with a NUL character: as a C string it is empty. -/
def StartsWithNul (line : String) : Prop := line.data.head? = some NUL

instance (line : String) : Decidable (StartsWithNul line) :=
  inferInstanceAs (Decidable (line.data.head? = some NUL))

/-- The integers written at the start of the input, at most `n` of them, with
the values they are written with. -/
def integersAt : Nat → List Char → List Int
  | 0, _ => []
  | n + 1, input =>
    match scanInteger input with
    | some (v, rest) => v :: integersAt n rest
    | none => []

/-- The integers a line begins with, at most three, as written. -/
def writtenIntegers (line : String) : List Int := integersAt 3 (cstring (fgets line))

/-- The line begins with three integers. -/
def BeginsWithThreeIntegers (line : String) : Prop := (writtenIntegers line).length = 3

instance (line : String) : Decidable (BeginsWithThreeIntegers line) :=
  inferInstanceAs (Decidable ((writtenIntegers line).length = 3))

/-- The pair `(i, j)` of the first two integers of a header line, as written. -/
def headerPair (header : String) : Int × Int :=
  (((writtenIntegers header)[0]?).getD 0, ((writtenIntegers header)[1]?).getD 0)

/-- The line holds the four numbers `row 0`, ..., `row 3`, as
`%lf %lf %lf %lf` reads them. -/
def HoldsNumbers (line : String) (row : Fin 4 → ℚ) : Prop :=
  sscanf_lf 4 (fgets line) =
    [Double.number (row 0), Double.number (row 1), Double.number (row 2), Double.number (row 3)]

/-- The line holds four numbers. -/
def HoldsFourNumbers (line : String) : Prop := ∃ row : Fin 4 → ℚ, HoldsNumbers line row

/-- The lines of a log file that are read as record headers, in order, each
with the lines that follow it in the file, for a given test of the lines that
are passed over. Reading starts at the first line; a line that is passed over
is no header; any other line, a blank one included, is read as a header. Behind
a header that begins with three integers and is followed by four lines, reading
goes on after those four lines; behind any other header nothing more is
read. -/
def headersBy (passedOver : String → Bool) : List String → List (String × List String)
  | [] => []
  | line :: rest =>
    if passedOver line then headersBy passedOver rest
    else if BeginsWithThreeIntegers line then
      match rest with
      | _ :: _ :: _ :: _ :: rest' => (line, rest) :: headersBy passedOver rest'
      | _ => [(line, rest)]
    else [(line, rest)]

/-- The record headers in the words of the specification: the lines passed over
are the lines starting with `#`. -/
def claimedHeaders (lines : List String) : List (String × List String) :=
  headersBy (fun line => decide (StartsWithHash line)) lines

/-- The record headers that `ReadLogFile` reads: the lines passed over are the
lines starting with `#` and the lines starting with a NUL character. -/
def recordHeaders (lines : List String) : List (String × List String) :=
  headersBy (fun line => decide (StartsWithHash line ∨ StartsWithNul line)) lines

/-- A small log file: a comment, a record, a comment, and a record whose second
matrix line does not hold four numbers. -/
def sampleLog : List String :=
  ["# pairwise results", "0 1 5", "1 0 0 2.5", "0 1 0 0", "0 0 1 0", "0 0 0 1",
   "# next", "3 4 5", "1 0 0 0", "0 1", "0 0 1 0", "0 0 0 1"]

/-- A log file that stops two lines into the matrix of its record. -/
def truncatedLog : List String := ["0 1 5", "1 0 0 2.5", "0 1 0 0"]

/-- A log file with a blank line where a header is looked for. -/
def blankLineLog : List String :=
  ["0 1 5", "1 0 0 0", "0 1 0 0", "0 0 1 0", "0 0 0 1", ""]

/-- A line whose first character is NUL. -/
def nulLine : String := String.mk [NUL, 'x', 'y']

/-- A log file made of one line whose first character is NUL. -/
def nulLineLog : List String := [nulLine]

/-- The content of a matrix that was not assigned: every entry a NaN. -/
def unassigned : TextMatrix4d := fun _ _ => Double.nan

/-! ## `__repr__` of `PoseGraphEdge` (py3d_globaloptimization.cpp) -/

/-- Conversion of an `int` argument to a parameter of type `size_t` (64 bits):
the value modulo `2 ^ 64`. -/
def size_t_of_int (v : Int) : Nat := (v % 2 ^ 64).toNat

/-- The constructor `std::string(const std::string &str, size_t pos, size_t n)`,
the only constructor of `std::string` that a call with a string literal and two
`int`s can select: the characters of `str` from position `pos` on, at most `n`
of them. It throws `std::out_of_range` when `pos > str.size()`, which pybind11
hands to Python as an `IndexError`. -/
def std_string (str : String) (pos n : Nat) : PyOutcome String :=
  if str.length < pos then .raised "IndexError"
  else .returned (String.mk ((str.data.drop pos).take n))

/-- The Python `__repr__` of `PoseGraphEdge`:
`return std::string("PoseGraphEdge from nodes %d to %d, access transformation
to get relative transformation\n", rr.source_node_id_, rr.target_node_id_);`. -/
def py_PoseGraphEdge_repr (rr : PoseGraphEdge) : PyOutcome String :=
  std_string
    "PoseGraphEdge from nodes %d to %d, access transformation to get relative transformation\n"
    (size_t_of_int rr.source_node_id_) (size_t_of_int rr.target_node_id_)

/-- The text that the specification gives for the `__repr__` of an edge with
source node id `S` and target node id `T`, the ids written in decimal. -/
def reprText (S T : Int) : String :=
  "PoseGraphEdge from nodes " ++ toString S ++ " to " ++ toString T ++
    ", access transformation to get relative transformation\n"

end Open3D

/-! # Theorems -/

namespace Open3D

/-! ## Back-projection of depth images -/

/-- The cofactor formula is the matrix inverse of Mathlib. -/
theorem Matrix4d.inverse_eq_inv (m : Matrix4d) : m.inverse = m⁻¹ := by
  rw [Matrix4d.inverse, Matrix.inv_def, Ring.inverse_eq_inv']

/-- The inverse of the identity extrinsic is the identity. -/
theorem Matrix4d.inverse_one : (1 : Matrix4d).inverse = 1 := by
  rw [Matrix4d.inverse_eq_inv, inv_one]

/-- A byte inside the buffer can be read. -/
theorem Image.byteAt_isSome (img : Image) (off : Int) (h0 : 0 ≤ off)
    (h1 : off < img.data_.length) : ∃ b, img.byteAt off = some b := by
  have h : off.toNat < img.data_.length := by omega
  exact ⟨img.data_.get ⟨off.toNat, h⟩, by simp [Image.byteAt, h0, List.getElem?_eq_getElem h]⟩

/-- A 16-bit load whose two bytes are inside the buffer yields a value. -/
theorem Image.load16_isSome (img : Image) (off : Int) (h0 : 0 ≤ off)
    (h1 : off + 2 ≤ img.data_.length) : ∃ d, img.load16 off = some d := by
  obtain ⟨lo, hlo⟩ := img.byteAt_isSome off h0 (by omega)
  obtain ⟨hi, hhi⟩ := img.byteAt_isSome (off + 1) (by omega) (by omega)
  exact ⟨lo.val + 256 * hi.val, by simp [Image.load16, hlo, hhi]⟩

/-- A three-byte load inside the buffer yields a value. -/
theorem Image.load8x3_isSome (img : Image) (off : Int) (h0 : 0 ≤ off)
    (h1 : off + 3 ≤ img.data_.length) : ∃ c, img.load8x3 off = some c := by
  obtain ⟨r, hr⟩ := img.byteAt_isSome off h0 (by omega)
  obtain ⟨g, hg⟩ := img.byteAt_isSome (off + 1) (by omega) (by omega)
  obtain ⟨b, hb⟩ := img.byteAt_isSome (off + 2) (by omega) (by omega)
  exact ⟨(r.val, g.val, b.val), by simp [Image.load8x3, hr, hg, hb]⟩

/-- A byte that was read lies inside the buffer. -/
theorem Image.byteAt_inBounds (img : Image) (off : Int) (b : Byte)
    (h : img.byteAt off = some b) : 0 ≤ off ∧ off < img.data_.length := by
  unfold Image.byteAt at h
  split at h
  · rename_i h0
    rw [List.get?_eq_some] at h
    obtain ⟨hlt, -⟩ := h
    omega
  · cases h

/-- One pass of the depth loop body on a run that has not faulted, when the
load is inside the buffer. -/
theorem depthPixel_ok (depth : Image) (intrinsic : PinholeCameraIntrinsic)
    (camera_pose : Matrix4d) (depth_scale : ℚ) (i j : Nat) (r : Run) (d : Nat)
    (hr : r.fault = false) (hd : depth.load16 (depthOffset depth i j) = some d) :
    depthPixel depth intrinsic camera_pose depth_scale i j r =
      ⟨⟨r.pointcloud.points_ ++
          (depthEmit depth intrinsic camera_pose depth_scale i j).toList,
        r.pointcloud.normals_, r.pointcloud.colors_⟩,
       r.loads ++ [.depth (depthOffset depth i j)], false⟩ := by
  unfold depthOffset at hd
  by_cases hpos : d > 0
  · simp [depthPixel, depthEmit, depthOffset, hr, hd, hpos, Run.log, Run.pushPoint]
  · simp [depthPixel, depthEmit, depthOffset, hr, hd, hpos, Run.log]

/-- The inner depth loop over columns `js` of row `i`, when every load is inside
the buffer. -/
theorem depthRow_ok (depth : Image) (intrinsic : PinholeCameraIntrinsic)
    (camera_pose : Matrix4d) (depth_scale : ℚ) (i : Nat) (js : List Nat) :
    ∀ (r : Run), r.fault = false →
    (∀ j ∈ js, ∃ d, depth.load16 (depthOffset depth i j) = some d) →
    js.foldl (fun r j => depthPixel depth intrinsic camera_pose depth_scale i j r) r =
      ⟨⟨r.pointcloud.points_ ++
          js.filterMap (fun j => depthEmit depth intrinsic camera_pose depth_scale i j),
        r.pointcloud.normals_, r.pointcloud.colors_⟩,
       r.loads ++ js.map (fun j => Load.depth (depthOffset depth i j)), false⟩ := by
  induction js with
  | nil => intro r hr _; cases r; simp_all
  | cons j js ih =>
    intro r hr hall
    obtain ⟨d, hd⟩ := hall j (List.mem_cons_self _ _)
    rw [List.foldl_cons, depthPixel_ok depth intrinsic camera_pose depth_scale i j r d hr hd,
      ih _ rfl (fun j' hj' => hall j' (List.mem_cons_of_mem _ hj'))]
    cases h : depthEmit depth intrinsic camera_pose depth_scale i j <;>
      simp [List.filterMap_cons, h]


/-- The outer depth loop over `rows`, when every load is inside the buffer. -/
theorem depthLoop_ok (depth : Image) (intrinsic : PinholeCameraIntrinsic)
    (camera_pose : Matrix4d) (depth_scale : ℚ) (rows : List Nat) :
    ∀ (r : Run), r.fault = false →
    (∀ i ∈ rows, ∀ j ∈ List.range depth.width_.toNat,
      ∃ d, depth.load16 (depthOffset depth i j) = some d) →
    rows.foldl (fun r i => depthRow depth intrinsic camera_pose depth_scale i r) r =
      ⟨⟨r.pointcloud.points_ ++ rows.flatMap (fun i =>
          (List.range depth.width_.toNat).filterMap fun j =>
            depthEmit depth intrinsic camera_pose depth_scale i j),
        r.pointcloud.normals_, r.pointcloud.colors_⟩,
       r.loads ++ rows.flatMap (fun i =>
          (List.range depth.width_.toNat).map fun j => Load.depth (depthOffset depth i j)),
       false⟩ := by
  induction rows with
  | nil => intro r hr _; cases r; simp_all
  | cons i rows ih =>
    intro r hr hall
    rw [List.foldl_cons, depthRow,
      depthRow_ok depth intrinsic camera_pose depth_scale i _ r hr
        (hall i (List.mem_cons_self _ _)),
      ih _ rfl (fun i' hi' => hall i' (List.mem_cons_of_mem _ hi'))]
    simp [List.flatMap_cons]

/-- In a 1-channel 16-bit image whose buffer holds all lines, the two bytes of
every pixel are inside the buffer. -/
theorem depthOffset_inBounds (depth : Image) (hc : depth.num_of_channels_ = 1)
    (hb : depth.bytes_per_channel_ = 2) (hcov : depth.HoldsAllLines) (i j : Nat)
    (hi : (i : Int) < depth.height_) (hj : (j : Int) < depth.width_) :
    0 ≤ depthOffset depth i j ∧ depthOffset depth i j + 2 ≤ depth.data_.length := by
  unfold Image.HoldsAllLines at hcov
  unfold depthOffset
  have hbpl : depth.BytesPerLine = 2 * depth.width_ := by
    unfold Image.BytesPerLine; rw [hc, hb]; ring
  rw [hbpl] at hcov ⊢
  have hi0 : (0 : Int) ≤ i := Int.natCast_nonneg i
  have hj0 : (0 : Int) ≤ j := Int.natCast_nonneg j
  have hw : (0 : Int) ≤ depth.width_ := by omega
  have h1 : (i : Int) * depth.width_ + depth.width_ ≤ depth.height_ * depth.width_ := by
    have : ((i : Int) + 1) * depth.width_ ≤ depth.height_ * depth.width_ :=
      Int.mul_le_mul_of_nonneg_right (by omega) hw
    linarith
  have h2 : (0 : Int) ≤ (i : Int) * depth.width_ := Int.mul_nonneg hi0 hw
  constructor
  · nlinarith
  · nlinarith

/-- The run of `CreatePointCloudFromDepthImage` on a 1-channel 16-bit image whose
buffer holds all lines: it does not fault, loads every pixel once in row-major
order and emits the points `depthPoints`. -/
theorem CreatePointCloudFromDepthImage_run_eq (depth : Image)
    (intrinsic : PinholeCameraIntrinsic) (extrinsic : Matrix4d) (depth_scale : ℚ)
    (hc : depth.num_of_channels_ = 1) (hb : depth.bytes_per_channel_ = 2)
    (hcov : depth.HoldsAllLines) :
    CreatePointCloudFromDepthImage_run depth intrinsic extrinsic depth_scale =
      ⟨⟨depthPoints depth intrinsic extrinsic.inverse depth_scale, [], []⟩,
        depthLoads depth, false⟩ := by
  have hall : ∀ i ∈ List.range depth.height_.toNat, ∀ j ∈ List.range depth.width_.toNat,
      ∃ d, depth.load16 (depthOffset depth i j) = some d := by
    intro i hi j hj
    rw [List.mem_range] at hi hj
    obtain ⟨h0, h1⟩ := depthOffset_inBounds depth hc hb hcov i j (by omega) (by omega)
    exact depth.load16_isSome _ h0 h1
  unfold CreatePointCloudFromDepthImage_run
  simp only [hc, hb, ne_eq, not_true_eq_false, or_self, if_false]
  rw [depthLoop, depthLoop_ok depth intrinsic _ depth_scale _ Run.init rfl hall]
  simp [Run.init, PointCloud.empty, depthPoints, depthLoads]

/-- With the identity pose the back-projection is the camera-frame point. -/
theorem backProject_one (intrinsic : PinholeCameraIntrinsic) (depth_scale : ℚ)
    (i j : Int) (d : Nat) :
    backProject intrinsic 1 depth_scale i j d =
      ![((j : ℚ) - intrinsic.GetPrincipalPoint.1) * ((d : ℚ) / depth_scale) /
          intrinsic.GetFocalLength.1,
        ((i : ℚ) - intrinsic.GetPrincipalPoint.2) * ((d : ℚ) / depth_scale) /
          intrinsic.GetFocalLength.2,
        (d : ℚ) / depth_scale] := by
  simp [backProject, cameraPoint, block31, Matrix.one_mulVec]

/-- A pixel of the image is visited by the scan. -/
theorem depthEmit_mem_depthPoints (depth : Image) (intrinsic : PinholeCameraIntrinsic)
    (camera_pose : Matrix4d) (depth_scale : ℚ) (i j : Nat) (p : Vector3d)
    (hi : (i : Int) < depth.height_) (hj : (j : Int) < depth.width_)
    (hp : depthEmit depth intrinsic camera_pose depth_scale i j = some p) :
    p ∈ depthPoints depth intrinsic camera_pose depth_scale := by
  unfold depthPoints
  rw [List.mem_flatMap]
  refine ⟨i, List.mem_range.mpr (by omega), ?_⟩
  rw [List.mem_filterMap]
  exact ⟨j, List.mem_range.mpr (by omega), hp⟩

/-- C2: in exact arithmetic and with the identity extrinsic, for every 1-channel
16-bit depth image (whose buffer holds all of its lines) and every pixel at
column `u`, row `v` with raw depth `d > 0`, the point
`CreatePointCloudFromDepthImage` emits for that pixel is `(x, y, z)` with
`z = d / depth_scale`, `x = (u - cx) * z / fx` and `y = (v - cy) * z / fy`:
the loop body at that pixel pushes exactly this point, and the returned cloud
contains it. -/
theorem depth_pixel_backprojection (depth : Image) (intrinsic : PinholeCameraIntrinsic)
    (depth_scale : ℚ) (u v d : Nat)
    (hc : depth.num_of_channels_ = 1) (hb : depth.bytes_per_channel_ = 2)
    (hcov : depth.HoldsAllLines)
    (hu : (u : Int) < depth.width_) (hv : (v : Int) < depth.height_)
    (hd : depth.load16 ((v : Int) * depth.BytesPerLine + 2 * (u : Int)) = some d)
    (hpos : 0 < d) :
    (∀ r : Run, r.fault = false →
      depthPixel depth intrinsic (Matrix4d.inverse 1) depth_scale v u r =
        (r.log (.depth ((v : Int) * depth.BytesPerLine + 2 * (u : Int)))).pushPoint
          ![((u : ℚ) - intrinsic.GetPrincipalPoint.1) * ((d : ℚ) / depth_scale) /
              intrinsic.GetFocalLength.1,
            ((v : ℚ) - intrinsic.GetPrincipalPoint.2) * ((d : ℚ) / depth_scale) /
              intrinsic.GetFocalLength.2,
            (d : ℚ) / depth_scale]) ∧
    ∃ cloud, CreatePointCloudFromDepthImage depth intrinsic 1 depth_scale = some cloud ∧
      ![((u : ℚ) - intrinsic.GetPrincipalPoint.1) * ((d : ℚ) / depth_scale) /
          intrinsic.GetFocalLength.1,
        ((v : ℚ) - intrinsic.GetPrincipalPoint.2) * ((d : ℚ) / depth_scale) /
          intrinsic.GetFocalLength.2,
        (d : ℚ) / depth_scale] ∈ cloud.points_ := by
  have hbp := backProject_one intrinsic depth_scale v u d
  simp only [Int.cast_natCast] at hbp
  constructor
  · intro r hr
    simp [depthPixel, hr, hd, hpos, Matrix4d.inverse_one, hbp]
  · refine ⟨⟨depthPoints depth intrinsic (Matrix4d.inverse 1) depth_scale, [], []⟩, ?_, ?_⟩
    · unfold CreatePointCloudFromDepthImage
      rw [CreatePointCloudFromDepthImage_run_eq depth intrinsic 1 depth_scale hc hb hcov]
      rfl
    · show _ ∈ depthPoints depth intrinsic (Matrix4d.inverse 1) depth_scale
      apply depthEmit_mem_depthPoints depth intrinsic _ depth_scale v u _ hv hu
      simp [depthEmit, depthOffset, hd, hpos, Matrix4d.inverse_one, hbp]


/-- Witness of C2 on the 2x1 sample image: the pixel at column 0, row 0 holds the
raw depth 500 and yields the point `(-1/4, -1/8, 1/2)`. -/
theorem depth_pixel_backprojection_witness :
    sampleDepth.HoldsAllLines ∧ sampleDepth.load16 0 = some 500 ∧
    ∃ cloud, CreatePointCloudFromDepthImage sampleDepth sampleIntrinsic 1 1000 = some cloud ∧
      ![(-1 / 4 : ℚ), -1 / 8, 1 / 2] ∈ cloud.points_ := by
  obtain ⟨cloud, hcloud, hmem⟩ :=
    (depth_pixel_backprojection sampleDepth sampleIntrinsic 1000 0 0 500 rfl rfl
      (by decide) (by decide) (by decide) (by decide) (by decide)).2
  refine ⟨by decide, by decide, cloud, hcloud, ?_⟩
  have hpt : ![(((0 : ℕ) : ℚ) - sampleIntrinsic.GetPrincipalPoint.1) * (((500 : ℕ) : ℚ) / 1000) /
          sampleIntrinsic.GetFocalLength.1,
        (((0 : ℕ) : ℚ) - sampleIntrinsic.GetPrincipalPoint.2) * (((500 : ℕ) : ℚ) / 1000) /
          sampleIntrinsic.GetFocalLength.2,
        ((500 : ℕ) : ℚ) / 1000] = ![(-1 / 4 : ℚ), -1 / 8, 1 / 2] := by
    norm_num [sampleIntrinsic, PinholeCameraIntrinsic.GetPrincipalPoint,
      PinholeCameraIntrinsic.GetFocalLength]
  rw [← hpt]
  exact hmem

/-- C3: for every depth image whose `num_of_channels_` is not 1 or whose
`bytes_per_channel_` is not 2, `CreatePointCloudFromDepthImage` returns a point
cloud with no points, whatever the pixel data, intrinsic, extrinsic and
`depth_scale` are, and reads no pixel. -/
theorem depth_unsupported_format_empty (depth : Image) (intrinsic : PinholeCameraIntrinsic)
    (extrinsic : Matrix4d) (depth_scale : ℚ)
    (h : depth.num_of_channels_ ≠ 1 ∨ depth.bytes_per_channel_ ≠ 2) :
    CreatePointCloudFromDepthImage depth intrinsic extrinsic depth_scale =
      some ⟨[], [], []⟩ ∧
    (CreatePointCloudFromDepthImage_run depth intrinsic extrinsic depth_scale).loads = [] := by
  have hrun : CreatePointCloudFromDepthImage_run depth intrinsic extrinsic depth_scale =
      Run.init := by
    unfold CreatePointCloudFromDepthImage_run
    exact if_pos h
  refine ⟨?_, ?_⟩
  · unfold CreatePointCloudFromDepthImage
    rw [hrun]
    rfl
  · rw [hrun]
    rfl

/-- Witness of C3: a 3-channel 8-bit image passed as the depth image. -/
theorem depth_unsupported_format_empty_witness :
    (badDepth.num_of_channels_ ≠ 1 ∨ badDepth.bytes_per_channel_ ≠ 2) ∧
    CreatePointCloudFromDepthImage badDepth sampleIntrinsic sampleExtrinsic 1000 =
      some ⟨[], [], []⟩ ∧
    (CreatePointCloudFromDepthImage_run badDepth sampleIntrinsic sampleExtrinsic 1000).loads
      = [] :=
  ⟨by decide,
    depth_unsupported_format_empty badDepth sampleIntrinsic sampleExtrinsic 1000 (by decide)⟩

/-- C4: `CreatePointCloudFromRGBDImage` returns a point cloud with empty
`points_` and empty `colors_` (and performs no load) whenever the depth image is
not 1-channel 2-bytes-per-channel or the colour image is not 3-channel
1-byte-per-channel; when both formats are as required the format check does not
reject the frame: the run is the run of the pixel loops. -/
theorem rgbd_format_check (depth color : Image) (intrinsic : PinholeCameraIntrinsic)
    (extrinsic : Matrix4d) (depth_scale : ℚ) :
    ((¬ (depth.num_of_channels_ = 1 ∧ depth.bytes_per_channel_ = 2) ∨
        ¬ (color.num_of_channels_ = 3 ∧ color.bytes_per_channel_ = 1)) →
      CreatePointCloudFromRGBDImage depth color intrinsic extrinsic depth_scale =
        some ⟨[], [], []⟩ ∧
      (CreatePointCloudFromRGBDImage_run depth color intrinsic extrinsic depth_scale).loads
        = []) ∧
    ((depth.num_of_channels_ = 1 ∧ depth.bytes_per_channel_ = 2) ∧
        (color.num_of_channels_ = 3 ∧ color.bytes_per_channel_ = 1) →
      CreatePointCloudFromRGBDImage_run depth color intrinsic extrinsic depth_scale =
        rgbdLoop depth color intrinsic extrinsic.inverse depth_scale Run.init) := by
  constructor
  · intro h
    have hcond : depth.num_of_channels_ ≠ 1 ∨ depth.bytes_per_channel_ ≠ 2 ∨
        color.num_of_channels_ ≠ 3 ∨ color.bytes_per_channel_ ≠ 1 := by
      rcases h with h | h
      · by_cases h1 : depth.num_of_channels_ = 1
        · exact Or.inr (Or.inl (fun h2 => h ⟨h1, h2⟩))
        · exact Or.inl h1
      · by_cases h1 : color.num_of_channels_ = 3
        · exact Or.inr (Or.inr (Or.inr (fun h2 => h ⟨h1, h2⟩)))
        · exact Or.inr (Or.inr (Or.inl h1))
    have hrun : CreatePointCloudFromRGBDImage_run depth color intrinsic extrinsic depth_scale =
        Run.init := by
      unfold CreatePointCloudFromRGBDImage_run
      exact if_pos hcond
    refine ⟨?_, ?_⟩
    · unfold CreatePointCloudFromRGBDImage
      rw [hrun]
      rfl
    · rw [hrun]
      rfl
  · rintro ⟨⟨h1, h2⟩, h3, h4⟩
    unfold CreatePointCloudFromRGBDImage_run
    simp [h1, h2, h3, h4]

/-- Witness of C4: a 3-channel 8-bit image passed as the depth image is rejected,
and the sample depth and colour images are not: their run emits a point and a
colour. -/
theorem rgbd_format_check_witness :
    (¬ (badDepth.num_of_channels_ = 1 ∧ badDepth.bytes_per_channel_ = 2) ∨
        ¬ (sampleColor.num_of_channels_ = 3 ∧ sampleColor.bytes_per_channel_ = 1)) ∧
    CreatePointCloudFromRGBDImage badDepth sampleColor sampleIntrinsic 1 1000 =
      some ⟨[], [], []⟩ ∧
    ((sampleDepth.num_of_channels_ = 1 ∧ sampleDepth.bytes_per_channel_ = 2) ∧
        (sampleColor.num_of_channels_ = 3 ∧ sampleColor.bytes_per_channel_ = 1)) ∧
    CreatePointCloudFromRGBDImage_run sampleDepth sampleColor sampleIntrinsic 1 1000 =
      rgbdLoop sampleDepth sampleColor sampleIntrinsic (Matrix4d.inverse 1) 1000 Run.init :=
  ⟨by decide,
    ((rgbd_format_check badDepth sampleColor sampleIntrinsic 1 1000).1 (by decide)).1,
    by decide,
    (rgbd_format_check sampleDepth sampleColor sampleIntrinsic 1 1000).2 (by decide)⟩

/-! ## The extrinsic convention -/

/-- A property of the loop state that every pass of a loop body keeps holds
after the loop. -/
theorem foldl_invariant {α β : Type} (P : β → Prop) (Q : α → Prop) (f : β → α → β)
    (hstep : ∀ b a, Q a → P b → P (f b a)) (l : List α) :
    ∀ b, (∀ a ∈ l, Q a) → P b → P (l.foldl f b) := by
  induction l with
  | nil => intro b _ hb; exact hb
  | cons a l ih =>
    intro b hall hb
    rw [List.foldl_cons]
    exact ih _ (fun a' ha' => hall a' (List.mem_cons_of_mem _ ha'))
      (hstep b a (hall a (List.mem_cons_self _ _)) hb)

/-- One pass of the depth loop body keeps `PointsEmitted`. -/
theorem depthPixel_pointsEmitted (depth : Image) (intrinsic : PinholeCameraIntrinsic)
    (camera_pose : Matrix4d) (depth_scale : ℚ) (i j : Nat) (r : Run)
    (hi : (i : Int) < depth.height_) (hj : (j : Int) < depth.width_)
    (hr : PointsEmitted depth intrinsic camera_pose depth_scale r) :
    PointsEmitted depth intrinsic camera_pose depth_scale
      (depthPixel depth intrinsic camera_pose depth_scale i j r) := by
  unfold depthPixel
  by_cases hf : r.fault = true
  · simpa [hf] using hr
  · simp only [hf, Bool.false_eq_true, if_false]
    cases hd : depth.load16 ((i : Int) * depth.BytesPerLine + 2 * (j : Int)) with
    | none => exact hr
    | some d =>
      by_cases hpos : d > 0
      · simp only [hpos, if_true]
        intro p hp
        simp only [Run.pushPoint, Run.log, List.mem_append, List.mem_singleton] at hp
        rcases hp with hp | hp
        · exact hr p hp
        · exact ⟨i, j, d, hi, hj, hd, hpos, hp⟩
      · simp only [hpos, if_false]
        exact hr

/-- One pass of the RGB-D loop body keeps `PointsEmitted`. -/
theorem rgbdPixel_pointsEmitted (depth color : Image) (intrinsic : PinholeCameraIntrinsic)
    (camera_pose : Matrix4d) (depth_scale : ℚ) (i j : Nat) (r : Run)
    (hi : (i : Int) < depth.height_) (hj : (j : Int) < depth.width_)
    (hr : PointsEmitted depth intrinsic camera_pose depth_scale r) :
    PointsEmitted depth intrinsic camera_pose depth_scale
      (rgbdPixel depth color intrinsic camera_pose depth_scale i j r) := by
  unfold rgbdPixel
  by_cases hf : r.fault = true
  · simpa [hf] using hr
  · simp only [hf, Bool.false_eq_true, if_false]
    cases hd : depth.load16 ((i : Int) * depth.BytesPerLine + 2 * (j : Int)) with
    | none => exact hr
    | some d =>
      by_cases hpos : d > 0
      · simp only [hpos, if_true]
        have hnew : ∀ p ∈ r.pointcloud.points_ ++
            [backProject intrinsic camera_pose depth_scale i j d],
            ∃ i j d, EmittedAt depth intrinsic camera_pose depth_scale p i j d := by
          intro p hp
          simp only [List.mem_append, List.mem_singleton] at hp
          rcases hp with hp | hp
          · exact hr p hp
          · exact ⟨i, j, d, hi, hj, hd, hpos, hp⟩
        cases color.load8x3 ((i : Int) * color.BytesPerLine + 3 * (j : Int)) with
        | none => exact hnew
        | some c => exact hnew
      · simp only [hpos, if_false]
        exact hr

/-- Every point of a run of `CreatePointCloudFromDepthImage`, faulting or not, is
the back-projection of a pixel with positive depth. -/
theorem depth_run_pointsEmitted (depth : Image) (intrinsic : PinholeCameraIntrinsic)
    (extrinsic : Matrix4d) (depth_scale : ℚ) :
    PointsEmitted depth intrinsic extrinsic.inverse depth_scale
      (CreatePointCloudFromDepthImage_run depth intrinsic extrinsic depth_scale) := by
  have hinit : PointsEmitted depth intrinsic extrinsic.inverse depth_scale Run.init := by
    intro p hp
    cases hp
  unfold CreatePointCloudFromDepthImage_run
  split
  · exact hinit
  · unfold depthLoop
    refine foldl_invariant _ (fun i : Nat => (i : Int) < depth.height_) _ ?_ _ _ ?_ hinit
    · intro r i hi hr
      unfold depthRow
      refine foldl_invariant _ (fun j : Nat => (j : Int) < depth.width_) _ ?_ _ _ ?_ hr
      · intro r j hj hr
        exact depthPixel_pointsEmitted depth intrinsic _ depth_scale i j r hi hj hr
      · intro j hj
        rw [List.mem_range] at hj
        omega
    · intro i hi
      rw [List.mem_range] at hi
      omega

/-- Every point of a run of `CreatePointCloudFromRGBDImage`, faulting or not, is
the back-projection of a pixel with positive depth. -/
theorem rgbd_run_pointsEmitted (depth color : Image) (intrinsic : PinholeCameraIntrinsic)
    (extrinsic : Matrix4d) (depth_scale : ℚ) :
    PointsEmitted depth intrinsic extrinsic.inverse depth_scale
      (CreatePointCloudFromRGBDImage_run depth color intrinsic extrinsic depth_scale) := by
  have hinit : PointsEmitted depth intrinsic extrinsic.inverse depth_scale Run.init := by
    intro p hp
    cases hp
  unfold CreatePointCloudFromRGBDImage_run
  split
  · exact hinit
  · unfold rgbdLoop
    refine foldl_invariant _ (fun i : Nat => (i : Int) < depth.height_) _ ?_ _ _ ?_ hinit
    · intro r i hi hr
      unfold rgbdRow
      refine foldl_invariant _ (fun j : Nat => (j : Int) < depth.width_) _ ?_ _ _ ?_ hr
      · intro r j hj hr
        exact rgbdPixel_pointsEmitted depth color intrinsic _ depth_scale i j r hi hj hr
      · intro j hj
        rw [List.mem_range] at hj
        omega
    · intro i hi
      rw [List.mem_range] at hi
      omega

/-- For an invertible extrinsic whose last row is `(0, 0, 0, 1)`, mapping a
homogeneous camera-frame vector by the inverse, dropping the last entry and
mapping by the extrinsic gives the vector back. -/
theorem extrinsic_mulVec_backProject (E : Matrix4d) (hdet : E.det ≠ 0)
    (hrow : E 3 = ![0, 0, 0, 1]) (v : Vector4d) (hv : v 3 = 1) :
    E.mulVec (homogeneous (block31 (E.inverse.mulVec v))) = v := by
  have hunit : IsUnit E.det := isUnit_iff_ne_zero.mpr hdet
  have hEw : E.mulVec (E.inverse.mulVec v) = v := by
    rw [Matrix.mulVec_mulVec, Matrix4d.inverse_eq_inv, Matrix.mul_nonsing_inv E hunit,
      Matrix.one_mulVec]
  have hw3 : (E.inverse.mulVec v) 3 = 1 := by
    have h3 := congrFun hEw 3
    rw [hv] at h3
    rw [← h3]
    simp [Matrix.mulVec, Matrix.dotProduct, Fin.sum_univ_four, hrow]
  have hhom : homogeneous (block31 (E.inverse.mulVec v)) = E.inverse.mulVec v := by
    funext k
    fin_cases k
    · rfl
    · rfl
    · rfl
    · exact hw3.symm
  rw [hhom, hEw]

/-! ## Loads of the RGB-D run -/

/-- C5 (evaluation of the code at the failing input): a well-formed 2x1 depth
image and a well-formed 1x1 colour image pass the format check of
`CreatePointCloudFromRGBDImage`; the run loads the depth pixels at byte offsets
0 and 2 and then loads the three colour bytes at offset 3 of a colour buffer of
3 bytes: a read past the end of `color.data_`. -/
theorem rgbd_color_load_out_of_bounds :
    (wideDepth.num_of_channels_ = 1 ∧ wideDepth.bytes_per_channel_ = 2) ∧
    (smallColor.num_of_channels_ = 3 ∧ smallColor.bytes_per_channel_ = 1) ∧
    wideDepth.data_.length = wideDepth.height_ * wideDepth.BytesPerLine ∧
    smallColor.data_.length = smallColor.height_ * smallColor.BytesPerLine ∧
    (CreatePointCloudFromRGBDImage_run wideDepth smallColor sampleIntrinsic 1 1000).loads =
      [.depth 0, .depth 2, .color 3] ∧
    smallColor.data_.length = 3 ∧
    ¬ Load.InBounds wideDepth smallColor (.color 3) ∧
    (CreatePointCloudFromRGBDImage_run wideDepth smallColor sampleIntrinsic 1 1000).fault =
      true ∧
    CreatePointCloudFromRGBDImage wideDepth smallColor sampleIntrinsic 1 1000 = none := by
  refine ⟨by decide, by decide, by decide, by decide, by decide, by decide, ?_, by decide,
    by decide⟩
  simp [Load.InBounds, smallColor]

/-! ## The extrinsic convention: the claim -/

/-- The sample translation and its inverse. -/
theorem sampleExtrinsicInv_mul : sampleExtrinsicInv * sampleExtrinsic = 1 := by
  unfold sampleExtrinsicInv sampleExtrinsic
  ext i j
  fin_cases i <;> fin_cases j <;>
    simp [Matrix.mul_apply, Fin.sum_univ_four, Matrix.vecHead, Matrix.vecTail]

/-- The scaled matrix and its inverse. -/
theorem scaledExtrinsicInv_mul : scaledExtrinsicInv * scaledExtrinsic = 1 := by
  unfold scaledExtrinsicInv scaledExtrinsic
  ext i j
  fin_cases i <;> fin_cases j <;>
    simp [Matrix.mul_apply, Fin.sum_univ_four, Matrix.vecHead, Matrix.vecTail]

/-- A left inverse is the value of `inverse()`. -/
theorem Matrix4d.inverse_eq_of_mul_eq_one (E B : Matrix4d) (h : B * E = 1) :
    E.inverse = B := by
  rw [Matrix4d.inverse_eq_inv]
  exact Matrix.inv_eq_left_inv h

/-- C6 (amended): in exact arithmetic, for every invertible extrinsic matrix `E`
whose last row is `(0, 0, 0, 1)` (an affine, in particular a rigid, transform),
every point `p` in the `points_` of a run of `CreatePointCloudFromDepthImage`,
and of `CreatePointCloudFromRGBDImage`, is the back-projection of a pixel
`(i, j)` with positive raw depth `d`, and with `(x, y, z)` the camera-frame
coordinates of that pixel, `E * (p, 1) = (x, y, z, 1)`. -/
theorem extrinsic_is_world_to_camera (depth color : Image)
    (intrinsic : PinholeCameraIntrinsic) (E : Matrix4d) (depth_scale : ℚ)
    (hdet : E.det ≠ 0) (hrow : E 3 = ![0, 0, 0, 1]) :
    (∀ p ∈ (CreatePointCloudFromDepthImage_run depth intrinsic E depth_scale).pointcloud.points_,
      ∃ i j d, EmittedAt depth intrinsic E.inverse depth_scale p i j d ∧
        E.mulVec (homogeneous p) =
          ![(cameraPoint intrinsic depth_scale i j d).1,
            (cameraPoint intrinsic depth_scale i j d).2.1,
            (cameraPoint intrinsic depth_scale i j d).2.2, 1]) ∧
    (∀ p ∈ (CreatePointCloudFromRGBDImage_run depth color intrinsic E
        depth_scale).pointcloud.points_,
      ∃ i j d, EmittedAt depth intrinsic E.inverse depth_scale p i j d ∧
        E.mulVec (homogeneous p) =
          ![(cameraPoint intrinsic depth_scale i j d).1,
            (cameraPoint intrinsic depth_scale i j d).2.1,
            (cameraPoint intrinsic depth_scale i j d).2.2, 1]) := by
  have key : ∀ p i j d, EmittedAt depth intrinsic E.inverse depth_scale p i j d →
      E.mulVec (homogeneous p) =
        ![(cameraPoint intrinsic depth_scale i j d).1,
          (cameraPoint intrinsic depth_scale i j d).2.1,
          (cameraPoint intrinsic depth_scale i j d).2.2, 1] := by
    intro p i j d h
    obtain ⟨-, -, -, -, hp⟩ := h
    rw [hp]
    exact extrinsic_mulVec_backProject E hdet hrow _ rfl
  constructor
  · intro p hp
    obtain ⟨i, j, d, h⟩ := depth_run_pointsEmitted depth intrinsic E depth_scale p hp
    exact ⟨i, j, d, h, key p i j d h⟩
  · intro p hp
    obtain ⟨i, j, d, h⟩ := rgbd_run_pointsEmitted depth color intrinsic E depth_scale p hp
    exact ⟨i, j, d, h, key p i j d h⟩

/-- The sample depth image has one pixel with positive depth: row 0, column 0,
raw depth 500. -/
theorem sampleDepth_depthPoints (intrinsic : PinholeCameraIntrinsic)
    (camera_pose : Matrix4d) (depth_scale : ℚ) :
    depthPoints sampleDepth intrinsic camera_pose depth_scale =
      [backProject intrinsic camera_pose depth_scale 0 0 500] := by
  have h0 : sampleDepth.load16 0 = some 500 := by decide
  have h1 : sampleDepth.load16 2 = some 0 := by decide
  have hw : sampleDepth.width_.toNat = 2 := by decide
  have hh : sampleDepth.height_.toNat = 1 := by decide
  simp only [depthPoints, hw, hh]
  simp [List.range_succ, depthEmit, depthOffset, h0, h1]

/-- The camera-frame coordinates of that pixel under the sample intrinsics. -/
theorem sample_cameraPoint :
    cameraPoint sampleIntrinsic 1000 0 0 500 = (-1 / 4, -1 / 8, 1 / 2) := by
  simp only [cameraPoint, sampleIntrinsic, PinholeCameraIntrinsic.GetFocalLength,
    PinholeCameraIntrinsic.GetPrincipalPoint]
  norm_num

/-- The depth run on the sample image under the sample translation. -/
theorem sample_depth_points :
    (CreatePointCloudFromDepthImage_run sampleDepth sampleIntrinsic sampleExtrinsic
      1000).pointcloud.points_ = [![-5 / 4, -17 / 8, -5 / 2]] := by
  rw [CreatePointCloudFromDepthImage_run_eq _ _ _ _ rfl rfl (by decide),
    Matrix4d.inverse_eq_of_mul_eq_one _ _ sampleExtrinsicInv_mul]
  show depthPoints sampleDepth sampleIntrinsic sampleExtrinsicInv 1000 = _
  rw [sampleDepth_depthPoints, backProject, sample_cameraPoint]
  congr 1
  funext k
  fin_cases k <;>
    simp [block31, sampleExtrinsicInv, Matrix.mulVec, Matrix.dotProduct, Fin.sum_univ_four,
      Matrix.vecHead, Matrix.vecTail] <;> norm_num

/-- The depth run on the sample image under the scaled matrix. -/
theorem scaled_depth_points :
    (CreatePointCloudFromDepthImage_run sampleDepth sampleIntrinsic scaledExtrinsic
      1000).pointcloud.points_ = [![-1 / 4, -1 / 8, 1 / 2]] := by
  rw [CreatePointCloudFromDepthImage_run_eq _ _ _ _ rfl rfl (by decide),
    Matrix4d.inverse_eq_of_mul_eq_one _ _ scaledExtrinsicInv_mul]
  show depthPoints sampleDepth sampleIntrinsic scaledExtrinsicInv 1000 = _
  rw [sampleDepth_depthPoints, backProject, sample_cameraPoint]
  congr 1
  funext k
  fin_cases k <;>
    simp [block31, scaledExtrinsicInv, Matrix.mulVec, Matrix.dotProduct, Fin.sum_univ_four,
      Matrix.vecHead, Matrix.vecTail]

/-- Witness of C6 (amended): the sample translation is invertible with last row
`(0, 0, 0, 1)`, and the run on the sample image emits a point. -/
theorem extrinsic_is_world_to_camera_witness :
    sampleExtrinsic.det ≠ 0 ∧ sampleExtrinsic 3 = ![0, 0, 0, 1] ∧
    (CreatePointCloudFromDepthImage_run sampleDepth sampleIntrinsic sampleExtrinsic
      1000).pointcloud.points_ = [![-5 / 4, -17 / 8, -5 / 2]] ∧
    (∀ p ∈ (CreatePointCloudFromDepthImage_run sampleDepth sampleIntrinsic sampleExtrinsic
        1000).pointcloud.points_,
      ∃ i j d, EmittedAt sampleDepth sampleIntrinsic sampleExtrinsic.inverse 1000 p i j d ∧
        sampleExtrinsic.mulVec (homogeneous p) =
          ![(cameraPoint sampleIntrinsic 1000 i j d).1,
            (cameraPoint sampleIntrinsic 1000 i j d).2.1,
            (cameraPoint sampleIntrinsic 1000 i j d).2.2, 1]) ∧
    (∀ p ∈ (CreatePointCloudFromRGBDImage_run sampleDepth sampleColor sampleIntrinsic
        sampleExtrinsic 1000).pointcloud.points_,
      ∃ i j d, EmittedAt sampleDepth sampleIntrinsic sampleExtrinsic.inverse 1000 p i j d ∧
        sampleExtrinsic.mulVec (homogeneous p) =
          ![(cameraPoint sampleIntrinsic 1000 i j d).1,
            (cameraPoint sampleIntrinsic 1000 i j d).2.1,
            (cameraPoint sampleIntrinsic 1000 i j d).2.2, 1]) :=
  ⟨Matrix.det_ne_zero_of_left_inverse sampleExtrinsicInv_mul, rfl, sample_depth_points,
    extrinsic_is_world_to_camera sampleDepth sampleColor sampleIntrinsic sampleExtrinsic 1000
      (Matrix.det_ne_zero_of_left_inverse sampleExtrinsicInv_mul) rfl⟩

/-- C6 (counterexample to the claim as stated): `scaledExtrinsic` is invertible,
the run on the sample image emits the single point `p = (-1/4, -1/8, 1/2)` for
the pixel at row 0, column 0 with raw depth 500, whose camera-frame coordinates
are `(-1/4, -1/8, 1/2)`, and `E * (p, 1) = (-1/4, -1/8, 1/2, 2)`, which is not
`(-1/4, -1/8, 1/2, 1)`. -/
theorem extrinsic_scaled_counterexample :
    scaledExtrinsic.det ≠ 0 ∧
    (CreatePointCloudFromDepthImage_run sampleDepth sampleIntrinsic scaledExtrinsic
      1000).pointcloud.points_ = [![-1 / 4, -1 / 8, 1 / 2]] ∧
    EmittedAt sampleDepth sampleIntrinsic scaledExtrinsic.inverse 1000
      ![-1 / 4, -1 / 8, 1 / 2] 0 0 500 ∧
    cameraPoint sampleIntrinsic 1000 0 0 500 = (-1 / 4, -1 / 8, 1 / 2) ∧
    scaledExtrinsic.mulVec (homogeneous ![-1 / 4, -1 / 8, 1 / 2]) =
      ![-1 / 4, -1 / 8, 1 / 2, 2] ∧
    scaledExtrinsic.mulVec (homogeneous ![-1 / 4, -1 / 8, 1 / 2]) ≠
      ![-1 / 4, -1 / 8, 1 / 2, 1] := by
  have hmul : scaledExtrinsic.mulVec (homogeneous ![-1 / 4, -1 / 8, 1 / 2]) =
      ![-1 / 4, -1 / 8, 1 / 2, 2] := by
    funext k
    fin_cases k <;>
      simp [homogeneous, scaledExtrinsic, Matrix.mulVec, Matrix.dotProduct, Fin.sum_univ_four,
        Matrix.vecHead, Matrix.vecTail]
  have hpts := scaled_depth_points
  refine ⟨Matrix.det_ne_zero_of_left_inverse scaledExtrinsicInv_mul, hpts, ?_,
    sample_cameraPoint, hmul, ?_⟩
  · refine ⟨by decide, by decide, by decide, by decide, ?_⟩
    have h := congrArg List.head? (sampleDepth_depthPoints sampleIntrinsic
      scaledExtrinsic.inverse 1000)
    rw [CreatePointCloudFromDepthImage_run_eq _ _ _ _ rfl rfl (by decide)] at hpts
    have hpts2 : depthPoints sampleDepth sampleIntrinsic scaledExtrinsic.inverse 1000 =
        [![-1 / 4, -1 / 8, 1 / 2]] := hpts
    rw [hpts2] at h
    simpa using h
  · rw [hmul]
    intro h
    have h3 := congrFun h 3
    simp at h3

/-! ## Pose-graph data model -/

/-- C7: a `PoseGraphEdge` constructed with no arguments has `uncertain_ = false`,
`confidence_ = 1.0`, `transformation_` the 4x4 identity and `information_` the
6x6 identity; a `PoseGraphNode` constructed with no arguments has `pose_` the 4x4
identity; the Python `PoseGraphEdge` constructor called with no arguments
produces the same edge as the C++ default constructor (through either of its two
registered overloads), and stores each keyword argument in the field of the same
name. -/
theorem pose_graph_defaults :
    (PoseGraphEdge.new none none none none none none).uncertain_ = false ∧
    (PoseGraphEdge.new none none none none none none).confidence_ = 1 ∧
    (PoseGraphEdge.new none none none none none none).transformation_ = 1 ∧
    (PoseGraphEdge.new none none none none none none).information_ = 1 ∧
    (PoseGraphNode.new none).pose_ = 1 ∧
    py_PoseGraphEdge_default = PoseGraphEdge.new none none none none none none ∧
    py_PoseGraphEdge_init PoseGraphEdgeArgs.none =
      PoseGraphEdge.new none none none none none none ∧
    (∀ (target_node_id source_node_id : Int) (transformation : Matrix4d)
        (information : Matrix6d) (uncertain : Bool) (confidence : ℚ),
      py_PoseGraphEdge_init ⟨some target_node_id, some source_node_id, some transformation,
          some information, some uncertain, some confidence⟩ =
        ⟨target_node_id, source_node_id, transformation, information, uncertain,
          confidence⟩) ∧
    (∀ (args : PoseGraphEdgeArgs),
      (∀ v, args.target_node_id = some v → (py_PoseGraphEdge_init args).target_node_id_ = v) ∧
      (∀ v, args.source_node_id = some v → (py_PoseGraphEdge_init args).source_node_id_ = v) ∧
      (∀ v, args.transformation = some v → (py_PoseGraphEdge_init args).transformation_ = v) ∧
      (∀ v, args.information = some v → (py_PoseGraphEdge_init args).information_ = v) ∧
      (∀ v, args.uncertain = some v → (py_PoseGraphEdge_init args).uncertain_ = v) ∧
      (∀ v, args.confidence = some v → (py_PoseGraphEdge_init args).confidence_ = v)) := by
  refine ⟨rfl, rfl, rfl, rfl, rfl, rfl, rfl, fun _ _ _ _ _ _ => rfl, fun args => ?_⟩
  refine ⟨?_, ?_, ?_, ?_, ?_, ?_⟩ <;>
    · intro v hv
      simp [py_PoseGraphEdge_init, PoseGraphEdge.new, hv]

/-- Witness of C7: a Python call that passes only `uncertain=True` and
`confidence=1/2` stores both and takes the defaults for the rest. -/
theorem pose_graph_defaults_witness :
    py_PoseGraphEdge_init ⟨none, none, none, none, some true, some (1 / 2)⟩ =
      ⟨-1, -1, 1, 1, true, 1 / 2⟩ ∧
    (py_PoseGraphEdge_init ⟨none, none, none, none, some true, some (1 / 2)⟩).confidence_ =
      1 / 2 :=
  ⟨rfl, (pose_graph_defaults.2.2.2.2.2.2.2.2
    ⟨none, none, none, none, some true, some (1 / 2)⟩).2.2.2.2.2 (1 / 2) rfl⟩

/-- An edge that is valid among `n` nodes stays valid when a node is appended. -/
theorem PoseGraphEdge.ValidIn.succ {e : PoseGraphEdge} {n : Nat} (h : e.ValidIn n) :
    e.ValidIn (n + 1) := by
  obtain ⟨h1, h2, h3, h4, h5⟩ := h
  refine ⟨h1, ?_, h3, ?_, h5⟩
  · push_cast; omega
  · push_cast; omega

/-- Appending a node keeps the invariant. -/
theorem PoseGraph.EdgesValid.push_node {g : PoseGraph} (h : g.EdgesValid)
    (node : PoseGraphNode) : (g.apply (.push_node node)).EdgesValid := by
  intro e he
  have := h e he
  simpa [PoseGraph.apply] using this.succ

/-- Appending an edge that is valid in the graph keeps the invariant. -/
theorem PoseGraph.EdgesValid.push_edge {g : PoseGraph} (h : g.EdgesValid)
    (edge : PoseGraphEdge) (hedge : edge.ValidIn g.nodes_.length) :
    (g.apply (.push_edge edge)).EdgesValid := by
  intro e he
  simp only [PoseGraph.apply, List.mem_append, List.mem_singleton] at he ⊢
  rcases he with he | he
  · exact h e he
  · rw [he]; exact hedge

/-- A disciplined sequence of appends keeps the invariant. -/
theorem PoseGraph.EdgesValid.foldl (ops : List PoseGraphOp) :
    ∀ g : PoseGraph, g.EdgesValid → PoseGraph.Disciplined g ops →
      (ops.foldl PoseGraph.apply g).EdgesValid := by
  induction ops with
  | nil => intro g hg _; exact hg
  | cons op ops ih =>
    intro g hg hd
    cases op with
    | push_node node =>
      exact ih _ (hg.push_node node) hd
    | push_edge edge =>
      exact ih _ (hg.push_edge edge hd.1) hd.2

/-- C8 (counterexample to the claim as stated): a graph with one node, to which
an edge constructed with no arguments is appended, holds an edge with
`source_node_id_ = target_node_id_ = -1`, which references no node. -/
theorem default_edge_invalid_counterexample :
    (PoseGraphEdge.new none none none none none none).source_node_id_ = -1 ∧
    (PoseGraphEdge.new none none none none none none).target_node_id_ = -1 ∧
    ¬ (PoseGraph.build [.push_node (PoseGraphNode.new none),
        .push_edge (PoseGraphEdge.new none none none none none none)]).EdgesValid := by
  refine ⟨rfl, rfl, ?_⟩
  intro h
  have h1 := h (PoseGraphEdge.new none none none none none none)
    (by simp [PoseGraph.build, PoseGraph.apply, PoseGraph.new])
  have h2 := h1.1
  simp [PoseGraphEdge.new] at h2

/-- C8 (amended): the `PoseGraphEdge` constructor stores the node ids it is given
without validation (`-1` for an omitted id), and every edge of a `PoseGraph`
built from `PoseGraph()` by appending to `nodes_` and `edges_` references two
valid node indices, `0 <= source_node_id_ < nodes_.size()` and
`0 <= target_node_id_ < nodes_.size()`, with
`source_node_id_ != target_node_id_`, provided every appended edge did so for
the nodes present when it was appended. -/
theorem edges_valid_of_disciplined (ops : List PoseGraphOp)
    (h : PoseGraph.Disciplined PoseGraph.new ops) :
    (∀ (t s : Option Int) (T : Option Matrix4d) (info : Option Matrix6d) (u : Option Bool)
        (c : Option ℚ),
      (PoseGraphEdge.new t s T info u c).target_node_id_ = t.getD (-1) ∧
      (PoseGraphEdge.new t s T info u c).source_node_id_ = s.getD (-1)) ∧
    ∀ e ∈ (PoseGraph.build ops).edges_,
      0 ≤ e.source_node_id_ ∧ e.source_node_id_ < (PoseGraph.build ops).nodes_.length ∧
      0 ≤ e.target_node_id_ ∧ e.target_node_id_ < (PoseGraph.build ops).nodes_.length ∧
      e.source_node_id_ ≠ e.target_node_id_ := by
  refine ⟨fun _ _ _ _ _ _ => ⟨rfl, rfl⟩, ?_⟩
  have hnew : PoseGraph.new.EdgesValid := by
    intro e he
    cases he
  exact PoseGraph.EdgesValid.foldl ops PoseGraph.new hnew h

/-- Witness of C8 (amended): two nodes and an edge from node 0 to node 1. -/
theorem edges_valid_of_disciplined_witness :
    PoseGraph.Disciplined PoseGraph.new
      [.push_node (PoseGraphNode.new none), .push_node (PoseGraphNode.new none),
        .push_edge (PoseGraphEdge.new (some 1) (some 0) none none none none)] ∧
    ∀ e ∈ (PoseGraph.build
        [.push_node (PoseGraphNode.new none), .push_node (PoseGraphNode.new none),
          .push_edge (PoseGraphEdge.new (some 1) (some 0) none none none none)]).edges_,
      0 ≤ e.source_node_id_ ∧
      e.source_node_id_ < (PoseGraph.build
        [.push_node (PoseGraphNode.new none), .push_node (PoseGraphNode.new none),
          .push_edge (PoseGraphEdge.new (some 1) (some 0) none none none none)]).nodes_.length ∧
      0 ≤ e.target_node_id_ ∧
      e.target_node_id_ < (PoseGraph.build
        [.push_node (PoseGraphNode.new none), .push_node (PoseGraphNode.new none),
          .push_edge (PoseGraphEdge.new (some 1) (some 0) none none none none)]).nodes_.length ∧
      e.source_node_id_ ≠ e.target_node_id_ := by
  have hd : PoseGraph.Disciplined PoseGraph.new
      [.push_node (PoseGraphNode.new none), .push_node (PoseGraphNode.new none),
        .push_edge (PoseGraphEdge.new (some 1) (some 0) none none none none)] := by
    simp [PoseGraph.Disciplined, PoseGraph.apply, PoseGraph.new, PoseGraphEdge.ValidIn,
      PoseGraphEdge.new]
  exact ⟨hd, (edges_valid_of_disciplined _ hd).2⟩

/-- C9 (evaluation of the code at the failing input): the constructor, in C++ and
through the Python binding, stores `uncertain_ = true` together with
`confidence_ = 2`, which is outside `[0, 1]`. -/
theorem uncertain_edge_confidence_unchecked :
    (PoseGraphEdge.new (some 1) (some 0) none none (some true) (some 2)).uncertain_ = true ∧
    (PoseGraphEdge.new (some 1) (some 0) none none (some true) (some 2)).confidence_ = 2 ∧
    (py_PoseGraphEdge_init ⟨some 1, some 0, none, none, some true, some 2⟩).uncertain_ =
      true ∧
    (py_PoseGraphEdge_init ⟨some 1, some 0, none, none, some true, some 2⟩).confidence_ = 2 ∧
    ¬ ((0 : ℚ) ≤ (py_PoseGraphEdge_init
          ⟨some 1, some 0, none, none, some true, some 2⟩).confidence_ ∧
        (py_PoseGraphEdge_init
          ⟨some 1, some 0, none, none, some true, some 2⟩).confidence_ ≤ 1) := by
  refine ⟨rfl, rfl, rfl, rfl, ?_⟩
  have h : (py_PoseGraphEdge_init
      ⟨some 1, some 0, none, none, some true, some 2⟩).confidence_ = 2 := rfl
  rw [h]
  norm_num

/-! ## Reading a pose graph from Python -/

/-- C10 (counterexample to the claim as stated): the read of `missing.json`
fails, the read of `empty.json` succeeds, both leave the same contents in
`pose_graph`, and the Python caller observes the same outcome for both. -/
theorem read_failure_not_reported_counterexample :
    (ReadPoseGraph sampleFiles "missing.json" PoseGraph.new).1 = false ∧
    (ReadPoseGraph sampleFiles "empty.json" PoseGraph.new).1 = true ∧
    (ReadPoseGraph sampleFiles "missing.json" PoseGraph.new).2 =
      (ReadPoseGraph sampleFiles "empty.json" PoseGraph.new).2 ∧
    py_ReadPoseGraph (ReadPoseGraph sampleFiles) "missing.json" =
      py_ReadPoseGraph (ReadPoseGraph sampleFiles) "empty.json" := by
  refine ⟨?_, ?_, ?_, ?_⟩ <;>
    simp [ReadPoseGraph, sampleFiles, py_ReadPoseGraph, PoseGraph.new]

/-- C10 (amended): the Python function `ReadPoseGraph` always returns normally,
and the value it returns is the graph the underlying
`ReadPoseGraph(filename, pose_graph)` left in an initially empty `pose_graph`;
the `bool` result is discarded, so a failed and a successful read that leave the
same contents are observed as the same outcome. -/
theorem py_read_returns_graph_only (reader reader2 : PoseGraphReader)
    (filename filename2 : String) :
    py_ReadPoseGraph reader filename = .returned (reader filename PoseGraph.new).2 ∧
    ((reader filename PoseGraph.new).2 = (reader2 filename2 PoseGraph.new).2 →
      py_ReadPoseGraph reader filename = py_ReadPoseGraph reader2 filename2) := by
  refine ⟨rfl, ?_⟩
  intro h
  simp [py_ReadPoseGraph, h]

/-- Witness of C10 (amended): the two reads of the counterexample. -/
theorem py_read_returns_graph_only_witness :
    (ReadPoseGraph sampleFiles "missing.json" PoseGraph.new).2 =
      (ReadPoseGraph sampleFiles "empty.json" PoseGraph.new).2 ∧
    py_ReadPoseGraph (ReadPoseGraph sampleFiles) "missing.json" =
      .returned (ReadPoseGraph sampleFiles "missing.json" PoseGraph.new).2 ∧
    py_ReadPoseGraph (ReadPoseGraph sampleFiles) "missing.json" =
      py_ReadPoseGraph (ReadPoseGraph sampleFiles) "empty.json" :=
  ⟨by simp [ReadPoseGraph, sampleFiles, PoseGraph.new],
    (py_read_returns_graph_only (ReadPoseGraph sampleFiles) (ReadPoseGraph sampleFiles)
      "missing.json" "empty.json").1,
    (py_read_returns_graph_only (ReadPoseGraph sampleFiles) (ReadPoseGraph sampleFiles)
      "missing.json" "empty.json").2 (by simp [ReadPoseGraph, sampleFiles, PoseGraph.new])⟩

/-! ## The RGB-D run on images of matching size -/

/-- One pass of the RGB-D loop body on a run that has not faulted, when both
loads are inside their buffers. -/
theorem rgbdPixel_ok (depth color : Image) (intrinsic : PinholeCameraIntrinsic)
    (camera_pose : Matrix4d) (depth_scale : ℚ) (i j : Nat) (r : Run) (d : Nat)
    (c : Nat × Nat × Nat) (hr : r.fault = false)
    (hd : depth.load16 (depthOffset depth i j) = some d)
    (hc : color.load8x3 (colorOffset color i j) = some c) :
    rgbdPixel depth color intrinsic camera_pose depth_scale i j r =
      ⟨⟨r.pointcloud.points_ ++
          (depthEmit depth intrinsic camera_pose depth_scale i j).toList,
        r.pointcloud.normals_,
        r.pointcloud.colors_ ++ (rgbdColorEmit depth color i j).toList⟩,
       r.loads ++ rgbdPixelLoads depth color i j, false⟩ := by
  have hd2 := hd
  have hc2 := hc
  unfold depthOffset at hd2
  unfold colorOffset at hc2
  by_cases hpos : d > 0
  · simp [rgbdPixel, depthEmit, rgbdColorEmit, rgbdPixelLoads, hr, hd, hc, hd2, hc2, hpos,
      Run.log, Run.pushPoint, Run.pushColor]
    exact ⟨rfl, rfl⟩
  · simp [rgbdPixel, depthEmit, rgbdColorEmit, rgbdPixelLoads, hr, hd, hd2, hpos, Run.log]
    rfl

/-- The inner RGB-D loop over columns `js` of row `i`, when every load is inside
its buffer. -/
theorem rgbdRow_ok (depth color : Image) (intrinsic : PinholeCameraIntrinsic)
    (camera_pose : Matrix4d) (depth_scale : ℚ) (i : Nat) (js : List Nat) :
    ∀ (r : Run), r.fault = false →
    (∀ j ∈ js, (∃ d, depth.load16 (depthOffset depth i j) = some d) ∧
      ∃ c, color.load8x3 (colorOffset color i j) = some c) →
    js.foldl (fun r j => rgbdPixel depth color intrinsic camera_pose depth_scale i j r) r =
      ⟨⟨r.pointcloud.points_ ++
          js.filterMap (fun j => depthEmit depth intrinsic camera_pose depth_scale i j),
        r.pointcloud.normals_,
        r.pointcloud.colors_ ++ js.filterMap (fun j => rgbdColorEmit depth color i j)⟩,
       r.loads ++ js.flatMap (fun j => rgbdPixelLoads depth color i j), false⟩ := by
  induction js with
  | nil => intro r hr _; cases r; simp_all
  | cons j js ih =>
    intro r hr hall
    obtain ⟨⟨d, hd⟩, c, hc⟩ := hall j (List.mem_cons_self _ _)
    rw [List.foldl_cons,
      rgbdPixel_ok depth color intrinsic camera_pose depth_scale i j r d c hr hd hc,
      ih _ rfl (fun j' hj' => hall j' (List.mem_cons_of_mem _ hj'))]
    cases h : depthEmit depth intrinsic camera_pose depth_scale i j <;>
      cases h2 : rgbdColorEmit depth color i j <;>
      simp [List.filterMap_cons, List.flatMap_cons, h, h2]

/-- The outer RGB-D loop over `rows`, when every load is inside its buffer. -/
theorem rgbdLoop_ok (depth color : Image) (intrinsic : PinholeCameraIntrinsic)
    (camera_pose : Matrix4d) (depth_scale : ℚ) (rows : List Nat) :
    ∀ (r : Run), r.fault = false →
    (∀ i ∈ rows, ∀ j ∈ List.range depth.width_.toNat,
      (∃ d, depth.load16 (depthOffset depth i j) = some d) ∧
      ∃ c, color.load8x3 (colorOffset color i j) = some c) →
    rows.foldl (fun r i => rgbdRow depth color intrinsic camera_pose depth_scale i r) r =
      ⟨⟨r.pointcloud.points_ ++ rows.flatMap (fun i =>
          (List.range depth.width_.toNat).filterMap fun j =>
            depthEmit depth intrinsic camera_pose depth_scale i j),
        r.pointcloud.normals_,
        r.pointcloud.colors_ ++ rows.flatMap (fun i =>
          (List.range depth.width_.toNat).filterMap fun j => rgbdColorEmit depth color i j)⟩,
       r.loads ++ rows.flatMap (fun i =>
          (List.range depth.width_.toNat).flatMap fun j => rgbdPixelLoads depth color i j),
       false⟩ := by
  induction rows with
  | nil => intro r hr _; cases r; simp_all
  | cons i rows ih =>
    intro r hr hall
    rw [List.foldl_cons, rgbdRow,
      rgbdRow_ok depth color intrinsic camera_pose depth_scale i _ r hr
        (hall i (List.mem_cons_self _ _)),
      ih _ rfl (fun i' hi' => hall i' (List.mem_cons_of_mem _ hi'))]
    simp [List.flatMap_cons]

/-- In a 3-channel 8-bit image whose buffer holds all lines, the three bytes of
every pixel are inside the buffer. -/
theorem colorOffset_inBounds (color : Image) (hc : color.num_of_channels_ = 3)
    (hb : color.bytes_per_channel_ = 1) (hcov : color.HoldsAllLines) (i j : Nat)
    (hi : (i : Int) < color.height_) (hj : (j : Int) < color.width_) :
    0 ≤ colorOffset color i j ∧ colorOffset color i j + 3 ≤ color.data_.length := by
  unfold Image.HoldsAllLines at hcov
  unfold colorOffset
  have hbpl : color.BytesPerLine = 3 * color.width_ := by
    unfold Image.BytesPerLine; rw [hc, hb]; ring
  rw [hbpl] at hcov ⊢
  have hi0 : (0 : Int) ≤ i := Int.natCast_nonneg i
  have hj0 : (0 : Int) ≤ j := Int.natCast_nonneg j
  have hw : (0 : Int) ≤ color.width_ := by omega
  have h1 : (i : Int) * color.width_ + color.width_ ≤ color.height_ * color.width_ := by
    have : ((i : Int) + 1) * color.width_ ≤ color.height_ * color.width_ :=
      Int.mul_le_mul_of_nonneg_right (by omega) hw
    linarith
  have h2 : (0 : Int) ≤ (i : Int) * color.width_ := Int.mul_nonneg hi0 hw
  constructor
  · nlinarith
  · nlinarith

/-- The run of `CreatePointCloudFromRGBDImage` on a depth and a colour image of
the required formats whose buffers hold all lines, when the colour image is at
least as wide and as high as the depth image: it does not fault and emits the
points of the depth image together with the colours of the same pixels. -/
theorem CreatePointCloudFromRGBDImage_run_eq (depth color : Image)
    (intrinsic : PinholeCameraIntrinsic) (extrinsic : Matrix4d) (depth_scale : ℚ)
    (hdc : depth.num_of_channels_ = 1) (hdb : depth.bytes_per_channel_ = 2)
    (hcc : color.num_of_channels_ = 3) (hcb : color.bytes_per_channel_ = 1)
    (hdcov : depth.HoldsAllLines) (hccov : color.HoldsAllLines)
    (hw : depth.width_ ≤ color.width_) (hh : depth.height_ ≤ color.height_) :
    CreatePointCloudFromRGBDImage_run depth color intrinsic extrinsic depth_scale =
      ⟨⟨depthPoints depth intrinsic extrinsic.inverse depth_scale, [],
          rgbdColors depth color⟩,
        rgbdLoads depth color, false⟩ := by
  have hall : ∀ i ∈ List.range depth.height_.toNat, ∀ j ∈ List.range depth.width_.toNat,
      (∃ d, depth.load16 (depthOffset depth i j) = some d) ∧
      ∃ c, color.load8x3 (colorOffset color i j) = some c := by
    intro i hi j hj
    rw [List.mem_range] at hi hj
    obtain ⟨h0, h1⟩ := depthOffset_inBounds depth hdc hdb hdcov i j (by omega) (by omega)
    obtain ⟨h2, h3⟩ := colorOffset_inBounds color hcc hcb hccov i j (by omega) (by omega)
    exact ⟨depth.load16_isSome _ h0 h1, color.load8x3_isSome _ h2 h3⟩
  unfold CreatePointCloudFromRGBDImage_run
  simp only [hdc, hdb, hcc, hcb, ne_eq, not_true_eq_false, or_self, if_false]
  rw [rgbdLoop, rgbdLoop_ok depth color intrinsic _ depth_scale _ Run.init rfl hall]
  simp [Run.init, PointCloud.empty, depthPoints, rgbdColors, rgbdLoads]

/-- Every load of the scan is inside its buffer, under the same conditions. -/
theorem rgbdLoads_inBounds (depth color : Image)
    (hdc : depth.num_of_channels_ = 1) (hdb : depth.bytes_per_channel_ = 2)
    (hcc : color.num_of_channels_ = 3) (hcb : color.bytes_per_channel_ = 1)
    (hdcov : depth.HoldsAllLines) (hccov : color.HoldsAllLines)
    (hw : depth.width_ ≤ color.width_) (hh : depth.height_ ≤ color.height_) :
    ∀ l ∈ rgbdLoads depth color, l.InBounds depth color := by
  intro l hl
  unfold rgbdLoads at hl
  rw [List.mem_flatMap] at hl
  obtain ⟨i, hi, hl⟩ := hl
  rw [List.mem_flatMap] at hl
  obtain ⟨j, hj, hl⟩ := hl
  rw [List.mem_range] at hi hj
  have hd := depthOffset_inBounds depth hdc hdb hdcov i j (by omega) (by omega)
  have hc := colorOffset_inBounds color hcc hcb hccov i j (by omega) (by omega)
  unfold rgbdPixelLoads at hl
  split at hl
  · split at hl
    · simp only [List.mem_cons, List.mem_singleton, List.not_mem_nil, or_false] at hl
      rcases hl with hl | hl
      · rw [hl]; exact hd
      · rw [hl]; exact hc
    · simp only [List.mem_singleton] at hl
      rw [hl]; exact hd
  · simp only [List.mem_singleton] at hl
    rw [hl]; exact hd


/-- When both images have the required formats, both buffers hold all of their
lines and the colour image is at least as wide and as high as the depth image
(in particular when both have the same pixel dimensions),
`CreatePointCloudFromRGBDImage` performs no load outside the two buffers. -/
theorem rgbd_loads_in_bounds_of_matching_size (depth color : Image)
    (intrinsic : PinholeCameraIntrinsic) (extrinsic : Matrix4d) (depth_scale : ℚ)
    (hdc : depth.num_of_channels_ = 1) (hdb : depth.bytes_per_channel_ = 2)
    (hcc : color.num_of_channels_ = 3) (hcb : color.bytes_per_channel_ = 1)
    (hdcov : depth.HoldsAllLines) (hccov : color.HoldsAllLines)
    (hw : depth.width_ ≤ color.width_) (hh : depth.height_ ≤ color.height_) :
    (CreatePointCloudFromRGBDImage_run depth color intrinsic extrinsic depth_scale).fault =
      false ∧
    ∀ l ∈ (CreatePointCloudFromRGBDImage_run depth color intrinsic extrinsic
        depth_scale).loads, l.InBounds depth color := by
  rw [CreatePointCloudFromRGBDImage_run_eq depth color intrinsic extrinsic depth_scale
    hdc hdb hcc hcb hdcov hccov hw hh]
  exact ⟨rfl, rgbdLoads_inBounds depth color hdc hdb hcc hcb hdcov hccov hw hh⟩

/-- Witness: the 2x1 sample depth and colour images. -/
theorem rgbd_loads_in_bounds_of_matching_size_witness :
    sampleDepth.HoldsAllLines ∧ sampleColor.HoldsAllLines ∧
    sampleDepth.width_ ≤ sampleColor.width_ ∧ sampleDepth.height_ ≤ sampleColor.height_ ∧
    (CreatePointCloudFromRGBDImage_run sampleDepth sampleColor sampleIntrinsic 1 1000).loads =
      [.depth 0, .color 0, .depth 2] ∧
    (CreatePointCloudFromRGBDImage_run sampleDepth sampleColor sampleIntrinsic 1 1000).fault =
      false ∧
    ∀ l ∈ (CreatePointCloudFromRGBDImage_run sampleDepth sampleColor sampleIntrinsic 1
        1000).loads, l.InBounds sampleDepth sampleColor :=
  ⟨by decide, by decide, by decide, by decide, by decide,
    rgbd_loads_in_bounds_of_matching_size sampleDepth sampleColor sampleIntrinsic 1 1000
      rfl rfl rfl rfl (by decide) (by decide) (by decide) (by decide)⟩

/-! ## Voxel indexing: formula, injectivity and 32-bit range -/

/-- A value that fits `int` is not changed by wrapping. -/
theorem wrapInt_of_fits (n : Int) (h : FitsInt n) : wrapInt n = n := by
  unfold FitsInt INT_MIN INT_MAX at h
  unfold wrapInt
  omega

/-- A product that fits `int` is computed exactly. -/
theorem mulInt_of_fits (a b : Int) (h : FitsInt (a * b)) : mulInt a b = some (a * b) := by
  unfold mulInt
  exact if_pos h

/-- A sum that fits `int` is computed exactly. -/
theorem addInt_of_fits (a b : Int) (h : FitsInt (a + b)) : addInt a b = some (a + b) := by
  unfold addInt
  exact if_pos h

/-- The intermediate results of `index` for a resolution of at most 1290 and
in-range coordinates all fit a 32-bit `int`. -/
theorem index_intermediates_fit (R x y z : Int) (hR : 1 ≤ R ∧ R ≤ 1290)
    (hx : 0 ≤ x ∧ x < R) (hy : 0 ≤ y ∧ y < R) (hz : 0 ≤ z ∧ z < R) :
    FitsInt (x * R) ∧ FitsInt (x * R * R) ∧ FitsInt (y * R) ∧
    FitsInt (x * R * R + y * R) ∧ FitsInt (x * R * R + y * R + z) := by
  have hR0 : (0 : Int) ≤ R := by omega
  have hxR0 : 0 ≤ x * R := Int.mul_nonneg hx.1 hR0
  have hyR0 : 0 ≤ y * R := Int.mul_nonneg hy.1 hR0
  have hxRR0 : 0 ≤ x * R * R := Int.mul_nonneg hxR0 hR0
  have hxR : x * R ≤ 1289 * 1290 :=
    Int.mul_le_mul (by omega) (by omega) hR0 (by norm_num)
  have hyR : y * R ≤ 1289 * 1290 :=
    Int.mul_le_mul (by omega) (by omega) hR0 (by norm_num)
  have hxRR : x * R * R ≤ 1289 * 1290 * 1290 :=
    Int.mul_le_mul hxR (by omega) hR0 (by norm_num)
  unfold FitsInt INT_MIN INT_MAX
  refine ⟨⟨?_, ?_⟩, ⟨?_, ?_⟩, ⟨?_, ?_⟩, ⟨?_, ?_⟩, ⟨?_, ?_⟩⟩ <;> omega

/-- The flat index `x * R * R + y * R + z` determines the coordinate of an
in-range voxel. -/
theorem UniformTSDFVolume.coordinate_index (v : UniformTSDFVolume) (x y z : Int)
    (hy : 0 ≤ y ∧ y < v.resolution_) (hz : 0 ≤ z ∧ z < v.resolution_) :
    v.coordinate (x * v.resolution_ * v.resolution_ + y * v.resolution_ + z) = (x, y, z) := by
  have hR : 0 < v.resolution_ := by omega
  have hRne : v.resolution_ ≠ 0 := by omega
  have h1 : x * v.resolution_ * v.resolution_ + y * v.resolution_ + z =
      z + (x * v.resolution_ + y) * v.resolution_ := by ring
  have hmod : (x * v.resolution_ * v.resolution_ + y * v.resolution_ + z) % v.resolution_ = z := by
    rw [h1, Int.add_mul_emod_self, Int.emod_eq_of_lt hz.1 hz.2]
  have hdiv : (x * v.resolution_ * v.resolution_ + y * v.resolution_ + z) / v.resolution_ =
      x * v.resolution_ + y := by
    rw [h1, Int.add_mul_ediv_right _ _ hRne, Int.ediv_eq_zero_of_lt hz.1 hz.2, zero_add]
  have hmod2 : (x * v.resolution_ + y) % v.resolution_ = y := by
    rw [add_comm, Int.add_mul_emod_self, Int.emod_eq_of_lt hy.1 hy.2]
  have hdiv2 : (x * v.resolution_ + y) / v.resolution_ = x := by
    rw [add_comm, Int.add_mul_ediv_right _ _ hRne, Int.ediv_eq_zero_of_lt hy.1 hy.2, zero_add]
  simp only [UniformTSDFVolume.coordinate, hmod, hdiv, hmod2, hdiv2]

/-- When no intermediate product or sum leaves the range of `int`, the 32-bit
evaluation of `index` is the exact value of the expression. -/
theorem UniformTSDFVolume.index_of_fits (v : UniformTSDFVolume) (x y z : Int)
    (h1 : FitsInt (x * v.resolution_)) (h2 : FitsInt (x * v.resolution_ * v.resolution_))
    (h3 : FitsInt (y * v.resolution_))
    (h4 : FitsInt (x * v.resolution_ * v.resolution_ + y * v.resolution_))
    (h5 : FitsInt (x * v.resolution_ * v.resolution_ + y * v.resolution_ + z)) :
    v.index x y z = x * v.resolution_ * v.resolution_ + y * v.resolution_ + z := by
  unfold UniformTSDFVolume.index
  rw [wrapInt_of_fits _ h1, wrapInt_of_fits _ h2, wrapInt_of_fits _ h3,
    wrapInt_of_fits _ h4, wrapInt_of_fits _ h5]

/-- For a resolution of at most 1290 and in-range coordinates the 32-bit
evaluation of `index` is the exact value of the expression. -/
theorem UniformTSDFVolume.index_of_range (v : UniformTSDFVolume) (x y z : Int)
    (hR : 1 ≤ v.resolution_ ∧ v.resolution_ ≤ 1290)
    (hx : 0 ≤ x ∧ x < v.resolution_) (hy : 0 ≤ y ∧ y < v.resolution_)
    (hz : 0 ≤ z ∧ z < v.resolution_) :
    v.index x y z = x * v.resolution_ * v.resolution_ + y * v.resolution_ + z := by
  obtain ⟨h1, h2, h3, h4, h5⟩ := index_intermediates_fit v.resolution_ x y z hR hx hy hz
  exact v.index_of_fits x y z h1 h2 h3 h4 h5

/-- Counterexample to C1 as stated: at resolution 1291 the product
`1290 * 1291 * 1291` leaves the range of `int`; for the voxel
`(1290, 1290, 1290)` the checked evaluation overflows and the 32-bit result is
`-2143282126`, not `x*R*R + y*R + z = 2151685170`. -/
theorem index_overflow_counterexample :
    (⟨1291, -2143282125⟩ : UniformTSDFVolume).index 1290 1290 1290 = -2143282126 ∧
    (1290 : Int) * 1291 * 1291 + 1290 * 1291 + 1290 = 2151685170 ∧
    (⟨1291, -2143282125⟩ : UniformTSDFVolume).index 1290 1290 1290 ≠
      1290 * 1291 * 1291 + 1290 * 1291 + 1290 ∧
    (⟨1291, -2143282125⟩ : UniformTSDFVolume).index_int32 1290 1290 1290 = none ∧
    ¬ FitsInt (1290 * 1291 * 1291) := by
  decide

/-- C1, amended: for every resolution `R` and every voxel coordinate
`(x, y, z)` for which no intermediate product or sum of the expression leaves
the range of a 32-bit `int`, `UniformTSDFVolume::index(x, y, z)` returns
`x*R*R + y*R + z` (which is `x·R² + y·R + z`) and no operation overflows; the
`Vector3i` overload `index(xyz)` returns the same value as
`index(xyz(0), xyz(1), xyz(2))` for every input. -/
theorem index_formula (v : UniformTSDFVolume) (x y z : Int) (xyz : Vector3i)
    (h1 : FitsInt (x * v.resolution_)) (h2 : FitsInt (x * v.resolution_ * v.resolution_))
    (h3 : FitsInt (y * v.resolution_))
    (h4 : FitsInt (x * v.resolution_ * v.resolution_ + y * v.resolution_))
    (h5 : FitsInt (x * v.resolution_ * v.resolution_ + y * v.resolution_ + z)) :
    v.index x y z = x * v.resolution_ * v.resolution_ + y * v.resolution_ + z ∧
    v.index x y z = x * v.resolution_ ^ 2 + y * v.resolution_ + z ∧
    v.index_int32 x y z = some (x * v.resolution_ * v.resolution_ + y * v.resolution_ + z) ∧
    v.indexVec xyz = v.index (xyz 0) (xyz 1) (xyz 2) ∧
    v.indexVec ![x, y, z] = x * v.resolution_ * v.resolution_ + y * v.resolution_ + z := by
  have hi := v.index_of_fits x y z h1 h2 h3 h4 h5
  refine ⟨hi, ?_, ?_, rfl, ?_⟩
  · rw [hi]
    ring
  · unfold UniformTSDFVolume.index_int32
    rw [mulInt_of_fits _ _ h1, Option.some_bind, mulInt_of_fits _ _ h2, Option.some_bind,
      mulInt_of_fits _ _ h3, Option.some_bind, addInt_of_fits _ _ h4, Option.some_bind,
      addInt_of_fits _ _ h5]
  · simpa [UniformTSDFVolume.indexVec] using hi

/-- Witness of C1: resolution 512, voxel `(3, 4, 5)`, index `788485`. -/
theorem index_formula_witness :
    (⟨512, 134217728⟩ : UniformTSDFVolume).index 3 4 5 = 3 * 512 * 512 + 4 * 512 + 5 ∧
    (⟨512, 134217728⟩ : UniformTSDFVolume).index 3 4 5 = 788485 ∧
    (⟨512, 134217728⟩ : UniformTSDFVolume).indexVec ![3, 4, 5] = 788485 := by
  have h := index_formula ⟨512, 134217728⟩ 3 4 5 ![3, 4, 5] (by decide) (by decide) (by decide)
    (by decide) (by decide)
  exact ⟨h.1, h.1.trans (by decide), h.2.2.2.2.trans (by decide)⟩

/-- Counterexample to C17 as stated: at resolution 1626 the in-range voxels
`(1624, 807, 490)` and `(0, 0, 0)` are given the same slot 0, because
`1624 * 1626² + 807 * 1626 + 490 = 2^32`; and at resolution 1291 the in-range
voxel `(1290, 0, 0)` is given a negative slot. -/
theorem index_collision_counterexample :
    (⟨1626, 3975080⟩ : UniformTSDFVolume).index 1624 807 490 =
      (⟨1626, 3975080⟩ : UniformTSDFVolume).index 0 0 0 ∧
    (⟨1626, 3975080⟩ : UniformTSDFVolume).index 1624 807 490 = 0 ∧
    (1624 : Int) * 1626 ^ 2 + 807 * 1626 + 490 = 2 ^ 32 ∧
    ((1624 : Int) < 1626 ∧ (807 : Int) < 1626 ∧ (490 : Int) < 1626) ∧
    (⟨1291, -2143282125⟩ : UniformTSDFVolume).index 1290 0 0 = -2144948806 ∧
    (⟨1291, -2143282125⟩ : UniformTSDFVolume).index 1290 0 0 < 0 := by
  decide

/-- C17, amended: for every resolution `R` with `1 <= R <= 1290`,
`UniformTSDFVolume::index` restricted to coordinates with `0 <= x, y, z < R` is
injective and its values lie in `[0, R^3)`: two distinct in-range voxels never
share a storage slot and every in-range voxel's slot is inside arrays of length
`R^3`. -/
theorem index_injective_in_range (v : UniformTSDFVolume)
    (hR : 1 ≤ v.resolution_ ∧ v.resolution_ ≤ 1290)
    (x y z x' y' z' : Int)
    (hx : 0 ≤ x ∧ x < v.resolution_) (hy : 0 ≤ y ∧ y < v.resolution_)
    (hz : 0 ≤ z ∧ z < v.resolution_)
    (hx' : 0 ≤ x' ∧ x' < v.resolution_) (hy' : 0 ≤ y' ∧ y' < v.resolution_)
    (hz' : 0 ≤ z' ∧ z' < v.resolution_) :
    (v.index x y z = v.index x' y' z' → x = x' ∧ y = y' ∧ z = z') ∧
    0 ≤ v.index x y z ∧ v.index x y z < v.resolution_ ^ 3 := by
  rw [v.index_of_range x y z hR hx hy hz, v.index_of_range x' y' z' hR hx' hy' hz']
  refine ⟨?_, ?_, ?_⟩
  · intro h
    have h1 := v.coordinate_index x y z hy hz
    have h2 := v.coordinate_index x' y' z' hy' hz'
    rw [h] at h1
    rw [h1] at h2
    simpa using h2
  · have := Int.mul_nonneg hx.1 (by omega : (0:Int) ≤ v.resolution_)
    have := Int.mul_nonneg this (by omega : (0:Int) ≤ v.resolution_)
    have := Int.mul_nonneg hy.1 (by omega : (0:Int) ≤ v.resolution_)
    omega
  · have hR0 : (0:Int) ≤ v.resolution_ := by omega
    have h1 : x * v.resolution_ * v.resolution_ ≤
        (v.resolution_ - 1) * v.resolution_ * v.resolution_ :=
      Int.mul_le_mul_of_nonneg_right (Int.mul_le_mul_of_nonneg_right (by omega) hR0) hR0
    have h2 : y * v.resolution_ ≤ (v.resolution_ - 1) * v.resolution_ :=
      Int.mul_le_mul_of_nonneg_right (by omega) hR0
    nlinarith

/-- Witness of C17: resolution 4, voxels `(1, 2, 3)` and `(3, 2, 1)`. -/
theorem index_injective_in_range_witness :
    ((⟨4, 64⟩ : UniformTSDFVolume).index 1 2 3 = (⟨4, 64⟩ : UniformTSDFVolume).index 3 2 1 →
      (1 : Int) = 3 ∧ (2 : Int) = 2 ∧ (3 : Int) = 1) ∧
    0 ≤ (⟨4, 64⟩ : UniformTSDFVolume).index 1 2 3 ∧
    (⟨4, 64⟩ : UniformTSDFVolume).index 1 2 3 < (4 : Int) ^ 3 ∧
    (⟨4, 64⟩ : UniformTSDFVolume).index 1 2 3 = 27 ∧
    (⟨4, 64⟩ : UniformTSDFVolume).index 3 2 1 = 57 :=
  ⟨(index_injective_in_range ⟨4, 64⟩ (by decide) 1 2 3 3 2 1 (by decide) (by decide)
      (by decide) (by decide) (by decide) (by decide)).1,
    (index_injective_in_range ⟨4, 64⟩ (by decide) 1 2 3 3 2 1 (by decide) (by decide)
      (by decide) (by decide) (by decide) (by decide)).2.1,
    (index_injective_in_range ⟨4, 64⟩ (by decide) 1 2 3 3 2 1 (by decide) (by decide)
      (by decide) (by decide) (by decide) (by decide)).2.2,
    by decide, by decide⟩

/-- C18: with 32-bit signed `int` arithmetic, for every resolution `R` with
`1 <= R <= 1290` and every coordinate with `0 <= x, y, z < R`, no intermediate
product or sum in `UniformTSDFVolume::index(x, y, z)` overflows, so the computed
`int` equals the mathematical value `x*R^2 + y*R + z`. -/
theorem index_int32_exact (v : UniformTSDFVolume) (x y z : Int)
    (hR : 1 ≤ v.resolution_ ∧ v.resolution_ ≤ 1290)
    (hx : 0 ≤ x ∧ x < v.resolution_) (hy : 0 ≤ y ∧ y < v.resolution_)
    (hz : 0 ≤ z ∧ z < v.resolution_) :
    (FitsInt (x * v.resolution_) ∧ FitsInt (x * v.resolution_ * v.resolution_) ∧
      FitsInt (y * v.resolution_) ∧
      FitsInt (x * v.resolution_ * v.resolution_ + y * v.resolution_) ∧
      FitsInt (x * v.resolution_ * v.resolution_ + y * v.resolution_ + z)) ∧
    v.index_int32 x y z = some (x * v.resolution_ ^ 2 + y * v.resolution_ + z) ∧
    v.index_wrap x y z = x * v.resolution_ ^ 2 + y * v.resolution_ + z := by
  have hfit := index_intermediates_fit v.resolution_ x y z hR hx hy hz
  obtain ⟨h1, h2, h3, h4, h5⟩ := hfit
  refine ⟨⟨h1, h2, h3, h4, h5⟩, ?_, ?_⟩
  · unfold UniformTSDFVolume.index_int32
    rw [mulInt_of_fits _ _ h1, Option.some_bind, mulInt_of_fits _ _ h2, Option.some_bind,
      mulInt_of_fits _ _ h3, Option.some_bind, addInt_of_fits _ _ h4, Option.some_bind,
      addInt_of_fits _ _ h5]
    congr 1
    ring
  · unfold UniformTSDFVolume.index_wrap UniformTSDFVolume.index
    rw [wrapInt_of_fits _ h1, wrapInt_of_fits _ h2, wrapInt_of_fits _ h3,
      wrapInt_of_fits _ h4, wrapInt_of_fits _ h5]
    ring

/-- Witness of C18: the last voxel of the largest admitted grid, `R = 1290`. -/
theorem index_int32_exact_witness :
    (⟨1290, 2146689000⟩ : UniformTSDFVolume).index_int32 1289 1289 1289 = some 2146688999 ∧
    (⟨1290, 2146689000⟩ : UniformTSDFVolume).index_wrap 1289 1289 1289 = 2146688999 := by
  have h := index_int32_exact ⟨1290, 2146689000⟩ 1289 1289 1289 (by decide) (by decide)
    (by decide) (by decide)
  exact ⟨by simpa using h.2.1, by simpa using h.2.2⟩

/-! ## The points of a depth image in row-major order -/

/-- The loop body emits the back-projection of a pixel exactly when its raw
depth is non-zero. -/
theorem depthEmit_eq_ite (depth : Image) (intrinsic : PinholeCameraIntrinsic)
    (camera_pose : Matrix4d) (depth_scale : ℚ) (ij : Nat × Nat) :
    depthEmit depth intrinsic camera_pose depth_scale ij.1 ij.2 =
      if rawDepth depth ij ≠ 0 then
        some (backProject intrinsic camera_pose depth_scale ij.1 ij.2 (rawDepth depth ij))
      else none := by
  unfold depthEmit rawDepth
  cases h : depth.load16 (depthOffset depth ij.1 ij.2) with
  | none => simp
  | some d =>
    by_cases hd : d = 0
    · simp [hd]
    · have : d > 0 := Nat.pos_of_ne_zero hd
      simp [hd, this]

/-- Filtering then mapping, written as one `filterMap`. -/
theorem filterMap_ite_eq_map_filter {α β : Type} (p : α → Prop) [DecidablePred p]
    (f : α → β) (l : List α) :
    l.filterMap (fun a => if p a then some (f a) else none) =
      (l.filter fun a => p a).map f := by
  induction l with
  | nil => rfl
  | cons a l ih =>
    by_cases h : p a
    · simp [List.filterMap_cons, List.filter_cons, h, ih]
    · simp [List.filterMap_cons, List.filter_cons, h, ih]

/-- A `filterMap` over the pixels of the rows, row by row. -/
theorem flatMap_filterMap_pixels {β : Type} (e : Nat × Nat → Option β) (cols : List Nat)
    (rows : List Nat) :
    rows.flatMap (fun i => cols.filterMap fun j => e (i, j)) =
      (rows.flatMap fun i => cols.map fun j => (i, j)).filterMap e := by
  induction rows with
  | nil => rfl
  | cons i rows ih =>
    rw [List.flatMap_cons, List.flatMap_cons, List.filterMap_append, ih, List.filterMap_map]
    rfl

/-- The points of the scan are the back-projections of the non-zero pixels. -/
theorem depthPoints_eq_nonZeroBackProjections (depth : Image)
    (intrinsic : PinholeCameraIntrinsic) (camera_pose : Matrix4d) (depth_scale : ℚ) :
    depthPoints depth intrinsic camera_pose depth_scale =
      nonZeroBackProjections depth intrinsic camera_pose depth_scale := by
  unfold depthPoints nonZeroBackProjections nonZeroPixels rowMajorPixels
  rw [flatMap_filterMap_pixels
    (fun ij => depthEmit depth intrinsic camera_pose depth_scale ij.1 ij.2)]
  rw [← filterMap_ite_eq_map_filter]
  congr 1
  funext ij
  exact depthEmit_eq_ite depth intrinsic camera_pose depth_scale ij

/-- The number of pixels of a list of rows. -/
theorem length_flatMap_pixels (cols rows : List Nat) :
    (rows.flatMap fun i => cols.map fun j => (i, j)).length = rows.length * cols.length := by
  induction rows with
  | nil => simp
  | cons i rows ih =>
    rw [List.flatMap_cons, List.length_append, ih, List.length_map, List.length_cons]
    ring

/-- An image of height `H` and width `W` has `H * W` pixels. -/
theorem rowMajorPixels_length (depth : Image) :
    (rowMajorPixels depth).length = depth.height_.toNat * depth.width_.toNat := by
  unfold rowMajorPixels
  rw [length_flatMap_pixels, List.length_range, List.length_range]

/-- The pixel at row `i`, column `j` is the entry `i * W + j` of the row-major
list. -/
theorem rowMajorPixels_get (depth : Image) (i j : Nat) (hi : i < depth.height_.toNat)
    (hj : j < depth.width_.toNat) :
    (rowMajorPixels depth)[i * depth.width_.toNat + j]? = some (i, j) := by
  unfold rowMajorPixels
  generalize depth.width_.toNat = W at *
  generalize depth.height_.toNat = H at *
  induction H with
  | zero => omega
  | succ H ih =>
    rw [List.range_succ, List.flatMap_append, List.flatMap_singleton]
    by_cases h : i < H
    · rw [List.getElem?_append_left]
      · exact ih h
      · rw [length_flatMap_pixels, List.length_range, List.length_range]
        calc i * W + j < i * W + W := by omega
          _ = (i + 1) * W := by ring
          _ ≤ H * W := Nat.mul_le_mul_right W h
    · have hiH : i = H := by omega
      subst hiH
      rw [List.getElem?_append_right]
      · rw [length_flatMap_pixels, List.length_range, List.length_range]
        simp [hj]
      · rw [length_flatMap_pixels, List.length_range, List.length_range]
        omega

/-- C16: for every 1-channel 16-bit depth image of width `W` and height `H`
(whose buffer holds all of its lines), the `points_` of
`CreatePointCloudFromDepthImage` is exactly the list, in row-major pixel order
(row 0 first, columns left to right within a row), of the back-projections of
the pixels whose raw depth is non-zero: its length equals the number of non-zero
pixels (at most `W * H`), and a pixel with depth 0 contributes no point. -/
theorem depth_points_row_major (depth : Image) (intrinsic : PinholeCameraIntrinsic)
    (extrinsic : Matrix4d) (depth_scale : ℚ) (W H : Nat)
    (hc : depth.num_of_channels_ = 1) (hb : depth.bytes_per_channel_ = 2)
    (hW : depth.width_ = W) (hH : depth.height_ = H) (hcov : depth.HoldsAllLines) :
    ∃ cloud, CreatePointCloudFromDepthImage depth intrinsic extrinsic depth_scale =
        some cloud ∧
      cloud.points_ =
        ((rowMajorPixels depth).filter fun ij => rawDepth depth ij ≠ 0).map (fun ij =>
          backProject intrinsic extrinsic.inverse depth_scale ij.1 ij.2 (rawDepth depth ij)) ∧
      cloud.points_.length =
        ((rowMajorPixels depth).filter fun ij => rawDepth depth ij ≠ 0).length ∧
      cloud.points_.length ≤ W * H ∧
      (rowMajorPixels depth).length = H * W ∧
      (∀ i j, i < H → j < W → (rowMajorPixels depth)[i * W + j]? = some (i, j)) ∧
      (∀ ij ∈ rowMajorPixels depth, rawDepth depth ij = 0 →
        ij ∉ (rowMajorPixels depth).filter fun ij => rawDepth depth ij ≠ 0) := by
  have hWn : depth.width_.toNat = W := by omega
  have hHn : depth.height_.toNat = H := by omega
  have hlen := rowMajorPixels_length depth
  rw [hWn, hHn] at hlen
  refine ⟨⟨nonZeroBackProjections depth intrinsic extrinsic.inverse depth_scale, [], []⟩,
    ?_, rfl, ?_, ?_, hlen, ?_, ?_⟩
  · unfold CreatePointCloudFromDepthImage
    rw [CreatePointCloudFromDepthImage_run_eq depth intrinsic extrinsic depth_scale hc hb hcov,
      depthPoints_eq_nonZeroBackProjections]
    rfl
  · simp [nonZeroBackProjections, nonZeroPixels]
  · calc (nonZeroBackProjections depth intrinsic extrinsic.inverse depth_scale).length
        = (nonZeroPixels depth).length := by simp [nonZeroBackProjections]
      _ ≤ (rowMajorPixels depth).length := List.length_filter_le _ _
      _ = W * H := by rw [hlen, Nat.mul_comm]
  · intro i j hi hj
    have := rowMajorPixels_get depth i j (by omega) (by omega)
    rwa [hWn] at this
  · intro ij _ h0 hmem
    rw [List.mem_filter] at hmem
    simp [h0] at hmem

/-- Witness of C16: the 2x1 sample image has the pixels `(0, 0)` with raw depth
500 and `(0, 1)` with raw depth 0, and yields one point. -/
theorem depth_points_row_major_witness :
    sampleDepth.HoldsAllLines ∧
    rowMajorPixels sampleDepth = [(0, 0), (0, 1)] ∧
    ((rowMajorPixels sampleDepth).filter fun ij => rawDepth sampleDepth ij ≠ 0) = [(0, 0)] ∧
    ∃ cloud, CreatePointCloudFromDepthImage sampleDepth sampleIntrinsic sampleExtrinsic 1000 =
        some cloud ∧
      cloud.points_ =
        ((rowMajorPixels sampleDepth).filter fun ij => rawDepth sampleDepth ij ≠ 0).map
          (fun ij => backProject sampleIntrinsic sampleExtrinsic.inverse 1000 ij.1 ij.2
            (rawDepth sampleDepth ij)) ∧
      cloud.points_.length = 1 ∧ cloud.points_.length ≤ 2 * 1 := by
  obtain ⟨cloud, h1, h2, h3, h4, -⟩ :=
    depth_points_row_major sampleDepth sampleIntrinsic sampleExtrinsic 1000 2 1 rfl rfl rfl rfl
      (by decide)
  have hnz : ((rowMajorPixels sampleDepth).filter fun ij => rawDepth sampleDepth ij ≠ 0) =
      [(0, 0)] := by decide
  refine ⟨by decide, by decide, hnz, cloud, h1, h2, ?_, h4⟩
  rw [h3, hnz]
  rfl

/-! ## The RGB-D points are the depth points -/

/-- Two loops over the same list whose bodies keep a relation between their
states end in related states. -/
theorem foldl_related {α β γ : Type} (R : β → γ → Prop) (Q : α → Prop) (f : β → α → β)
    (g : γ → α → γ) (hstep : ∀ a b c, Q a → R b c → R (f b a) (g c a)) (l : List α) :
    ∀ b c, (∀ a ∈ l, Q a) → R b c → R (l.foldl f b) (l.foldl g c) := by
  induction l with
  | nil => intro b c _ h; exact h
  | cons a l ih =>
    intro b c hall h
    rw [List.foldl_cons, List.foldl_cons]
    exact ih _ _ (fun a' ha' => hall a' (List.mem_cons_of_mem _ ha'))
      (hstep a b c (hall a (List.mem_cons_self _ _)) h)

/-- One pass of the two loop bodies at the same pixel keeps the runs in
agreement, when the colour pixel is inside the colour buffer. -/
theorem pixel_samePoints (depth color : Image) (intrinsic : PinholeCameraIntrinsic)
    (camera_pose : Matrix4d) (depth_scale : ℚ) (i j : Nat) (rd rr : Run)
    (hc : ∃ c, color.load8x3 (colorOffset color i j) = some c) (h : SamePoints rd rr) :
    SamePoints (depthPixel depth intrinsic camera_pose depth_scale i j rd)
      (rgbdPixel depth color intrinsic camera_pose depth_scale i j rr) := by
  obtain ⟨c, hc⟩ := hc
  unfold colorOffset at hc
  obtain ⟨hf, hp⟩ := h
  unfold depthPixel rgbdPixel
  by_cases hfault : rd.fault = true
  · have hfault2 : rr.fault = true := by rw [← hf]; exact hfault
    simp only [hfault, hfault2, if_true]
    exact ⟨hf, hp⟩
  · have hfault2 : ¬ rr.fault = true := by rw [← hf]; exact hfault
    simp only [hfault, hfault2, Bool.false_eq_true, if_false]
    cases hd : depth.load16 ((i : Int) * depth.BytesPerLine + 2 * (j : Int)) with
    | none => exact ⟨rfl, hp⟩
    | some d =>
      by_cases hpos : d > 0
      · simp only [hpos, if_true, hc]
        refine ⟨?_, ?_⟩
        · simpa [Run.log, Run.pushPoint, Run.pushColor] using hf
        · simp [Run.log, Run.pushPoint, Run.pushColor, hp]
      · simp only [hpos, if_false]
        exact ⟨by simpa [Run.log] using hf, by simpa [Run.log] using hp⟩

/-- The runs of the two factory functions agree when the colour image has the
required format, the pixel dimensions of the depth image and a buffer that holds
all of its lines. -/
theorem runs_samePoints (depth color : Image) (intrinsic : PinholeCameraIntrinsic)
    (extrinsic : Matrix4d) (depth_scale : ℚ)
    (hcc : color.num_of_channels_ = 3) (hcb : color.bytes_per_channel_ = 1)
    (hw : color.width_ = depth.width_) (hh : color.height_ = depth.height_)
    (hccov : color.HoldsAllLines) :
    SamePoints (CreatePointCloudFromDepthImage_run depth intrinsic extrinsic depth_scale)
      (CreatePointCloudFromRGBDImage_run depth color intrinsic extrinsic depth_scale) := by
  unfold CreatePointCloudFromDepthImage_run CreatePointCloudFromRGBDImage_run
  by_cases hfmt : depth.num_of_channels_ ≠ 1 ∨ depth.bytes_per_channel_ ≠ 2
  · have hfmt2 : depth.num_of_channels_ ≠ 1 ∨ depth.bytes_per_channel_ ≠ 2 ∨
        color.num_of_channels_ ≠ 3 ∨ color.bytes_per_channel_ ≠ 1 := by
      rcases hfmt with h | h
      · exact Or.inl h
      · exact Or.inr (Or.inl h)
    rw [if_pos hfmt, if_pos hfmt2]
    exact ⟨rfl, rfl⟩
  · have hfmt2 : ¬ (depth.num_of_channels_ ≠ 1 ∨ depth.bytes_per_channel_ ≠ 2 ∨
        color.num_of_channels_ ≠ 3 ∨ color.bytes_per_channel_ ≠ 1) := by
      intro h
      rcases h with h | h | h | h
      · exact hfmt (Or.inl h)
      · exact hfmt (Or.inr h)
      · exact h hcc
      · exact h hcb
    rw [if_neg hfmt, if_neg hfmt2]
    unfold depthLoop rgbdLoop
    refine foldl_related SamePoints (fun i : Nat => (i : Int) < depth.height_) _ _ ?_ _ _ _ ?_
      ⟨rfl, rfl⟩
    · intro i rd rr hi h
      unfold depthRow rgbdRow
      refine foldl_related SamePoints (fun j : Nat => (j : Int) < depth.width_) _ _ ?_ _ _ _ ?_ h
      · intro j rd rr hj h
        apply pixel_samePoints depth color intrinsic _ depth_scale i j rd rr _ h
        obtain ⟨h0, h1⟩ := colorOffset_inBounds color hcc hcb hccov i j (by omega) (by omega)
        exact color.load8x3_isSome _ h0 h1
      · intro j hj
        rw [List.mem_range] at hj
        omega
    · intro i hi
      rw [List.mem_range] at hi
      omega

/-- C19: for every depth image, intrinsic, extrinsic and `depth_scale`, and every
colour image of the required 3-channel 8-bit format with the same width and
height as the depth image (whose buffer holds all of its lines), the `points_`
returned by `CreatePointCloudFromRGBDImage` equals, element by element and in
the same order, the `points_` returned by `CreatePointCloudFromDepthImage` on
the same depth image, intrinsic, extrinsic and `depth_scale`; both functions
return a cloud when the depth image is rejected by the format check or its
buffer holds all of its lines. -/
theorem rgbd_points_eq_depth_points (depth color : Image)
    (intrinsic : PinholeCameraIntrinsic) (extrinsic : Matrix4d) (depth_scale : ℚ)
    (hcc : color.num_of_channels_ = 3) (hcb : color.bytes_per_channel_ = 1)
    (hw : color.width_ = depth.width_) (hh : color.height_ = depth.height_)
    (hccov : color.HoldsAllLines) :
    (CreatePointCloudFromRGBDImage_run depth color intrinsic extrinsic
        depth_scale).pointcloud.points_ =
      (CreatePointCloudFromDepthImage_run depth intrinsic extrinsic
        depth_scale).pointcloud.points_ ∧
    (CreatePointCloudFromRGBDImage depth color intrinsic extrinsic depth_scale).map
        PointCloud.points_ =
      (CreatePointCloudFromDepthImage depth intrinsic extrinsic depth_scale).map
        PointCloud.points_ ∧
    ((depth.num_of_channels_ = 1 ∧ depth.bytes_per_channel_ = 2 → depth.HoldsAllLines) →
      ∃ rgbd_cloud depth_cloud,
        CreatePointCloudFromRGBDImage depth color intrinsic extrinsic depth_scale =
          some rgbd_cloud ∧
        CreatePointCloudFromDepthImage depth intrinsic extrinsic depth_scale =
          some depth_cloud ∧
        rgbd_cloud.points_ = depth_cloud.points_) := by
  obtain ⟨hf, hp⟩ := runs_samePoints depth color intrinsic extrinsic depth_scale hcc hcb hw hh
    hccov
  have hres : (CreatePointCloudFromRGBDImage depth color intrinsic extrinsic depth_scale).map
        PointCloud.points_ =
      (CreatePointCloudFromDepthImage depth intrinsic extrinsic depth_scale).map
        PointCloud.points_ := by
    unfold CreatePointCloudFromRGBDImage CreatePointCloudFromDepthImage Run.result
    rw [← hf]
    split
    · rfl
    · exact congrArg some hp.symm
  refine ⟨hp.symm, hres, ?_⟩
  intro hwf
  have hnofault : (CreatePointCloudFromDepthImage_run depth intrinsic extrinsic
      depth_scale).fault = false := by
    by_cases hfmt : depth.num_of_channels_ = 1 ∧ depth.bytes_per_channel_ = 2
    · rw [CreatePointCloudFromDepthImage_run_eq depth intrinsic extrinsic depth_scale hfmt.1
        hfmt.2 (hwf hfmt)]
    · have hfmt2 : depth.num_of_channels_ ≠ 1 ∨ depth.bytes_per_channel_ ≠ 2 := by
        by_cases h1 : depth.num_of_channels_ = 1
        · exact Or.inr (fun h2 => hfmt ⟨h1, h2⟩)
        · exact Or.inl h1
      unfold CreatePointCloudFromDepthImage_run
      rw [if_pos hfmt2]
      rfl
  refine ⟨_, _, ?_, ?_, hp.symm⟩
  · unfold CreatePointCloudFromRGBDImage Run.result
    rw [← hf, hnofault]
    rfl
  · unfold CreatePointCloudFromDepthImage Run.result
    rw [hnofault]
    rfl


/-- Witness of C19: the 2x1 sample depth and colour images. -/
theorem rgbd_points_eq_depth_points_witness :
    sampleColor.width_ = sampleDepth.width_ ∧ sampleColor.height_ = sampleDepth.height_ ∧
    sampleColor.HoldsAllLines ∧ sampleDepth.HoldsAllLines ∧
    ∃ rgbd_cloud depth_cloud,
      CreatePointCloudFromRGBDImage sampleDepth sampleColor sampleIntrinsic sampleExtrinsic
        1000 = some rgbd_cloud ∧
      CreatePointCloudFromDepthImage sampleDepth sampleIntrinsic sampleExtrinsic 1000 =
        some depth_cloud ∧
      rgbd_cloud.points_ = depth_cloud.points_ :=
  ⟨by decide, by decide, by decide, by decide,
    (rgbd_points_eq_depth_points sampleDepth sampleColor sampleIntrinsic sampleExtrinsic 1000
      rfl rfl (by decide) (by decide) (by decide)).2.2 (fun _ => by decide)⟩

/-! ## The colours of an RGB-D pair -/

/-- The RGB-D loop body emits the colour of a pixel exactly when its raw depth is
non-zero, for a colour pixel inside the colour buffer. -/
theorem rgbdColorEmit_eq_ite (depth color : Image) (ij : Nat × Nat)
    (hc : ∃ c, color.load8x3 (colorOffset color ij.1 ij.2) = some c) :
    rgbdColorEmit depth color ij.1 ij.2 =
      if rawDepth depth ij ≠ 0 then some (pixelColor (colorBytes color ij)) else none := by
  obtain ⟨c, hc⟩ := hc
  unfold rgbdColorEmit rawDepth colorBytes
  cases h : depth.load16 (depthOffset depth ij.1 ij.2) with
  | none => simp
  | some d =>
    by_cases hd : d = 0
    · simp [hd]
    · have : d > 0 := Nat.pos_of_ne_zero hd
      simp [hd, this, hc]

/-- The colours of the scan are the colours of the non-zero pixels. -/
theorem rgbdColors_eq_map (depth color : Image)
    (hcc : color.num_of_channels_ = 3) (hcb : color.bytes_per_channel_ = 1)
    (hccov : color.HoldsAllLines)
    (hw : depth.width_ ≤ color.width_) (hh : depth.height_ ≤ color.height_) :
    rgbdColors depth color =
      (nonZeroPixels depth).map fun ij => pixelColor (colorBytes color ij) := by
  unfold rgbdColors nonZeroPixels rowMajorPixels
  rw [flatMap_filterMap_pixels (fun ij => rgbdColorEmit depth color ij.1 ij.2)]
  rw [← filterMap_ite_eq_map_filter]
  apply List.filterMap_congr
  intro ij hij
  rw [List.mem_flatMap] at hij
  obtain ⟨i, hi, hij⟩ := hij
  rw [List.mem_map] at hij
  obtain ⟨j, hj, rfl⟩ := hij
  rw [List.mem_range] at hi hj
  apply rgbdColorEmit_eq_ite
  obtain ⟨h0, h1⟩ := colorOffset_inBounds color hcc hcb hccov i j (by omega) (by omega)
  exact color.load8x3_isSome _ h0 h1

/-- Every component of a colour made from three bytes lies in `[0, 1]`. -/
theorem pixelColor_unit (color : Image) (ij : Nat × Nat) (k : Fin 3) :
    0 ≤ pixelColor (colorBytes color ij) k ∧ pixelColor (colorBytes color ij) k ≤ 1 := by
  have hbytes : (colorBytes color ij).1 ≤ 255 ∧ (colorBytes color ij).2.1 ≤ 255 ∧
      (colorBytes color ij).2.2 ≤ 255 := by
    unfold colorBytes Image.load8x3
    split
    · rename_i r g b _ _ _
      exact ⟨by have := r.isLt; simp only [Option.getD_some]; omega,
        by have := g.isLt; simp only [Option.getD_some]; omega,
        by have := b.isLt; simp only [Option.getD_some]; omega⟩
    · simp
  obtain ⟨h1, h2, h3⟩ := hbytes
  have c1 : ((colorBytes color ij).1 : ℚ) ≤ 255 := by exact_mod_cast h1
  have c2 : ((colorBytes color ij).2.1 : ℚ) ≤ 255 := by exact_mod_cast h2
  have c3 : ((colorBytes color ij).2.2 : ℚ) ≤ 255 := by exact_mod_cast h3
  have n1 : (0 : ℚ) ≤ ((colorBytes color ij).1 : ℚ) := Nat.cast_nonneg _
  have n2 : (0 : ℚ) ≤ ((colorBytes color ij).2.1 : ℚ) := Nat.cast_nonneg _
  have n3 : (0 : ℚ) ≤ ((colorBytes color ij).2.2 : ℚ) := Nat.cast_nonneg _
  have d1 : ((colorBytes color ij).1 : ℚ) / 255 ≤ 1 := (div_le_one (by norm_num)).mpr c1
  have d2 : ((colorBytes color ij).2.1 : ℚ) / 255 ≤ 1 := (div_le_one (by norm_num)).mpr c2
  have d3 : ((colorBytes color ij).2.2 : ℚ) / 255 ≤ 1 := (div_le_one (by norm_num)).mpr c3
  fin_cases k
  · exact ⟨div_nonneg n1 (by norm_num), d1⟩
  · exact ⟨div_nonneg n2 (by norm_num), d2⟩
  · exact ⟨div_nonneg n3 (by norm_num), d3⟩

/-- When both images have the required formats, both buffers hold all of their
lines and the colour image is at least as wide and as high as the depth image,
`CreatePointCloudFromRGBDImage` returns a cloud with as many colours as points:
the points are the back-projections of the pixels with non-zero raw depth in
row-major order, the `k`-th colour is the three bytes of the colour pixel at the
row and column of the depth pixel that produced the `k`-th point, each divided
by 255, and every colour component lies in `[0, 1]`. -/
theorem rgbd_colors_match_points (depth color : Image)
    (intrinsic : PinholeCameraIntrinsic) (extrinsic : Matrix4d) (depth_scale : ℚ)
    (hdc : depth.num_of_channels_ = 1) (hdb : depth.bytes_per_channel_ = 2)
    (hcc : color.num_of_channels_ = 3) (hcb : color.bytes_per_channel_ = 1)
    (hdcov : depth.HoldsAllLines) (hccov : color.HoldsAllLines)
    (hw : depth.width_ ≤ color.width_) (hh : depth.height_ ≤ color.height_) :
    ∃ cloud, CreatePointCloudFromRGBDImage depth color intrinsic extrinsic depth_scale =
        some cloud ∧
      cloud.points_ = (nonZeroPixels depth).map (fun ij =>
        backProject intrinsic extrinsic.inverse depth_scale ij.1 ij.2 (rawDepth depth ij)) ∧
      cloud.colors_ = (nonZeroPixels depth).map (fun ij =>
        ![((colorBytes color ij).1 : ℚ) / 255, ((colorBytes color ij).2.1 : ℚ) / 255,
          ((colorBytes color ij).2.2 : ℚ) / 255]) ∧
      cloud.colors_.length = cloud.points_.length ∧
      ∀ c ∈ cloud.colors_, ∀ k, 0 ≤ c k ∧ c k ≤ 1 := by
  have hcol := rgbdColors_eq_map depth color hcc hcb hccov hw hh
  refine ⟨⟨nonZeroBackProjections depth intrinsic extrinsic.inverse depth_scale, [],
    (nonZeroPixels depth).map fun ij => pixelColor (colorBytes color ij)⟩, ?_, rfl, rfl, ?_, ?_⟩
  · unfold CreatePointCloudFromRGBDImage
    rw [CreatePointCloudFromRGBDImage_run_eq depth color intrinsic extrinsic depth_scale
      hdc hdb hcc hcb hdcov hccov hw hh, depthPoints_eq_nonZeroBackProjections, hcol]
    rfl
  · simp [nonZeroBackProjections]
  · intro c hc k
    simp only [List.mem_map] at hc
    obtain ⟨ij, -, rfl⟩ := hc
    exact pixelColor_unit color ij k

/-- Witness: the 2x1 sample depth and colour images yield one point with the
colour `(1, 1/5, 0)` of the colour pixel `(255, 51, 0)` at row 0, column 0. -/
theorem rgbd_colors_match_points_witness :
    sampleDepth.HoldsAllLines ∧ sampleColor.HoldsAllLines ∧
    nonZeroPixels sampleDepth = [(0, 0)] ∧ colorBytes sampleColor (0, 0) = (255, 51, 0) ∧
    ∃ cloud, CreatePointCloudFromRGBDImage sampleDepth sampleColor sampleIntrinsic
        sampleExtrinsic 1000 = some cloud ∧
      cloud.colors_ = [![1, 1 / 5, 0]] ∧ cloud.colors_.length = cloud.points_.length := by
  obtain ⟨cloud, h1, -, h3, h4, -⟩ :=
    rgbd_colors_match_points sampleDepth sampleColor sampleIntrinsic sampleExtrinsic 1000
      rfl rfl rfl rfl (by decide) (by decide) (by decide) (by decide)
  have hnz : nonZeroPixels sampleDepth = [(0, 0)] := by decide
  have hcb : colorBytes sampleColor (0, 0) = (255, 51, 0) := by decide
  refine ⟨by decide, by decide, hnz, hcb, cloud, h1, ?_, h4⟩
  rw [h3, hnz, List.map_cons, List.map_nil, hcb]
  congr 1
  funext k
  fin_cases k
  · simp
  · simp; norm_num
  · simp

/-- C20 (evaluation of the code at the failing input): the well-formed 2x1 depth
image and 1x1 colour image of C5 pass the format check; the colour image has no
pixel at row 0, column 1, where the depth image holds the raw depth 500; the run
pushes the point of that pixel and then loads its colour at byte offset 3 of the
3-byte colour buffer, outside the buffer: no cloud with a colour taken from the
colour pixel at that row and column is returned. -/
theorem rgbd_color_of_missing_pixel :
    (wideDepth.num_of_channels_ = 1 ∧ wideDepth.bytes_per_channel_ = 2) ∧
    (smallColor.num_of_channels_ = 3 ∧ smallColor.bytes_per_channel_ = 1) ∧
    wideDepth.data_.length = wideDepth.height_ * wideDepth.BytesPerLine ∧
    smallColor.data_.length = smallColor.height_ * smallColor.BytesPerLine ∧
    nonZeroPixels wideDepth = [(0, 1)] ∧ smallColor.width_ = 1 ∧
    colorOffset smallColor 0 1 = 3 ∧ smallColor.load8x3 3 = none ∧
    (CreatePointCloudFromRGBDImage_run wideDepth smallColor sampleIntrinsic 1
      1000).pointcloud.points_.length = 1 ∧
    (CreatePointCloudFromRGBDImage_run wideDepth smallColor sampleIntrinsic 1
      1000).pointcloud.colors_.length = 0 ∧
    (CreatePointCloudFromRGBDImage_run wideDepth smallColor sampleIntrinsic 1 1000).fault =
      true ∧
    CreatePointCloudFromRGBDImage wideDepth smallColor sampleIntrinsic 1 1000 = none := by
  refine ⟨by decide, by decide, by decide, by decide, by decide, by decide, by decide,
    by decide, by decide, by decide, by decide, by decide⟩

/-! ## The data directory of `EvaluateFeatureMatch` -/

/-- With no `--dir` option the directory is the parent directory of the log file
followed by `pcds/`, whatever the helpers compute; it differs from the parent
directory followed by `pcd/`. -/
theorem main_pcd_dirname_default (getOption : List String → String → String)
    (parentDirectory : String → String) (argv : List String)
    (hdir : getOption argv "--dir" = "") :
    main_pcd_dirname getOption parentDirectory argv =
      parentDirectory (getOption argv "--log") ++ "pcds/" ∧
    main_pcd_dirname getOption parentDirectory argv ≠
      parentDirectory (getOption argv "--log") ++ "pcd/" := by
  have h1 : main_pcd_dirname getOption parentDirectory argv =
      parentDirectory (getOption argv "--log") ++ "pcds/" := by
    unfold main_pcd_dirname
    simp [hdir]
  refine ⟨h1, ?_⟩
  rw [h1]
  intro h
  have hlen := congrArg String.length h
  simp [String.length_append] at hlen
  revert hlen
  decide


/-- C15 (evaluation of the code at the failing input): run as
`EvaluateFeatureMatch --log /data/run/result.log`, with no `--dir` option, `main`
reads the point clouds from `/data/run/pcds/`, while the help text of `--dir`
names the parent directory of the log file followed by `pcd/`, that is
`/data/run/pcd/`. -/
theorem default_data_directory_is_pcds :
    GetProgramOptionAsString ["EvaluateFeatureMatch", "--log", "/data/run/result.log"]
      "--dir" = "" ∧
    GetProgramOptionAsString ["EvaluateFeatureMatch", "--log", "/data/run/result.log"]
      "--log" = "/data/run/result.log" ∧
    GetFileParentDirectory "/data/run/result.log" = "/data/run/" ∧
    main_pcd_dirname GetProgramOptionAsString GetFileParentDirectory
      ["EvaluateFeatureMatch", "--log", "/data/run/result.log"] = "/data/run/pcds/" ∧
    main_pcd_dirname GetProgramOptionAsString GetFileParentDirectory
      ["EvaluateFeatureMatch", "--log", "/data/run/result.log"] ≠ "/data/run/" ++ "pcd/" ∧
    PrintHelp_dir =
      "    --dir directory           : The directory storing all data files. By default it is the "
        ++ "parent directory of the log file + pcd/" ++ ".\n" := by
  refine ⟨by decide, by decide, by decide, by decide, by decide, by decide⟩

/-! ## TSDF integration (modelled from the spec) -/

/-- The voxel of the unit volume seen through the identity pose. -/
theorem unitVolume_observe (image : DepthFrame) (d : Nat)
    (hw : image.depth.width_ = 1) (hh : image.depth.height_ = 1)
    (hd : image.depth.load16 0 = some d) (hpos : 0 < d) :
    unitVolume.observe image unitIntrinsic 1 0 = some ((d : ℚ) / image.depth_scale - 1) := by
  have hc : unitVolume.grid.coordinate ((0 : Nat) : Int) = (0, 0, 0) := by decide
  have hcen : unitVolume.voxelCenter 0 0 0 = ![0, 0, 1] := by
    funext k
    fin_cases k <;> simp [TSDFVolume.voxelCenter, unitVolume] <;> norm_num
  unfold TSDFVolume.observe
  simp only [hc, hcen, Matrix.one_mulVec]
  simp [homogeneous, unitIntrinsic, PinholeCameraIntrinsic.GetFocalLength,
    PinholeCameraIntrinsic.GetPrincipalPoint, hw, hh, depthOffset, hd, hpos]


/-- The voxels of the volume after one `Integrate` call of an accepted frame. -/
theorem TSDFVolume.Integrate_voxel (vol : TSDFVolume) (image : DepthFrame)
    (intrinsic : PinholeCameraIntrinsic) (extrinsic : Matrix4d) (idx : Nat)
    (hc : image.depth.num_of_channels_ = 1) (hb : image.depth.bytes_per_channel_ = 2) :
    (vol.Integrate image intrinsic extrinsic).voxels_[idx]? =
      (vol.voxels_[idx]?).map fun voxel =>
        TSDFVolume.fuse vol.sdf_trunc_ voxel (vol.observe image intrinsic extrinsic idx) := by
  unfold TSDFVolume.Integrate
  simp [hc, hb, List.getElem?_mapIdx]

/-- Fusing two observations into a voxel of non-negative weight gives the same
voxel in either order. -/
theorem TSDFVolume.fuse_comm (t : ℚ) (voxel : Voxel) (a b : Option ℚ)
    (hw : 0 ≤ voxel.weight) :
    TSDFVolume.fuse t (TSDFVolume.fuse t voxel a) b =
      TSDFVolume.fuse t (TSDFVolume.fuse t voxel b) a := by
  have h1 : voxel.weight + 1 ≠ 0 := by linarith
  have h2 : voxel.weight + 1 + 1 ≠ 0 := by linarith
  cases a with
  | none => rfl
  | some sa =>
    cases b with
    | none => rfl
    | some sb =>
      by_cases ha : -t ≤ sa
      · by_cases hb : -t ≤ sb
        · simp only [TSDFVolume.fuse, ha, hb, if_true, mul_one, Voxel.mk.injEq, and_true]
          rw [div_mul_cancel₀ _ h1, div_mul_cancel₀ _ h1]
          congr 1
          ring
        · simp [TSDFVolume.fuse, ha, hb]
      · by_cases hb : -t ≤ sb
        · simp [TSDFVolume.fuse, ha, hb]
        · simp [TSDFVolume.fuse, ha, hb]

/-- What a frame observes does not depend on the voxel data of the volume. -/
theorem TSDFVolume.observe_Integrate (vol : TSDFVolume) (image image2 : DepthFrame)
    (intrinsic intrinsic2 : PinholeCameraIntrinsic) (extrinsic extrinsic2 : Matrix4d)
    (idx : Nat) :
    (vol.Integrate image intrinsic extrinsic).observe image2 intrinsic2 extrinsic2 idx =
      vol.observe image2 intrinsic2 extrinsic2 idx := by
  unfold TSDFVolume.Integrate
  split <;> rfl

/-- The volume after two `Integrate` calls of accepted frames. -/
theorem TSDFVolume.Integrate_Integrate (vol : TSDFVolume) (A B : PosedFrame)
    (hA : A.image.depth.num_of_channels_ = 1 ∧ A.image.depth.bytes_per_channel_ = 2)
    (hB : B.image.depth.num_of_channels_ = 1 ∧ B.image.depth.bytes_per_channel_ = 2) :
    (vol.integrateFrame A).integrateFrame B =
      { vol with voxels_ := vol.voxels_.mapIdx (fun idx voxel =>
          TSDFVolume.fuse vol.sdf_trunc_
            (TSDFVolume.fuse vol.sdf_trunc_ voxel
              (vol.observe A.image A.intrinsic A.extrinsic idx))
            (vol.observe B.image B.intrinsic B.extrinsic idx)) } := by
  unfold TSDFVolume.integrateFrame
  have hobs := fun idx => TSDFVolume.observe_Integrate vol A.image B.image A.intrinsic
    B.intrinsic A.extrinsic B.extrinsic idx
  have hA' : ¬ (A.image.depth.num_of_channels_ ≠ 1 ∨ A.image.depth.bytes_per_channel_ ≠ 2) := by
    simp [hA.1, hA.2]
  have hB' : ¬ (B.image.depth.num_of_channels_ ≠ 1 ∨ B.image.depth.bytes_per_channel_ ≠ 2) := by
    simp [hB.1, hB.2]
  have hAeq : vol.Integrate A.image A.intrinsic A.extrinsic =
      { vol with voxels_ := vol.voxels_.mapIdx (fun idx voxel =>
          TSDFVolume.fuse vol.sdf_trunc_ voxel
            (vol.observe A.image A.intrinsic A.extrinsic idx)) } := by
    unfold TSDFVolume.Integrate
    rw [if_neg hA']
  have hBeq : ∀ w : TSDFVolume, w.Integrate B.image B.intrinsic B.extrinsic =
      { w with voxels_ := w.voxels_.mapIdx (fun idx voxel =>
          TSDFVolume.fuse w.sdf_trunc_ voxel
            (w.observe B.image B.intrinsic B.extrinsic idx)) } := by
    intro w
    unfold TSDFVolume.Integrate
    rw [if_neg hB']
  rw [hBeq]
  simp only [hobs]
  rw [hAeq]
  simp only [List.mapIdx_mapIdx]
  rfl

/-- C12: in exact arithmetic, for every TSDF volume state (whose weights are not
negative, the invariant of the data model) and every two frames `A` and `B`
(each with its own intrinsics and extrinsics), integrating `A` then `B` gives the
same volume, hence the same distance and the same weight in every voxel, as
integrating `B` then `A`. -/
theorem integrate_order_independent (vol : TSDFVolume) (A B : PosedFrame)
    (hw : ∀ v ∈ vol.voxels_, 0 ≤ v.weight) :
    (vol.integrateFrame A).integrateFrame B = (vol.integrateFrame B).integrateFrame A ∧
    ∀ idx : Nat, (((vol.integrateFrame A).integrateFrame B).voxels_[idx]?).map Voxel.tsdf =
        (((vol.integrateFrame B).integrateFrame A).voxels_[idx]?).map Voxel.tsdf ∧
      (((vol.integrateFrame A).integrateFrame B).voxels_[idx]?).map Voxel.weight =
        (((vol.integrateFrame B).integrateFrame A).voxels_[idx]?).map Voxel.weight := by
  have key : (vol.integrateFrame A).integrateFrame B =
      (vol.integrateFrame B).integrateFrame A := by
    by_cases hA : A.image.depth.num_of_channels_ = 1 ∧ A.image.depth.bytes_per_channel_ = 2
    · by_cases hB : B.image.depth.num_of_channels_ = 1 ∧ B.image.depth.bytes_per_channel_ = 2
      · rw [TSDFVolume.Integrate_Integrate vol A B hA hB,
          TSDFVolume.Integrate_Integrate vol B A hB hA]
        congr 1
        apply List.ext_getElem?
        intro n
        rw [List.getElem?_mapIdx, List.getElem?_mapIdx]
        cases hn : vol.voxels_[n]? with
        | none => rfl
        | some v =>
          have hv : v ∈ vol.voxels_ := List.getElem?_mem hn
          simp only [Option.map_some']
          rw [TSDFVolume.fuse_comm _ _ _ _ (hw v hv)]
      · have hB' : B.image.depth.num_of_channels_ ≠ 1 ∨ B.image.depth.bytes_per_channel_ ≠ 2 := by
          by_cases h1 : B.image.depth.num_of_channels_ = 1
          · exact Or.inr (fun h2 => hB ⟨h1, h2⟩)
          · exact Or.inl h1
        have hBid : ∀ w : TSDFVolume, w.integrateFrame B = w := by
          intro w
          unfold TSDFVolume.integrateFrame TSDFVolume.Integrate
          rw [if_pos hB']
        rw [hBid, hBid]
    · have hA' : A.image.depth.num_of_channels_ ≠ 1 ∨ A.image.depth.bytes_per_channel_ ≠ 2 := by
        by_cases h1 : A.image.depth.num_of_channels_ = 1
        · exact Or.inr (fun h2 => hA ⟨h1, h2⟩)
        · exact Or.inl h1
      have hAid : ∀ w : TSDFVolume, w.integrateFrame A = w := by
        intro w
        unfold TSDFVolume.integrateFrame TSDFVolume.Integrate
        rw [if_pos hA']
      rw [hAid, hAid]
  refine ⟨key, fun idx => ?_⟩
  rw [key]
  exact ⟨rfl, rfl⟩

/-! ## Integration on the unit volume, and the truncation band -/

/-- The unit volume after one accepted frame seen through the identity pose. -/
theorem unitVolume_Integrate (vol : TSDFVolume) (image : DepthFrame) (d : Nat)
    (hgrid : vol.grid = unitVolume.grid) (hlen : vol.length_ = unitVolume.length_)
    (horigin : vol.origin_ = unitVolume.origin_)
    (hc : image.depth.num_of_channels_ = 1) (hb : image.depth.bytes_per_channel_ = 2)
    (hw : image.depth.width_ = 1) (hh : image.depth.height_ = 1)
    (hd : image.depth.load16 0 = some d) (hpos : 0 < d) (v : Voxel)
    (hv : vol.voxels_ = [v]) :
    (vol.Integrate image unitIntrinsic 1).voxels_ =
      [TSDFVolume.fuse vol.sdf_trunc_ v (some ((d : ℚ) / image.depth_scale - 1))] := by
  have hobs : vol.observe image unitIntrinsic 1 0 =
      unitVolume.observe image unitIntrinsic 1 0 := by
    unfold TSDFVolume.observe TSDFVolume.voxelCenter
    rw [hgrid, hlen, horigin]
  unfold TSDFVolume.Integrate
  simp only [hc, hb, ne_eq, not_true_eq_false, or_self, if_false, hv, List.mapIdx_cons,
    List.mapIdx_nil]
  rw [hobs, unitVolume_observe image d hw hh hd hpos]


/-- An `Integrate` call changes nothing but the voxel data. -/
theorem TSDFVolume.Integrate_geometry (vol : TSDFVolume) (image : DepthFrame)
    (intrinsic : PinholeCameraIntrinsic) (extrinsic : Matrix4d) :
    (vol.Integrate image intrinsic extrinsic).grid = vol.grid ∧
    (vol.Integrate image intrinsic extrinsic).length_ = vol.length_ ∧
    (vol.Integrate image intrinsic extrinsic).origin_ = vol.origin_ ∧
    (vol.Integrate image intrinsic extrinsic).sdf_trunc_ = vol.sdf_trunc_ := by
  unfold TSDFVolume.Integrate
  split
  · exact ⟨rfl, rfl, rfl, rfl⟩
  · exact ⟨rfl, rfl, rfl, rfl⟩

/-- Witness of C12: the unit volume, a frame measuring 9/10 meter and a frame
measuring 3 meters; both orders end with the distance 1/5 and the weight 2. -/
theorem integrate_order_independent_witness :
    (∀ v ∈ unitVolume.voxels_, 0 ≤ v.weight) ∧
    ((unitVolume.integrateFrame ⟨closeFrame, unitIntrinsic, 1⟩).integrateFrame
        ⟨farFrame, unitIntrinsic, 1⟩).voxels_ = [⟨1 / 5, 2⟩] ∧
    (unitVolume.integrateFrame ⟨closeFrame, unitIntrinsic, 1⟩).integrateFrame
        ⟨farFrame, unitIntrinsic, 1⟩ =
      (unitVolume.integrateFrame ⟨farFrame, unitIntrinsic, 1⟩).integrateFrame
        ⟨closeFrame, unitIntrinsic, 1⟩ := by
  have hw : ∀ v ∈ unitVolume.voxels_, 0 ≤ v.weight := by
    intro v hv
    simp only [unitVolume, List.mem_singleton] at hv
    rw [hv]
  refine ⟨hw, ?_, (integrate_order_independent unitVolume ⟨closeFrame, unitIntrinsic, 1⟩
    ⟨farFrame, unitIntrinsic, 1⟩ hw).1⟩
  have h1 : (unitVolume.integrateFrame ⟨closeFrame, unitIntrinsic, 1⟩).voxels_ =
      [⟨-1 / 10, 1⟩] := by
    show (unitVolume.Integrate closeFrame unitIntrinsic 1).voxels_ = _
    rw [unitVolume_Integrate unitVolume closeFrame 900 rfl rfl rfl rfl rfl rfl rfl (by decide)
      (by decide) ⟨0, 0⟩ rfl]
    norm_num [TSDFVolume.fuse, TSDFVolume.clamp, unitVolume, closeFrame, max_def, min_def]
  have hgeo := TSDFVolume.Integrate_geometry unitVolume closeFrame unitIntrinsic 1
  show ((unitVolume.Integrate closeFrame unitIntrinsic 1).Integrate farFrame
    unitIntrinsic 1).voxels_ = _
  rw [unitVolume_Integrate _ farFrame 3000 hgeo.1 hgeo.2.1 hgeo.2.2.1
      rfl rfl rfl rfl (by decide) (by decide) ⟨-1 / 10, 1⟩ h1, hgeo.2.2.2]
  norm_num [TSDFVolume.fuse, TSDFVolume.clamp, unitVolume, farFrame, max_def, min_def]

/-- Under the integration rule of section 4.2 of the specification a voxel in
front of the truncation band is fused: the centre of the voxel of the
unit volume is 1 meter in front of the camera and the frame measures 3 meters
there, so the voxel is 2 meters in front of the measured surface, more than the
truncation distance 1/2; the call changes its distance from 0 to 1/2 and its
weight from 0 to 1. -/
theorem front_voxel_fused :
    unitVolume.sdf_trunc_ = 1 / 2 ∧
    unitVolume.observe farFrame unitIntrinsic 1 0 = some 2 ∧
    |(2 : ℚ)| > 1 / 2 ∧
    unitVolume.voxels_ = [⟨0, 0⟩] ∧
    (unitVolume.Integrate farFrame unitIntrinsic 1).voxels_ = [⟨1 / 2, 1⟩] ∧
    (unitVolume.Integrate farFrame unitIntrinsic 1).voxels_ ≠ unitVolume.voxels_ := by
  have hobs : unitVolume.observe farFrame unitIntrinsic 1 0 = some 2 := by
    rw [unitVolume_observe farFrame 3000 rfl rfl (by decide) (by decide)]
    norm_num [farFrame]
  have hint : (unitVolume.Integrate farFrame unitIntrinsic 1).voxels_ = [⟨1 / 2, 1⟩] := by
    rw [unitVolume_Integrate unitVolume farFrame 3000 rfl rfl rfl rfl rfl rfl rfl (by decide)
      (by decide) ⟨0, 0⟩ rfl]
    norm_num [TSDFVolume.fuse, TSDFVolume.clamp, unitVolume, farFrame, max_def, min_def]
  refine ⟨rfl, hobs, by norm_num, rfl, hint, ?_⟩
  rw [hint]
  simp [unitVolume]

/-- Under the integration rule of section 4.2 of the specification: for every
`Integrate` call and every voxel whose centre is
more than `truncDist` behind the measured surface along the camera ray
(`depth_measured - depth_projected < -truncDist`), the voxel's weight and
distance after the call equal their values before the call; a voxel whose centre
is more than `truncDist` in front of the measured surface
(`depth_measured - depth_projected > truncDist`) is fused with the clamped value
`+truncDist`. -/
theorem voxel_behind_band_untouched (vol : TSDFVolume) (image : DepthFrame)
    (intrinsic : PinholeCameraIntrinsic) (extrinsic : Matrix4d) (idx : Nat) (voxel : Voxel)
    (sdf : ℚ) (hvox : vol.voxels_[idx]? = some voxel)
    (hobs : vol.observe image intrinsic extrinsic idx = some sdf) :
    (sdf < -vol.sdf_trunc_ →
      (vol.Integrate image intrinsic extrinsic).voxels_[idx]? = some voxel) ∧
    (0 ≤ vol.sdf_trunc_ → vol.sdf_trunc_ < sdf →
      image.depth.num_of_channels_ = 1 ∧ image.depth.bytes_per_channel_ = 2 →
      (vol.Integrate image intrinsic extrinsic).voxels_[idx]? =
        some ⟨(voxel.tsdf * voxel.weight + vol.sdf_trunc_) / (voxel.weight + 1),
          voxel.weight + 1⟩) := by
  constructor
  · intro hs
    by_cases hfmt : image.depth.num_of_channels_ = 1 ∧ image.depth.bytes_per_channel_ = 2
    · rw [TSDFVolume.Integrate_voxel vol image intrinsic extrinsic idx hfmt.1 hfmt.2, hvox,
        hobs]
      have : ¬ (-vol.sdf_trunc_ ≤ sdf) := not_le.mpr hs
      simp [TSDFVolume.fuse, this]
    · have hfmt2 : image.depth.num_of_channels_ ≠ 1 ∨ image.depth.bytes_per_channel_ ≠ 2 := by
        by_cases h1 : image.depth.num_of_channels_ = 1
        · exact Or.inr (fun h2 => hfmt ⟨h1, h2⟩)
        · exact Or.inl h1
      unfold TSDFVolume.Integrate
      rw [if_pos hfmt2]
      exact hvox
  · intro ht hs hfmt
    rw [TSDFVolume.Integrate_voxel vol image intrinsic extrinsic idx hfmt.1 hfmt.2, hvox, hobs]
    have h1 : -vol.sdf_trunc_ ≤ sdf := by linarith
    have h2 : min vol.sdf_trunc_ sdf = vol.sdf_trunc_ := min_eq_left (le_of_lt hs)
    have h3 : max (-vol.sdf_trunc_) vol.sdf_trunc_ = vol.sdf_trunc_ :=
      max_eq_right (by linarith)
    simp [TSDFVolume.fuse, TSDFVolume.clamp, h1, h2, h3]

/-- An instance of the two cases: the frame measuring 1/4 meter puts the voxel of the
unit volume 3/4 meter behind the surface and leaves it untouched; the frame
measuring 3 meters puts it 2 meters in front and fuses `+1/2`. -/
theorem voxel_behind_band_untouched_witness :
    unitVolume.observe nearFrame unitIntrinsic 1 0 = some (-3 / 4) ∧
    (-3 / 4 : ℚ) < -unitVolume.sdf_trunc_ ∧
    (unitVolume.Integrate nearFrame unitIntrinsic 1).voxels_[0]? = some ⟨0, 0⟩ ∧
    unitVolume.observe farFrame unitIntrinsic 1 0 = some 2 ∧
    (unitVolume.Integrate farFrame unitIntrinsic 1).voxels_[0]? =
      some ⟨((0 : ℚ) * 0 + unitVolume.sdf_trunc_) / (0 + 1), 0 + 1⟩ := by
  have hnear : unitVolume.observe nearFrame unitIntrinsic 1 0 = some (-3 / 4) := by
    rw [unitVolume_observe nearFrame 250 rfl rfl (by decide) (by decide)]
    norm_num [nearFrame]
  have hfar : unitVolume.observe farFrame unitIntrinsic 1 0 = some 2 := by
    rw [unitVolume_observe farFrame 3000 rfl rfl (by decide) (by decide)]
    norm_num [farFrame]
  have hlt : (-3 / 4 : ℚ) < -unitVolume.sdf_trunc_ := by norm_num [unitVolume]
  exact ⟨hnear, hlt,
    (voxel_behind_band_untouched unitVolume nearFrame unitIntrinsic 1 0 ⟨0, 0⟩ (-3 / 4) rfl
      hnear).1 hlt,
    hfar,
    (voxel_behind_band_untouched unitVolume farFrame unitIntrinsic 1 0 ⟨0, 0⟩ 2 rfl hfar).2
      (by norm_num [unitVolume]) (by norm_num [unitVolume]) (by decide)⟩

/-- Converting the images of a list under a map whose images the conversion
reads back. -/
theorem convertAll_map {α β γ : Type} (f : γ → Option β) (g : α → γ) (h : α → β)
    (hfg : ∀ a, f (g a) = some (h a)) (l : List α) :
    convertAll f (l.map g) = some (l.map h) := by
  induction l with
  | nil => rfl
  | cons a l ih => simp [convertAll, hfg, ih]

/-- The entry `j` of the list of the values of a function on `Fin n`. -/
theorem getD_map_finRange {α : Type} (n : Nat) (f : Fin n → α) (d : α) (j : Fin n) :
    ((List.finRange n).map f).getD j.val d = f j := by
  have hlen : j.val < ((List.finRange n).map f).length := by
    rw [List.length_map, List.length_finRange]; exact j.isLt
  rw [List.getD_eq_getElem _ _ hlen, List.getElem_map, List.getElem_finRange]
  rfl

/-- A persisted matrix is read back as the same matrix. -/
theorem matrixFromJson_matrixToJson {n : Nat} (m : Matrix (Fin n) (Fin n) ℚ) :
    matrixFromJson n (matrixToJson m) = some m := by
  have hrows : convertAll rowFromJson ((List.finRange n).map fun i =>
      Json.array ((List.finRange n).map fun j => Json.number (m i j))) =
      some ((List.finRange n).map fun i => (List.finRange n).map fun j => m i j) := by
    apply convertAll_map
    intro i
    show convertAll Json.asNumber _ = _
    exact convertAll_map Json.asNumber (fun j => Json.number (m i j)) (fun j => m i j)
      (fun j => rfl) _
  unfold matrixToJson matrixFromJson
  simp only [hrows]
  have hcond : ((List.finRange n).map fun i => (List.finRange n).map fun j => m i j).length = n ∧
      ∀ row ∈ (List.finRange n).map fun i => (List.finRange n).map fun j => m i j,
        row.length = n := by
    refine ⟨by simp, ?_⟩
    intro row hrow
    rw [List.mem_map] at hrow
    obtain ⟨i, -, rfl⟩ := hrow
    simp
  rw [if_pos hcond]
  congr 1
  ext i j
  rw [Matrix.of_apply, getD_map_finRange n (fun i => (List.finRange n).map fun j => m i j) [] i,
    getD_map_finRange]

/-- A persisted node is read back as the same node. -/
theorem node_json_round_trip (node : PoseGraphNode) :
    PoseGraphNode.ConvertFromJsonValue node.ConvertToJsonValue = some node := by
  simp [PoseGraphNode.ConvertFromJsonValue, PoseGraphNode.ConvertToJsonValue, optionalField,
    List.lookup, matrixFromJson_matrixToJson]

/-- A persisted edge is read back as the same edge. -/
theorem edge_json_round_trip (edge : PoseGraphEdge) :
    PoseGraphEdge.ConvertFromJsonValue edge.ConvertToJsonValue = some edge := by
  simp [PoseGraphEdge.ConvertFromJsonValue, PoseGraphEdge.ConvertToJsonValue, optionalField,
    requiredField, List.lookup, matrixFromJson_matrixToJson, Json.asInt, Json.asBool,
    Json.asNumber]

/-- C14: for every `PoseGraph` `g` with `N` nodes and `M` edges,
`ConvertFromJsonValue` applied to the value produced by `g.ConvertToJsonValue`
succeeds and yields a `PoseGraph` with the same `N` node poses and the same `M`
edges, equal field by field (`source_node_id`, `target_node_id`,
`transformation`, `information`, `uncertain`, `confidence`) and in the same
order. -/
theorem pose_graph_json_round_trip (g : PoseGraph) :
    ∃ read, PoseGraph.ConvertFromJsonValue g.ConvertToJsonValue = some read ∧
      read.nodes_.length = g.nodes_.length ∧ read.edges_.length = g.edges_.length ∧
      (∀ k : Nat, (read.nodes_[k]?).map PoseGraphNode.pose_ =
        (g.nodes_[k]?).map PoseGraphNode.pose_) ∧
      (∀ k : Nat, read.edges_[k]? = g.edges_[k]?) ∧
      read = g := by
  have hn := convertAll_map PoseGraphNode.ConvertFromJsonValue
    PoseGraphNode.ConvertToJsonValue id
    node_json_round_trip g.nodes_
  have he := convertAll_map PoseGraphEdge.ConvertFromJsonValue
    PoseGraphEdge.ConvertToJsonValue id
    edge_json_round_trip g.edges_
  rw [List.map_id] at hn he
  refine ⟨g, ?_, rfl, rfl, fun _ => rfl, fun _ => rfl, rfl⟩
  simp [PoseGraph.ConvertFromJsonValue, PoseGraph.ConvertToJsonValue, requiredField,
    List.lookup, arrayFromJson, hn, he]

/-! ## `ReadLogFile` -/

/-- The test `strlen(line_buffer) > 0 && line_buffer[0] != '#'` on the buffer of
a line holds exactly when the line starts neither with `#` nor with a NUL
character: the buffer of a blank line holds the newline. -/
theorem fgets_header_test (line : String) :
    (0 < strlen (fgets line) ∧ (fgets line).head? ≠ some '#') ↔
      ¬ (StartsWithHash line ∨ StartsWithNul line) := by
  unfold fgets StartsWithHash StartsWithNul strlen cstring
  cases line.data with
  | nil => simp [NUL]
  | cons c cs =>
    by_cases hc : c = NUL
    · subst hc
      simp [NUL]
    · simp [hc, List.takeWhile_cons]

/-- The values `%d` stores are the integers written, each reduced as `%d`
stores it. -/
theorem conversions_d_eq_map (n : Nat) :
    ∀ input : List Char, conversions_d n input = (integersAt n input).map stored_d := by
  induction n with
  | zero => intro input; rfl
  | succ n ih =>
    intro input
    unfold conversions_d integersAt scan_d
    cases scanInteger input with
    | none => rfl
    | some r => simp [ih]

/-- The values that `sscanf` stores for the header of a line. -/
theorem sscanf_d_fgets (line : String) :
    sscanf_d 3 (fgets line) = (writtenIntegers line).map stored_d :=
  conversions_d_eq_map 3 _

/-- Three integers were read exactly when the result of the scan is a list of
three values, which are the first two integers of the header as stored and a
third one. -/
theorem beginsWithThreeIntegers_iff (line : String) :
    BeginsWithThreeIntegers line ↔
      ∃ k, sscanf_d 3 (fgets line) =
        [stored_d (headerPair line).1, stored_d (headerPair line).2, k] := by
  unfold BeginsWithThreeIntegers headerPair
  rw [sscanf_d_fgets]
  constructor
  · intro h
    obtain ⟨a, b, c, habc⟩ := List.length_eq_three.mp h
    rw [habc]
    exact ⟨stored_d c, rfl⟩
  · rintro ⟨k, hk⟩
    have := congrArg List.length hk
    simpa using this

/-- The loop passes over a line that starts with `#` or with a NUL
character. -/
theorem ReadLogFile_loop_passed_over (line : String) (rest : List String)
    (trans : TextMatrix4d) (pair_ids : List (Int × Int)) (transformations : List TextMatrix4d)
    (h : StartsWithHash line ∨ StartsWithNul line) :
    ReadLogFile_loop (line :: rest) trans pair_ids transformations =
      ReadLogFile_loop rest trans pair_ids transformations := by
  rw [ReadLogFile_loop, if_neg]
  rw [fgets_header_test]
  exact not_not.mpr h

/-- The loop returns `false` at a header that does not begin with three
integers. -/
theorem ReadLogFile_loop_bad_header (line : String) (rest : List String)
    (trans : TextMatrix4d) (pair_ids : List (Int × Int)) (transformations : List TextMatrix4d)
    (h : ¬ (StartsWithHash line ∨ StartsWithNul line)) (h3 : ¬ BeginsWithThreeIntegers line) :
    ReadLogFile_loop (line :: rest) trans pair_ids transformations =
      ⟨false, pair_ids, transformations⟩ := by
  rw [ReadLogFile_loop, if_pos ((fgets_header_test line).mpr h)]
  split
  · next i j k heq =>
    have hlen := congrArg List.length heq
    rw [sscanf_d_fgets, List.length_map] at hlen
    exact absurd hlen h3
  · rfl

/-- The loop returns `false` at a header followed by fewer than four lines. -/
theorem ReadLogFile_loop_truncated (line : String) (rest : List String)
    (trans : TextMatrix4d) (pair_ids : List (Int × Int)) (transformations : List TextMatrix4d)
    (h : ¬ (StartsWithHash line ∨ StartsWithNul line)) (h4 : rest.length < 4) :
    ReadLogFile_loop (line :: rest) trans pair_ids transformations =
      ⟨false, pair_ids, transformations⟩ := by
  rw [ReadLogFile_loop, if_pos ((fgets_header_test line).mpr h)]
  split
  · split
    · next l0 l1 l2 l3 rest' =>
      simp at h4
      omega
    · rfl
  · rfl

/-- At a header that begins with three integers and is followed by four lines,
the loop reads the four lines into the rows of `trans`, pushes the pair as
stored and the matrix, and goes on behind the four lines. -/
theorem ReadLogFile_loop_record (line l0 l1 l2 l3 : String) (rest : List String)
    (trans : TextMatrix4d) (pair_ids : List (Int × Int)) (transformations : List TextMatrix4d)
    (h : ¬ (StartsWithHash line ∨ StartsWithNul line)) (h3 : BeginsWithThreeIntegers line) :
    ReadLogFile_loop (line :: l0 :: l1 :: l2 :: l3 :: rest) trans pair_ids transformations =
      ReadLogFile_loop rest
        ((((trans.scanRow 0 (fgets l0)).scanRow 1 (fgets l1)).scanRow 2 (fgets l2)).scanRow 3
          (fgets l3))
        (pair_ids ++ [(stored_d (headerPair line).1, stored_d (headerPair line).2)])
        (transformations ++
          [(((trans.scanRow 0 (fgets l0)).scanRow 1 (fgets l1)).scanRow 2 (fgets l2)).scanRow 3
            (fgets l3)]) := by
  obtain ⟨k, heq⟩ := (beginsWithThreeIntegers_iff line).mp h3
  rw [ReadLogFile_loop, if_pos ((fgets_header_test line).mpr h)]
  simp only [heq]

/-- No header is read in a line that is passed over. -/
theorem headersBy_passed_over (p : String → Bool) (line : String) (rest : List String)
    (h : p line = true) : headersBy p (line :: rest) = headersBy p rest := by
  rw [headersBy.eq_def]
  simp only [h, if_true]

/-- Reading stops at a header that does not begin with three integers. -/
theorem headersBy_bad_header (p : String → Bool) (line : String) (rest : List String)
    (h : p line = false) (h3 : ¬ BeginsWithThreeIntegers line) :
    headersBy p (line :: rest) = [(line, rest)] := by
  unfold headersBy
  simp [h, h3]

/-- Reading stops at a header followed by fewer than four lines. -/
theorem headersBy_truncated (p : String → Bool) (line : String) (rest : List String)
    (h : p line = false) (h4 : rest.length < 4) :
    headersBy p (line :: rest) = [(line, rest)] := by
  unfold headersBy
  simp only [h, Bool.false_eq_true, if_false]
  split
  · split
    · next l0 l1 l2 l3 rest' =>
      simp at h4
      omega
    · rfl
  · rfl

/-- Behind a complete record the next header is looked for after its four
lines. -/
theorem headersBy_record (p : String → Bool) (line l0 l1 l2 l3 : String) (rest : List String)
    (h : p line = false) (h3 : BeginsWithThreeIntegers line) :
    headersBy p (line :: l0 :: l1 :: l2 :: l3 :: rest) =
      (line, l0 :: l1 :: l2 :: l3 :: rest) :: headersBy p rest := by
  rw [headersBy]
  simp [h, h3]

/-- Induction along the way `ReadLogFile` reads a file: over a line that is
passed over, up to a header that does not begin with three integers, up to a
record cut short, or over a complete record. -/
theorem log_lines_induction {motive : List String → Prop}
    (nil : motive [])
    (passed_over : ∀ line rest, StartsWithHash line ∨ StartsWithNul line → motive rest →
      motive (line :: rest))
    (bad_header : ∀ line rest, ¬ (StartsWithHash line ∨ StartsWithNul line) →
      ¬ BeginsWithThreeIntegers line → motive (line :: rest))
    (truncated : ∀ line rest, ¬ (StartsWithHash line ∨ StartsWithNul line) →
      BeginsWithThreeIntegers line → rest.length < 4 → motive (line :: rest))
    (record : ∀ line l0 l1 l2 l3 rest, ¬ (StartsWithHash line ∨ StartsWithNul line) →
      BeginsWithThreeIntegers line → motive rest →
      motive (line :: l0 :: l1 :: l2 :: l3 :: rest))
    (lines : List String) : motive lines := by
  suffices H : ∀ (n : Nat) (lines : List String), lines.length = n → motive lines from
    H _ lines rfl
  intro n
  induction n using Nat.strong_induction_on with
  | _ n ih =>
    intro lines hn
    match lines, hn with
    | [], _ => exact nil
    | line :: rest, hn =>
      by_cases hc : StartsWithHash line ∨ StartsWithNul line
      · exact passed_over line rest hc (ih rest.length (by simp at hn; omega) rest rfl)
      · by_cases h3 : BeginsWithThreeIntegers line
        · match rest, hn with
          | l0 :: l1 :: l2 :: l3 :: rest', hn =>
            exact record line l0 l1 l2 l3 rest' hc h3
              (ih rest'.length (by simp at hn; omega) rest' rfl)
          | [], _ => exact truncated line _ hc h3 (by simp)
          | [_], _ => exact truncated line _ hc h3 (by simp)
          | [_, _], _ => exact truncated line _ hc h3 (by simp)
          | [_, _, _], _ => exact truncated line _ hc h3 (by simp)
        · exact bad_header line rest hc h3

/-- In a file none of whose lines starts with a NUL character, the headers that
`ReadLogFile` reads are the headers in the words of the specification. -/
theorem recordHeaders_eq_claimedHeaders (lines : List String)
    (h : ∀ line ∈ lines, ¬ StartsWithNul line) : recordHeaders lines = claimedHeaders lines := by
  unfold recordHeaders claimedHeaders
  induction lines using log_lines_induction with
  | nil => rfl
  | passed_over line rest hc ih =>
    have hn : ¬ StartsWithNul line := h line (List.mem_cons_self _ _)
    have hh : StartsWithHash line := hc.resolve_right hn
    rw [headersBy_passed_over _ _ _ (by simp [hh]), headersBy_passed_over _ _ _ (by simp [hh])]
    exact ih fun l hl => h l (List.mem_cons_of_mem _ hl)
  | bad_header line rest hc h3 =>
    rw [headersBy_bad_header _ _ _ (by simp [hc]) h3,
      headersBy_bad_header _ _ _ (by simpa using fun hh => hc (Or.inl hh)) h3]
  | truncated line rest hc h3 h4 =>
    rw [headersBy_truncated _ _ _ (by simp [hc]) h4,
      headersBy_truncated _ _ _ (by simpa using fun hh => hc (Or.inl hh)) h4]
  | record line l0 l1 l2 l3 rest hc h3 ih =>
    rw [headersBy_record _ _ _ _ _ _ _ (by simp [hc]) h3,
      headersBy_record _ _ _ _ _ _ _ (by simpa using fun hh => hc (Or.inl hh)) h3]
    rw [ih fun l hl => h l (by simp only [List.mem_cons] at hl ⊢; tauto)]

/-- The loop returns `false` exactly when a line read as a header does not
begin with three integers or has fewer than four lines behind it. -/
theorem ReadLogFile_loop_returned_false_iff (lines : List String) :
    ∀ (trans : TextMatrix4d) (pair_ids : List (Int × Int))
      (transformations : List TextMatrix4d),
      (ReadLogFile_loop lines trans pair_ids transformations).returned = false ↔
        ∃ h ∈ recordHeaders lines, ¬ BeginsWithThreeIntegers h.1 ∨ h.2.length < 4 := by
  unfold recordHeaders
  induction lines using log_lines_induction with
  | nil =>
    intro trans pair_ids transformations
    simp [ReadLogFile_loop, headersBy]
  | passed_over line rest hc ih =>
    intro trans pair_ids transformations
    rw [ReadLogFile_loop_passed_over _ _ _ _ _ hc, headersBy_passed_over _ _ _ (by simp [hc])]
    exact ih trans pair_ids transformations
  | bad_header line rest hc h3 =>
    intro trans pair_ids transformations
    rw [ReadLogFile_loop_bad_header _ _ _ _ _ hc h3,
      headersBy_bad_header _ _ _ (by simp [hc]) h3]
    simp [h3]
  | truncated line rest hc h3 h4 =>
    intro trans pair_ids transformations
    rw [ReadLogFile_loop_truncated _ _ _ _ _ hc h4,
      headersBy_truncated _ _ _ (by simp [hc]) h4]
    simp [h4]
  | record line l0 l1 l2 l3 rest hc h3 ih =>
    intro trans pair_ids transformations
    rw [ReadLogFile_loop_record _ _ _ _ _ _ _ _ _ hc h3,
      headersBy_record _ _ _ _ _ _ _ (by simp [hc]) h3, ih]
    simp [h3]

/-- Counterexample to C21 as stated: the file made of one line whose first
character is NUL. In the words of the specification that line, which does not
start with `#`, is read as a record header, and it does not begin with three
integers; yet `ReadLogFile` returns `true`, because the test
`strlen(line_buffer) > 0` passes over the line. -/
theorem nul_line_skipped_counterexample :
    (ReadLogFile (some nulLineLog) unassigned [] []).returned = true ∧
    claimedHeaders nulLineLog = [(nulLine, [])] ∧
    ¬ StartsWithHash nulLine ∧ ¬ BeginsWithThreeIntegers nulLine ∧
    strlen (fgets nulLine) = 0 := by
  decide

/-- C21, amended: `ReadLogFile` returns `false` if and only if the file cannot
be opened, or some line that is read as a record header (a line that starts
neither with `#` nor with a NUL character, blank lines included) does not begin
with three integers, or fewer than four lines follow a header. In a file none
of whose lines starts with a NUL character these headers are the lines the
specification names. The lines of a record play no part: a file that starts
with a header and any four lines, whatever they hold, gives the return value of
the file behind them. -/
theorem ReadLogFile_returns_false_iff (file : Option (List String)) (trans : TextMatrix4d)
    (pair_ids : List (Int × Int)) (transformations : List TextMatrix4d) :
    ((ReadLogFile file trans pair_ids transformations).returned = false ↔
      (file = none ∨ ∃ lines, file = some lines ∧
        ∃ h ∈ recordHeaders lines, ¬ BeginsWithThreeIntegers h.1 ∨ h.2.length < 4)) ∧
    (∀ lines, file = some lines → (∀ line ∈ lines, ¬ StartsWithNul line) →
      ((ReadLogFile file trans pair_ids transformations).returned = false ↔
        ∃ h ∈ claimedHeaders lines, ¬ BeginsWithThreeIntegers h.1 ∨ h.2.length < 4)) ∧
    (∀ header l0 l1 l2 l3 rest, file = some (header :: l0 :: l1 :: l2 :: l3 :: rest) →
      ¬ (StartsWithHash header ∨ StartsWithNul header) → BeginsWithThreeIntegers header →
      (ReadLogFile file trans pair_ids transformations).returned =
        (ReadLogFile (some rest) trans pair_ids transformations).returned) := by
  refine ⟨?_, ?_, ?_⟩
  · cases file with
    | none => simp [ReadLogFile]
    | some lines =>
      simp only [ReadLogFile, ReadLogFile_loop_returned_false_iff]
      simp
  · intro lines hfile hnul
    subst hfile
    simp only [ReadLogFile, ReadLogFile_loop_returned_false_iff]
    rw [recordHeaders_eq_claimedHeaders lines hnul]
  · intro header l0 l1 l2 l3 rest hfile hc h3
    subst hfile
    simp only [ReadLogFile]
    rw [ReadLogFile_loop_record _ _ _ _ _ _ _ _ _ hc h3]
    cases hr : (ReadLogFile_loop rest trans (clear pair_ids) (clear transformations)).returned with
    | false =>
      rw [ReadLogFile_loop_returned_false_iff] at hr ⊢
      exact hr
    | true =>
      rw [← Bool.not_eq_false, ReadLogFile_loop_returned_false_iff] at hr ⊢
      exact hr

/-- C21, witness: the sample file has a matrix line with two numbers only, and
the call does not return `false`; a blank line where a header is looked for
makes it return `false`. -/
theorem ReadLogFile_returns_false_iff_witness :
    ¬ HoldsFourNumbers "0 1" ∧ "0 1" ∈ sampleLog ∧
    (ReadLogFile (some sampleLog) unassigned [] []).returned ≠ false ∧
    (ReadLogFile (some blankLineLog) unassigned [] []).returned = false := by
  refine ⟨?_, by decide, ?_, ?_⟩
  · rintro ⟨row, hrow⟩
    have e : conversions_lf 4 (cstring (fgets "0 1")) =
        [Constant.finite false 0 10 0, Constant.finite false 1 10 0] := by decide
    have hlen := congrArg List.length hrow
    simp [sscanf_lf, e] at hlen
  · intro h
    have hrec : recordHeaders sampleLog =
        [("0 1 5", sampleLog.drop 2), ("3 4 5", sampleLog.drop 8)] := by decide
    rcases (ReadLogFile_returns_false_iff (some sampleLog) unassigned [] []).1.mp h with h' | h'
    · exact absurd h' (by simp)
    · obtain ⟨lines, hl, hd, hmem, hbad⟩ := h'
      cases hl
      rw [hrec] at hmem
      simp only [List.mem_cons, List.mem_singleton, List.not_mem_nil, or_false] at hmem
      rcases hmem with rfl | rfl
      · revert hbad
        decide
      · revert hbad
        decide
  · apply (ReadLogFile_returns_false_iff (some blankLineLog) unassigned [] []).1.mpr
    right
    exact ⟨blankLineLog, rfl, ("", []), by decide, by decide⟩

/-- No character of the literal behind the first one is a `P`: a substring that
starts at a position from 1 on does not start with `P`. -/
theorem repr_literal_tail_head :
    ∀ pos < 89, 1 ≤ pos →
      ("PoseGraphEdge from nodes %d to %d, access transformation to get relative transformation\n".data.drop
        pos).head? ≠ some 'P' := by
  decide

/-- The text of the specification starts with `P`, and its character at
position 25, behind `PoseGraphEdge from nodes `, is the `0` of the source id
when that id is 0. -/
theorem reprText_chars (T : Int) :
    (reprText 0 T).data[25]? = some '0' ∧ ∀ S : Int, (reprText S T).data.head? = some 'P' := by
  constructor
  · have hs : reprText 0 T = "PoseGraphEdge from nodes 0" ++ (" to " ++ toString T ++
        ", access transformation to get relative transformation\n") := by
      unfold reprText
      rw [String.append_assoc, String.append_assoc]
      rfl
    rw [hs, String.data_append, List.getElem?_append_left (by decide)]
    decide
  · intro S
    have hs : reprText S T = "PoseGraphEdge from nodes " ++ (toString S ++ " to " ++ toString T ++
        ", access transformation to get relative transformation\n") := by
      unfold reprText
      simp only [String.append_assoc]
    rw [hs, String.data_append]
    rfl

/-- C23: the `__repr__` of an edge does not write the node ids. What the code
returns is a piece of the format text itself, cut at the two ids: for the edge
of the default constructor (both ids -1) the call raises, for the edge from
node 0 to node 1 it returns the single letter `P`, and for no edge whose source
id is an `int` does it return the text with the ids in decimal. -/
theorem py_PoseGraphEdge_repr_cuts_format_text :
    py_PoseGraphEdge_repr py_PoseGraphEdge_default = .raised "IndexError" ∧
    py_PoseGraphEdge_repr (PoseGraphEdge.new (some 1) (some 0) none none none none) =
      .returned "P" ∧
    reprText 0 1 =
      "PoseGraphEdge from nodes 0 to 1, access transformation to get relative transformation\n" ∧
    ∀ rr : PoseGraphEdge, FitsInt rr.source_node_id_ →
      py_PoseGraphEdge_repr rr ≠ .returned (reprText rr.source_node_id_ rr.target_node_id_) := by
  refine ⟨by decide, by decide, by decide, ?_⟩
  intro rr hS hrepr
  obtain ⟨hlo, hhi⟩ := hS
  unfold INT_MIN at hlo
  unfold INT_MAX at hhi
  unfold py_PoseGraphEdge_repr std_string at hrepr
  split at hrepr
  · exact absurd hrepr (by simp)
  · next hpos =>
    have hlen : "PoseGraphEdge from nodes %d to %d, access transformation to get relative transformation\n".length
        = 88 := by decide
    rw [hlen] at hpos
    have hdata := congrArg String.data (PyOutcome.returned.inj hrepr)
    simp only at hdata
    have hS0 : 0 ≤ rr.source_node_id_ := by
      by_contra hneg
      apply hpos
      unfold size_t_of_int
      omega
    have hSz : size_t_of_int rr.source_node_id_ = rr.source_node_id_.toNat := by
      unfold size_t_of_int
      congr 1
      omega
    rw [hSz] at hpos hdata
    by_cases h0 : rr.source_node_id_ = 0
    · rw [h0] at hdata
      have h25 := congrArg (fun l : List Char => l[25]?) hdata
      simp only [Int.toNat_zero, List.drop_zero, (reprText_chars _).1] at h25
      rw [List.getElem?_take] at h25
      split at h25
      · revert h25
        decide
      · exact absurd h25 (by simp)
    · have hhead := congrArg List.head? hdata
      rw [(reprText_chars _).2] at hhead
      have hpos1 : 1 ≤ rr.source_node_id_.toNat := by omega
      have hne := repr_literal_tail_head rr.source_node_id_.toNat (by omega) hpos1
      cases hn : size_t_of_int rr.target_node_id_ with
      | zero =>
        rw [hn] at hhead
        simp at hhead
      | succ n =>
        rw [hn] at hhead
        apply hne
        rw [← hhead]
        cases hd : List.drop rr.source_node_id_.toNat
            "PoseGraphEdge from nodes %d to %d, access transformation to get relative transformation\n".data with
        | nil => rfl
        | cons c cs => rfl

end Open3D
